import Mathlib

/-!
# NMEA 0183 parser

Shallow embedding of the checksum and field utilities, the RMC and GGA
decoders and the per-character framing routine of the verbose parser
(`src/nmea_parser.cpp`), followed in the section on the compact parser by
the second implementation (`src/mega_epic_canbus_mcp_can/nmea_parser.cpp`),
whose definitions live in the namespace `Compact`.

Conventions of the embedding:

* a `char` is a byte, written as a natural number (`36` is `$`, `42` is `*`,
  `44` is `,`, `13` is CR, `10` is LF, `0` is NUL);
* a `const char*` that points to a NUL-terminated string is the list of the
  characters in front of the terminating NUL; a pointer that may be `NULL`
  is an `Option`; a pointer into a sentence is the offset from its start;
* `uint8_t` values are naturals, reduced modulo 256 where the code stores
  them;
* `float` values are kept abstract: the record is generic in the type of
  its real-valued fields and the arithmetic the decoders perform on them is
  passed in as `FloatOps`;
* the `Serial.print` debug output has no effect on the parser state or the
  record and is left out.
-/

namespace Nmea

/-! ## C library routines used by the parser (ISO C semantics) -/

/-- The C `strlen`: number of characters in front of the NUL. -/
def strlen (s : List Nat) : Nat := s.length

/-- The C `strchr` for a non-NUL character: offset of its first occurrence. -/
def strchr : List Nat → Nat → Option Nat
  | [], _ => none
  | c :: cs, ch => if c = ch then some 0 else (strchr cs ch).map (· + 1)

/-- Truth of `strncmp(s, pat, n) == 0`. -/
def strncmpEq : List Nat → List Nat → Nat → Bool
  | _, _, 0 => true
  | [], [], _ + 1 => true
  | a :: as, b :: bs, n + 1 => a == b && strncmpEq as bs n
  | _, _, _ + 1 => false

/-- String held by a zero-initialised destination after
`strncpy(dst, src, n); dst[n] = 0`. -/
def strncpy (src : List Nat) (n : Nat) : List Nat := src.take n

/-- The C `isspace` in the "C" locale. -/
def isspace (c : Nat) : Bool := c == 32 || (9 ≤ c && c ≤ 13)

/-- Value of a decimal digit character. -/
def decDigitVal (c : Nat) : Option Nat :=
  if 48 ≤ c ∧ c ≤ 57 then some (c - 48) else none

/-- Value of a hexadecimal digit character, either case. -/
def hexDigitVal (c : Nat) : Option Nat :=
  if 48 ≤ c ∧ c ≤ 57 then some (c - 48)
  else if 65 ≤ c ∧ c ≤ 70 then some (c - 55)
  else if 97 ≤ c ∧ c ≤ 102 then some (c - 87)
  else none

/-- Longest run of decimal digits, accumulated in base ten. -/
def decDigits (acc : Nat) : List Nat → Nat
  | [] => acc
  | c :: cs =>
    match decDigitVal c with
    | some d => decDigits (acc * 10 + d) cs
    | none => acc

/-- Longest run of hexadecimal digits, accumulated in base sixteen. -/
def hexDigits (acc : Nat) : List Nat → Nat
  | [] => acc
  | c :: cs =>
    match hexDigitVal c with
    | some d => hexDigits (acc * 16 + d) cs
    | none => acc

/-- The C `atoi`: leading white space, an optional sign, decimal digits.
(The parser only calls it on strings of at most three characters, so the
result always fits an `int`.) -/
def atoi (s : List Nat) : Int :=
  match s.dropWhile isspace with
  | 45 :: r => - (decDigits 0 r : Int)
  | 43 :: r => (decDigits 0 r : Int)
  | r => (decDigits 0 r : Int)

/-- Largest `unsigned long` (32 bits on the Arduino targets). -/
def ULONG_MAX : Nat := 4294967295

/-- The C `strtoul(s, NULL, 16)`: leading white space, an optional sign, an
optional leading `0x`, hexadecimal digits; saturates at `ULONG_MAX`, and a
minus sign negates modulo `ULONG_MAX + 1`. -/
def strtoul16 (s : List Nat) : Nat :=
  let s1 := s.dropWhile isspace
  let neg : Bool := match s1 with
    | 45 :: _ => true
    | _ => false
  let s2 : List Nat := match s1 with
    | 45 :: r => r
    | 43 :: r => r
    | r => r
  let s3 : List Nat := match s2 with
    | 48 :: 120 :: r => r
    | 48 :: 88 :: r => r
    | r => r
  let v := hexDigits 0 s3
  if ULONG_MAX < v then ULONG_MAX
  else if neg then (ULONG_MAX + 1 - v) % (ULONG_MAX + 1)
  else v

/-! ## Checksum utilities -/

/-- Loop of `calculateNMEAChecksum`: XOR into a `uint8_t` up to `*` or the
end of the string. -/
def checksumLoop (checksum : Nat) : List Nat → Nat
  | [] => checksum
  | c :: cs => if c = 42 then checksum else checksumLoop ((checksum ^^^ c) % 256) cs

/-- Source: `calculateNMEAChecksum`. -/
def calculateNMEAChecksum (sentence : Option (List Nat)) : Nat :=
  match sentence with
  | some (36 :: rest) => checksumLoop 0 rest
  | _ => 0

/-- Source: `nmeaVerifyChecksum`. -/
def nmeaVerifyChecksum (sentence : Option (List Nat)) : Bool :=
  match sentence with
  | none => false
  | some s =>
    match strchr s 42 with
    | none => false
    | some star =>
      if strlen (s.drop star) < 3 then false
      else
        let calculated := calculateNMEAChecksum (some s)
        let received := strtoul16 (s.drop (star + 1)) % 256
        calculated == received

/-! ## Field lookup -/

/-- Loop of `nmeaGetField`: `p` is the read offset, `rest` the characters
from `p` on, `fieldStart` the offset where the current field began and
`currentField` its number (a `uint8_t`). -/
def getFieldLoop (fieldIndex : Nat) : List Nat → Nat → Nat → Nat → Option Nat
  | [], p, fieldStart, currentField =>
    if currentField = fieldIndex ∧ fieldStart < p then some fieldStart else none
  | c :: rest, p, fieldStart, currentField =>
    if c = 44 ∨ c = 42 then
      if currentField = fieldIndex then
        if fieldStart = p then none else some fieldStart
      else if c = 44 then
        getFieldLoop fieldIndex rest (p + 1) (p + 1) ((currentField + 1) % 256)
      else
        if (currentField + 1) % 256 = fieldIndex ∧ fieldStart < p then some fieldStart
        else none
    else getFieldLoop fieldIndex rest (p + 1) fieldStart currentField

/-- Source: `nmeaGetField`. The result is the offset of the field in the
sentence, `none` for `NULL`. -/
def nmeaGetField (sentence : Option (List Nat)) (fieldIndex : Nat) : Option Nat :=
  match sentence with
  | none => none
  | some (36 :: rest) => getFieldLoop fieldIndex rest 1 1 0
  | some s => getFieldLoop fieldIndex s 0 0 0

/-! ## The GPS record -/

/-- Source: `struct GPSData`; `F` stands for `float`. -/
structure GPSData (F : Type) where
  hours : Nat
  minutes : Nat
  seconds : Nat
  days : Nat
  months : Nat
  years : Nat
  quality : Nat
  satellites : Nat
  accuracy : F
  altitude : F
  course : F
  latitude : F
  longitude : F
  speed : F
  hasFix : Bool
  dataValid : Bool
deriving DecidableEq, Repr

/-- Floating-point routines the decoders rely on. -/
structure FloatOps (F : Type) where
  /-- The literal `0.0f`. -/
  zero : F
  /-- The C `atof`, narrowed to `float`. -/
  atof : List Nat → F
  /-- Conversion of an `int` to `float`. -/
  ofInt : Int → F
  /-- Addition of two `float`s. -/
  add : F → F → F
  /-- Division `x / 60.0f`. -/
  div60 : F → F
  /-- Negation `-x`. -/
  neg : F → F
  /-- Multiplication `x * 1.852f`. -/
  knotsToKmh : F → F

/-- Conversion of an `int` to `uint8_t`. -/
def toUInt8 (x : Int) : Nat := (x % 256).toNat

/-- Character a pointer at offset `off` of `s` points to (the terminating
NUL at the end). -/
def deref (s : List Nat) (off : Nat) : Nat := (s.drop off).headD 0

/-- The copy idiom the decoders repeat for every field they read:
`end = strchr(str, ','); if (end) { len = end - str; if (len > cap) len = cap;
strncpy(buf, str, len); buf[len] = 0; } else { strncpy(buf, str, cap);
buf[cap] = 0; }`. The result is the string then held by `buf`. -/
def copyField (str : List Nat) (cap : Nat) : List Nat :=
  match strchr str 44 with
  | some e => strncpy str (if cap < e then cap else e)
  | none => strncpy str cap

/-! ## Decoding helpers -/

/-- Source: `parseTimeFromNMEAString`; the result is `(hours, minutes, seconds)`. -/
def parseTimeFromNMEAString (timeStr : Option (List Nat)) : Nat × Nat × Nat :=
  match timeStr with
  | some (t0 :: t1 :: t2 :: t3 :: t4 :: t5 :: _) =>
    let hours := toUInt8 (atoi [t0, t1])
    let minutes := toUInt8 (atoi [t2, t3])
    let seconds := toUInt8 (atoi [t4, t5])
    (if 23 < hours then 0 else hours,
     if 59 < minutes then 0 else minutes,
     if 59 < seconds then 0 else seconds)
  | _ => (0, 0, 0)

/-- Source: `parseDateFromNMEAString`; the result is `(days, months, years)`. -/
def parseDateFromNMEAString (dateStr : Option (List Nat)) : Nat × Nat × Nat :=
  match dateStr with
  | some (d0 :: d1 :: d2 :: d3 :: d4 :: d5 :: _) =>
    let days := toUInt8 (atoi [d0, d1])
    let months := toUInt8 (atoi [d2, d3])
    let years := toUInt8 (atoi [d4, d5])
    (if days < 1 ∨ 31 < days then 1 else days,
     if months < 1 ∨ 12 < months then 1 else months,
     if 99 < years then 25 else years)
  | _ => (1, 1, 25)

/-- Source: `parseLatitudeFromNMEA`. -/
def parseLatitudeFromNMEA {F : Type} (ops : FloatOps F) (latStr : Option (List Nat))
    (ns : Nat) : F :=
  match latStr with
  | some (l0 :: l1 :: l2 :: l3 :: rest) =>
    let degrees := atoi [l0, l1]
    let minutes := ops.atof (l2 :: l3 :: rest)
    let decimalDegrees := ops.add (ops.ofInt degrees) (ops.div60 minutes)
    if ns = 83 ∨ ns = 115 then ops.neg decimalDegrees else decimalDegrees
  | _ => ops.zero

/-- Source: `parseLongitudeFromNMEA`. -/
def parseLongitudeFromNMEA {F : Type} (ops : FloatOps F) (lonStr : Option (List Nat))
    (ew : Nat) : F :=
  match lonStr with
  | some (l0 :: l1 :: l2 :: l3 :: l4 :: rest) =>
    let degrees := atoi [l0, l1, l2]
    let minutes := ops.atof (l3 :: l4 :: rest)
    let decimalDegrees := ops.add (ops.ofInt degrees) (ops.div60 minutes)
    if ew = 87 ∨ ew = 119 then ops.neg decimalDegrees else decimalDegrees
  | _ => ops.zero

/-! ## Sentence decoders -/

/-- The literal `"$GPRMC"`. -/
def GPRMC : List Nat := [36, 71, 80, 82, 77, 67]

/-- The literal `"$GPGGA"`. -/
def GPGGA : List Nat := [36, 71, 80, 71, 71, 65]

/-- Source: `parseGPRMC`; the result is the returned flag and the record
as the call leaves it. -/
def parseGPRMC {F : Type} (ops : FloatOps F) (sentence : Option (List Nat))
    (gpsData : GPSData F) : Bool × GPSData F :=
  match sentence with
  | none => (false, gpsData)
  | some s =>
    if !strncmpEq s GPRMC 6 then (false, gpsData)
    else if !nmeaVerifyChecksum (some s) then (false, gpsData)
    else
      let timeStr := nmeaGetField (some s) 1
      let statusStr := nmeaGetField (some s) 2
      let latStr := nmeaGetField (some s) 3
      let nsStr := nmeaGetField (some s) 4
      let lonStr := nmeaGetField (some s) 5
      let ewStr := nmeaGetField (some s) 6
      let speedStr := nmeaGetField (some s) 7
      let courseStr := nmeaGetField (some s) 8
      let dateStr := nmeaGetField (some s) 9
      match timeStr, statusStr, dateStr with
      | some tOff, some stOff, some dOff =>
        let timeBuf := copyField (s.drop tOff) 15
        let tm := parseTimeFromNMEAString (some timeBuf)
        let g1 := { gpsData with hours := tm.1, minutes := tm.2.1, seconds := tm.2.2 }
        let dateBuf := copyField (s.drop dOff) 6
        let dt := parseDateFromNMEAString (some dateBuf)
        let g2 := { g1 with days := dt.1, months := dt.2.1, years := dt.2.2 }
        let hasValidFix : Bool := deref s stOff == 65 || deref s stOff == 97
        let g3 := { g2 with hasFix := hasValidFix }
        let g4 :=
          match hasValidFix, latStr, nsStr, lonStr, ewStr with
          | true, some latOff, some nsOff, some lonOff, some ewOff =>
            let latBuf := copyField (s.drop latOff) 15
            let g5 := { g3 with
              latitude := parseLatitudeFromNMEA ops (some latBuf) (deref s nsOff) }
            let lonBuf := copyField (s.drop lonOff) 15
            let g6 := { g5 with
              longitude := parseLongitudeFromNMEA ops (some lonBuf) (deref s ewOff) }
            let g7 :=
              match speedStr with
              | some spOff =>
                let speedBuf := copyField (s.drop spOff) 15
                let speedKnots := ops.atof speedBuf
                { g6 with speed := ops.knotsToKmh speedKnots }
              | none => g6
            match courseStr with
            | some coOff =>
              let courseBuf := copyField (s.drop coOff) 15
              { g7 with course := ops.atof courseBuf }
            | none => g7
          | _, _, _, _, _ => g3
        (true, { g4 with dataValid := true })
      | _, _, _ => (false, gpsData)

/-- Source: `parseGPGGA`; the result is the returned flag and the record
as the call leaves it. -/
def parseGPGGA {F : Type} (ops : FloatOps F) (sentence : Option (List Nat))
    (gpsData : GPSData F) : Bool × GPSData F :=
  match sentence with
  | none => (false, gpsData)
  | some s =>
    if !strncmpEq s GPGGA 6 then (false, gpsData)
    else if !nmeaVerifyChecksum (some s) then (false, gpsData)
    else
      let latStr := nmeaGetField (some s) 2
      let nsStr := nmeaGetField (some s) 3
      let lonStr := nmeaGetField (some s) 4
      let ewStr := nmeaGetField (some s) 5
      let qualityStr := nmeaGetField (some s) 6
      let numSatsStr := nmeaGetField (some s) 7
      let hdopStr := nmeaGetField (some s) 8
      let altitudeStr := nmeaGetField (some s) 9
      match qualityStr with
      | none => (false, gpsData)
      | some qOff =>
        let qualityBuf := copyField (s.drop qOff) 3
        let g1 := { gpsData with quality := toUInt8 (atoi qualityBuf) }
        let g2 :=
          match numSatsStr with
          | some nOff =>
            let satsBuf := copyField (s.drop nOff) 3
            { g1 with satellites := toUInt8 (atoi satsBuf) }
          | none => g1
        let g3 :=
          if 0 < g2.quality then
            let g4 := { g2 with hasFix := true }
            let g5 :=
              match latStr, nsStr, lonStr, ewStr with
              | some latOff, some nsOff, some lonOff, some ewOff =>
                let latBuf := copyField (s.drop latOff) 15
                let g6 := { g4 with
                  latitude := parseLatitudeFromNMEA ops (some latBuf) (deref s nsOff) }
                let lonBuf := copyField (s.drop lonOff) 15
                { g6 with
                  longitude := parseLongitudeFromNMEA ops (some lonBuf) (deref s ewOff) }
              | _, _, _, _ => g4
            let g7 :=
              match altitudeStr with
              | some aOff =>
                let altBuf := copyField (s.drop aOff) 15
                { g5 with altitude := ops.atof altBuf }
              | none => g5
            match hdopStr with
            | some hOff =>
              let hdopBuf := copyField (s.drop hOff) 15
              { g7 with accuracy := ops.atof hdopBuf }
            | none => g7
          else { g2 with hasFix := false }
        (true, { g3 with dataValid := true })

/-! ## Framing -/

/-- Source: `NMEA_SENTENCE_MAX_LEN`. -/
def NMEA_SENTENCE_MAX_LEN : Nat := 82

/-- The parser globals: `nmeaBuffer` (an array of `NMEA_SENTENCE_MAX_LEN + 1`
characters) and `nmeaBufferIndex` (a `uint8_t`). -/
structure ParserState where
  nmeaBuffer : List Nat
  nmeaBufferIndex : Nat
deriving DecidableEq, Repr

/-- Source: `nmeaParserInit`. -/
def nmeaParserInit (st : ParserState) : ParserState :=
  { nmeaBuffer := st.nmeaBuffer.set 0 0, nmeaBufferIndex := 0 }

/-- The NUL-terminated string that starts at the beginning of a character
array. -/
def cstr (mem : List Nat) : List Nat := mem.takeWhile (fun c => c != 0)

/-- Source: `nmeaParserProcessChar`; the result is the returned flag, the
parser globals and the record as the call leaves them. -/
def nmeaParserProcessChar {F : Type} (ops : FloatOps F) (c : Nat) (st : ParserState)
    (gpsData : GPSData F) : Bool × ParserState × GPSData F :=
  if c = 36 then
    (false, { nmeaBuffer := st.nmeaBuffer.set 0 c, nmeaBufferIndex := 1 }, gpsData)
  else if c = 13 ∨ c = 10 then
    if 0 < st.nmeaBufferIndex then
      let buf := st.nmeaBuffer.set st.nmeaBufferIndex 0
      let sentence := cstr buf
      let r : Bool × GPSData F :=
        if strncmpEq sentence GPRMC 6 then parseGPRMC ops (some sentence) gpsData
        else if strncmpEq sentence GPGGA 6 then parseGPGGA ops (some sentence) gpsData
        else (false, gpsData)
      (r.1, { nmeaBuffer := buf, nmeaBufferIndex := 0 }, r.2)
    else (false, { st with nmeaBufferIndex := 0 }, gpsData)
  else if st.nmeaBufferIndex < NMEA_SENTENCE_MAX_LEN then
    (false, { nmeaBuffer := st.nmeaBuffer.set st.nmeaBufferIndex c,
              nmeaBufferIndex := (st.nmeaBufferIndex + 1) % 256 }, gpsData)
  else (false, { st with nmeaBufferIndex := 0 }, gpsData)

/-- Feeding a sequence of characters one at a time: the flags returned, in
order, with the final globals and record. -/
def feed {F : Type} (ops : FloatOps F) :
    List Nat → ParserState → GPSData F → List Bool × ParserState × GPSData F
  | [], st, g => ([], st, g)
  | c :: cs, st, g =>
    let r := nmeaParserProcessChar ops c st g
    let rs := feed ops cs r.2.1 r.2.2
    (r.1 :: rs.1, rs.2.1, rs.2.2)

/-! ## A concrete instance of the arithmetic, used to run the decoders -/

/-- Digits after the decimal point: value scaled by `10 ^ k`, with `k`. -/
def fracDigits : List Nat → Nat × Nat
  | [] => (0, 0)
  | c :: cs =>
    match decDigitVal c with
    | some d => let r := fracDigits cs; (d * 10 ^ r.2 + r.1, r.2 + 1)
    | none => (0, 0)

/-- Exact value of a plain decimal numeral `[sign] digits [. digits]`, the
form NMEA fields take; anything after it is ignored as `atof` does. -/
def atofRat (s : List Nat) : ℚ :=
  let s1 := s.dropWhile isspace
  let neg : Bool := match s1 with
    | 45 :: _ => true
    | _ => false
  let s2 : List Nat := match s1 with
    | 45 :: r => r
    | 43 :: r => r
    | r => r
  let ip := decDigits 0 s2
  let s3 := s2.dropWhile (fun c => (decDigitVal c).isSome)
  let fr : Nat × Nat := match s3 with
    | 46 :: r => fracDigits r
    | _ => (0, 0)
  let v : ℚ := (ip : ℚ) + (fr.1 : ℚ) / (10 ^ fr.2 : ℚ)
  if neg then -v else v

/-- Exact rational arithmetic in place of `float`. -/
def ratOps : FloatOps ℚ where
  zero := 0
  atof := atofRat
  ofInt := fun i => (i : ℚ)
  add := fun a b => a + b
  div60 := fun a => a / 60
  neg := fun a => -a
  knotsToKmh := fun a => a * (1852 / 1000)

/-- A record with every field zero. -/
def zeroRecord : GPSData ℚ :=
  { hours := 0, minutes := 0, seconds := 0, days := 0, months := 0, years := 0,
    quality := 0, satellites := 0, accuracy := 0, altitude := 0, course := 0,
    latitude := 0, longitude := 0, speed := 0, hasFix := false, dataValid := false }

/-- The globals as the program starts: zero-initialised. -/
def freshState : ParserState :=
  { nmeaBuffer := List.replicate (NMEA_SENTENCE_MAX_LEN + 1) 0, nmeaBufferIndex := 0 }

/-- Characters of a string literal as bytes. -/
def bytes (s : String) : List Nat := s.toList.map Char.toNat

/-! ## Notions used to state the properties -/

/-- XOR of all characters of a string. -/
def xorAll (l : List Nat) : Nat := l.foldr (fun c acc => c ^^^ acc) 0

/-- The hexadecimal digit character for `d < 16`, upper or lower case. -/
def hexChar (upper : Bool) (d : Nat) : Nat :=
  if d < 10 then 48 + d else if upper then 55 + d else 87 + d

/-- Fields written one after the other with a comma between neighbours. -/
def joinFields : List (List Nat) → List Nat
  | [] => []
  | [f] => f
  | f :: g :: rest => f ++ 44 :: joinFields (g :: rest)

/-- The sentence `$f0,f1,...,fn*tail`. -/
def sentenceOf (fields : List (List Nat)) (tail : List Nat) : List Nat :=
  36 :: (joinFields fields ++ 42 :: tail)

/-- Body of the sentence `$GPRMC,123519,A,4807.038,N,01131.000,E,022.4,084.4,230394,003.1,W*6A`. -/
def rmcBody : List Nat :=
  bytes "GPRMC,123519,A,4807.038,N,01131.000,E,022.4,084.4,230394,003.1,W"

/-- Offset of field `i` when field 0 starts at offset `p`: every earlier
field and the comma after it are passed over. -/
def fieldOffsetFrom (p : Nat) : List (List Nat) → Nat → Nat
  | [], _ => p
  | _ :: _, 0 => p
  | f :: fs, i + 1 => fieldOffsetFrom (p + f.length + 1) fs i

/-- Offset of field `i` in `sentenceOf fields tail` (field 0 follows the `$`). -/
def fieldOffset (fields : List (List Nat)) (i : Nat) : Nat := fieldOffsetFrom 1 fields i

/-- Fields of `$GPRMC,123519,A,4807.038,N,01131.000,E,022.4,084.4*32`: an RMC
sentence cut off after the course, so that fields 0 to 8 exist and the date
(field 9) does not. -/
def rmcNoDateFields : List (List Nat) :=
  [bytes "GPRMC", bytes "123519", bytes "A", bytes "4807.038", bytes "N",
   bytes "01131.000", bytes "E", bytes "022.4", bytes "084.4"]

/-- The sentence `$GPRMC,123519,A,4807.038,N,01131.000,E,022.4,084.4*32`. -/
def rmcNoDate : List Nat := sentenceOf rmcNoDateFields (bytes "32")

/-- Fields of `$GPRMC,123519,V,,,,,,,230394,,,N*51`: a void RMC sentence. -/
def rmcVoidFields : List (List Nat) :=
  [bytes "GPRMC", bytes "123519", bytes "V", [], [], [], [], [], [], bytes "230394",
   [], [], bytes "N"]

/-- The two checksum characters of a sentence body: its XOR as two
hexadecimal digits, each in the case chosen. -/
def checksumDigits (u1 u2 : Bool) (body : List Nat) : List Nat :=
  [hexChar u1 (xorAll body / 16), hexChar u2 (xorAll body % 16)]

/-- Fields of `$GPRMC,123519,A,4807.038,N,01131.000,E,022.4,084.4,230394,003.1,W*6A`. -/
def rmcFields : List (List Nat) :=
  [bytes "GPRMC", bytes "123519", bytes "A", bytes "4807.038", bytes "N",
   bytes "01131.000", bytes "E", bytes "022.4", bytes "084.4", bytes "230394",
   bytes "003.1", bytes "W"]

/-- What the globals record about the characters `hist` fed so far: the
buffer has its size, the cursor is within it, and when the cursor is past the
start of a buffer that begins with `$`, the buffer up to the cursor is the
text fed since the most recent `$`. -/
def FramingInv (hist : List Nat) (st : ParserState) : Prop :=
  st.nmeaBuffer.length = NMEA_SENTENCE_MAX_LEN + 1 ∧
  st.nmeaBufferIndex ≤ NMEA_SENTENCE_MAX_LEN ∧
  (0 < st.nmeaBufferIndex → st.nmeaBuffer.head? = some 36 →
    ∃ a t, hist = a ++ 36 :: t ∧ 36 ∉ t ∧ st.nmeaBufferIndex = t.length + 1 ∧
      st.nmeaBuffer.take st.nmeaBufferIndex = 36 :: t)

/-- The dispatch `nmeaParserProcessChar` performs on the buffered sentence
when a terminator arrives: the decoder chosen by the first six characters,
or no decoder at all. -/
def decodeSentence {F : Type} (ops : FloatOps F) (sentence : List Nat)
    (gpsData : GPSData F) : Bool × GPSData F :=
  if strncmpEq sentence GPRMC 6 then parseGPRMC ops (some sentence) gpsData
  else if strncmpEq sentence GPGGA 6 then parseGPGGA ops (some sentence) gpsData
  else (false, gpsData)

/-- The sentence `$GPRMC,123519,A,4807.038,N,01131.000,E,022.4,084.4,230394,003.1,W*6A`. -/
def rmcSentence : List Nat :=
  bytes "$GPRMC,123519,A,4807.038,N,01131.000,E,022.4,084.4,230394,003.1,W*6A"

/-- The sentence `$GPGGA,123519,4807.038,N,01131.000,E,1,08,0.9,545.4,M,46.9,M,,*47`. -/
def ggaSentence : List Nat :=
  bytes "$GPGGA,123519,4807.038,N,01131.000,E,1,08,0.9,545.4,M,46.9,M,,*47"

/-- The satellite-count step of `parseGPGGA` (the block `if (numSatsStr)`). -/
def ggaSatellites {F : Type} (s : List Nat) (g1 : GPSData F) : GPSData F :=
  match nmeaGetField (some s) 7 with
  | some nOff => { g1 with satellites := toUInt8 (atoi (copyField (s.drop nOff) 3)) }
  | none => g1

/-- The steps of `parseGPGGA` taken when the quality is positive, after
`hasFix` is set: position, altitude and HDOP. -/
def ggaFix {F : Type} (ops : FloatOps F) (s : List Nat) (g4 : GPSData F) : GPSData F :=
  let g5 :=
    match nmeaGetField (some s) 2, nmeaGetField (some s) 3, nmeaGetField (some s) 4,
      nmeaGetField (some s) 5 with
    | some latOff, some nsOff, some lonOff, some ewOff =>
      let g6 := { g4 with
        latitude := parseLatitudeFromNMEA ops (some (copyField (s.drop latOff) 15))
          (deref s nsOff) }
      { g6 with
        longitude := parseLongitudeFromNMEA ops (some (copyField (s.drop lonOff) 15))
          (deref s ewOff) }
    | _, _, _, _ => g4
  let g7 :=
    match nmeaGetField (some s) 9 with
    | some aOff => { g5 with altitude := ops.atof (copyField (s.drop aOff) 15) }
    | none => g5
  match nmeaGetField (some s) 8 with
  | some hOff => { g7 with accuracy := ops.atof (copyField (s.drop hOff) 15) }
  | none => g7

/-- Fields of an RMC sentence whose time `246060` and date `321399` are out
of range in every component but the year. -/
def rmcOutOfRangeFields : List (List Nat) :=
  [bytes "GPRMC", bytes "246060", bytes "A", bytes "4807.038", bytes "N",
   bytes "01131.000", bytes "E", bytes "022.4", bytes "084.4", bytes "321399",
   bytes "003.1", bytes "W"]

/-- Integer value of a string of decimal digits. -/
def decValue (l : List Nat) : Nat := l.foldl (fun acc c => acc * 10 + (c - 48)) 0

/-- Fields of a GGA sentence whose quality field is `256`. -/
def ggaQuality256Fields : List (List Nat) :=
  [bytes "GPGGA", bytes "123519", bytes "4807.038", bytes "N", bytes "01131.000",
   bytes "E", bytes "256", bytes "08", bytes "0.9", bytes "545.4", bytes "M",
   bytes "46.9", bytes "M", [], []]

/-- Fields of a GGA sentence whose quality field is `0`. -/
def ggaNoFixFields : List (List Nat) :=
  [bytes "GPGGA", bytes "123519", bytes "4807.038", bytes "N", bytes "01131.000",
   bytes "E", bytes "0", bytes "08", bytes "0.9", bytes "545.4", bytes "M",
   bytes "46.9", bytes "M", [], []]

/-- Fields of `$GPGGA,123519,4807.038,N,01131.000,E,1,08,0.9,545.4,M,46.9,M,,*47`. -/
def ggaFields : List (List Nat) :=
  [bytes "GPGGA", bytes "123519", bytes "4807.038", bytes "N", bytes "01131.000",
   bytes "E", bytes "1", bytes "08", bytes "0.9", bytes "545.4", bytes "M",
   bytes "46.9", bytes "M", [], []]

/-- The text `$GNRMC`. -/
def GNRMC : List Nat := [36, 71, 78, 82, 77, 67]

/-- The text `$GNGGA`. -/
def GNGGA : List Nat := [36, 71, 78, 71, 71, 65]

/-- Fields of `rmcSentence` with the talker `GN` in place of `GP`. -/
def gnrmcFields : List (List Nat) := bytes "GNRMC" :: rmcFields.tail

/-- The sentence `$GNRMC,123519,A,4807.038,N,01131.000,E,022.4,084.4,230394,003.1,W*74`. -/
def gnrmcSentence : List Nat :=
  sentenceOf gnrmcFields (checksumDigits true true (joinFields gnrmcFields))

/-! ## The compact parser (`src/mega_epic_canbus_mcp_can/nmea_parser.cpp`)

The second implementation in the repository. Its record has the fields of
`GPSData`; its globals are a 100-character buffer, a cursor and the flag
`inSentence`. -/

namespace Compact

/-- Floating-point routines the compact decoders rely on. -/
structure FloatOps (F : Type) where
  /-- The literal `0.0`, narrowed to `float`. -/
  zero : F
  /-- The C `atof`, narrowed to `float`. -/
  atof : List Nat → F
  /-- The expression `degrees + (minutes / 60.0)`, narrowed to `float`. -/
  degMin : F → F → F
  /-- Negation `-x`. -/
  neg : F → F

/-- Largest `long` (32 bits on the Arduino targets). -/
def LONG_MAX : Int := 2147483647

/-- Smallest `long`. -/
def LONG_MIN : Int := -2147483648

/-- The C `strtol(s, NULL, 16)`: leading white space, an optional sign, an
optional leading `0x`, hexadecimal digits; saturates at `LONG_MAX` and
`LONG_MIN`. -/
def strtol16 (s : List Nat) : Int :=
  let s1 := s.dropWhile isspace
  let neg : Bool := match s1 with
    | 45 :: _ => true
    | _ => false
  let s2 : List Nat := match s1 with
    | 45 :: r => r
    | 43 :: r => r
    | r => r
  let s3 : List Nat := match s2 with
    | 48 :: 120 :: r => r
    | 48 :: 88 :: r => r
    | r => r
  let v : Int := (hexDigits 0 s3 : Int)
  if neg then (if -v < LONG_MIN then LONG_MIN else -v)
  else (if LONG_MAX < v then LONG_MAX else v)

/-- The successive results of `strtok(copy, ",")`, `strtok(NULL, ",")`, ...:
the maximal runs of characters other than `delim`, none of them empty. `cur`
is the run being read. -/
def strtokAll (delim : Nat) : List Nat → List Nat → List (List Nat)
  | [], cur => if cur = [] then [] else [cur]
  | c :: cs, cur =>
    if c = delim then
      if cur = [] then strtokAll delim cs [] else cur :: strtokAll delim cs []
    else strtokAll delim cs (cur ++ [c])

/-- The array `fields` and `fieldCount` both decoders build: the first 15
tokens of the first 99 characters of the sentence. -/
def splitFields (sentence : List Nat) : List (List Nat) :=
  (strtokAll 44 (strncpy sentence 99) []).take 15

/-- Source: `parseTime`. -/
def parseTime {F : Type} (field : Option (List Nat)) (data : GPSData F) : GPSData F :=
  match field with
  | some (t0 :: t1 :: t2 :: t3 :: t4 :: t5 :: _) =>
    let d1 := { data with hours := toUInt8 (atoi [t0, t1]) }
    let d2 := { d1 with minutes := toUInt8 (atoi [t2, t3]) }
    { d2 with seconds := toUInt8 (atoi [t4, t5]) }
  | _ => data

/-- Source: `parseDate`. -/
def parseDate {F : Type} (field : Option (List Nat)) (data : GPSData F) : GPSData F :=
  match field with
  | some (t0 :: t1 :: t2 :: t3 :: t4 :: t5 :: _) =>
    let d1 := { data with days := toUInt8 (atoi [t0, t1]) }
    let d2 := { d1 with months := toUInt8 (atoi [t2, t3]) }
    { d2 with years := toUInt8 (atoi [t4, t5]) }
  | _ => data

/-- Source: `parseLatitude`. -/
def parseLatitude {F : Type} (ops : FloatOps F) (field : Option (List Nat))
    (direction : Nat) : F :=
  match field with
  | some (l0 :: l1 :: l2 :: l3 :: rest) =>
    let degrees := ops.atof [l0, l1]
    let minutes := ops.atof (l2 :: l3 :: rest)
    let decimal := ops.degMin degrees minutes
    if direction = 83 ∨ direction = 87 then ops.neg decimal else decimal
  | _ => ops.zero

/-- Source: `parseLongitude`. -/
def parseLongitude {F : Type} (ops : FloatOps F) (field : Option (List Nat))
    (direction : Nat) : F :=
  match field with
  | some (l0 :: l1 :: l2 :: l3 :: l4 :: rest) =>
    let degrees := ops.atof [l0, l1, l2]
    let minutes := ops.atof (l3 :: l4 :: rest)
    let decimal := ops.degMin degrees minutes
    if direction = 83 ∨ direction = 87 then ops.neg decimal else decimal
  | _ => ops.zero

/-- Source: `calculateChecksum`; it reads from the second character on. -/
def calculateChecksum (sentence : List Nat) : Nat :=
  checksumLoop 0 sentence.tail

/-- Source: `verifyChecksum`. -/
def verifyChecksum (sentence : List Nat) : Bool :=
  match strchr sentence 42 with
  | none => false
  | some asterisk =>
    if asterisk < 2 then false
    else
      let calculated := calculateChecksum sentence
      let provided := toUInt8 (strtol16 (sentence.drop (asterisk + 1)))
      calculated == provided

/-- Source: `parseGPRMC`. -/
def parseGPRMC {F : Type} (ops : FloatOps F) (sentence : List Nat) (data : GPSData F) :
    Bool × GPSData F :=
  let fields := splitFields sentence
  let fieldCount := fields.length
  if fieldCount < 9 then (false, data)
  else
    let d1 := if 6 ≤ strlen (fields.getD 1 []) then parseTime (some (fields.getD 1 [])) data
      else data
    let d2 := { d1 with dataValid := ((fields.getD 2 []).headD 0 == 65) }
    let d3 :=
      if 0 < strlen (fields.getD 3 []) ∧ 0 < strlen (fields.getD 4 []) then
        { d2 with latitude :=
            parseLatitude ops (some (fields.getD 3 [])) ((fields.getD 4 []).headD 0) }
      else d2
    let d4 :=
      if 0 < strlen (fields.getD 5 []) ∧ 0 < strlen (fields.getD 6 []) then
        { d3 with longitude :=
            parseLongitude ops (some (fields.getD 5 [])) ((fields.getD 6 []).headD 0) }
      else d3
    let d5 := if 0 < strlen (fields.getD 7 []) then
        { d4 with speed := ops.atof (fields.getD 7 []) }
      else d4
    let d6 := if 0 < strlen (fields.getD 8 []) then
        { d5 with course := ops.atof (fields.getD 8 []) }
      else d5
    let d7 := if 9 < fieldCount ∧ 6 ≤ strlen (fields.getD 9 []) then
        parseDate (some (fields.getD 9 [])) d6
      else d6
    (true, { d7 with hasFix := d7.dataValid })

/-- Source: `parseGPGGA`. (`atoi` is taken at its mathematical value.) -/
def parseGPGGA {F : Type} (ops : FloatOps F) (sentence : List Nat) (data : GPSData F) :
    Bool × GPSData F :=
  let fields := splitFields sentence
  let fieldCount := fields.length
  if fieldCount < 10 then (false, data)
  else
    let d1 := if 6 ≤ strlen (fields.getD 1 []) then parseTime (some (fields.getD 1 [])) data
      else data
    let d2 :=
      if 0 < strlen (fields.getD 2 []) ∧ 0 < strlen (fields.getD 3 []) then
        { d1 with latitude :=
            parseLatitude ops (some (fields.getD 2 [])) ((fields.getD 3 []).headD 0) }
      else d1
    let d3 :=
      if 0 < strlen (fields.getD 4 []) ∧ 0 < strlen (fields.getD 5 []) then
        { d2 with longitude :=
            parseLongitude ops (some (fields.getD 4 [])) ((fields.getD 5 []).headD 0) }
      else d2
    let d4 :=
      if 0 < strlen (fields.getD 6 []) then
        let q := toUInt8 (atoi (fields.getD 6 []))
        { d3 with quality := q, hasFix := decide (0 < q) }
      else d3
    let d5 := if 0 < strlen (fields.getD 7 []) then
        { d4 with satellites := toUInt8 (atoi (fields.getD 7 [])) }
      else d4
    let d6 := if 0 < strlen (fields.getD 8 []) then
        { d5 with accuracy := ops.atof (fields.getD 8 []) }
      else d5
    let d7 := if 0 < strlen (fields.getD 9 []) then
        { d6 with altitude := ops.atof (fields.getD 9 []) }
      else d6
    (true, d7)

/-- The compact parser globals: `nmeaBuffer` (100 characters), `nmeaIndex`
(a `uint8_t`) and `inSentence`. -/
structure ParserState where
  nmeaBuffer : List Nat
  nmeaIndex : Nat
  inSentence : Bool
deriving DecidableEq, Repr

/-- Source: `sizeof(nmeaBuffer)`. -/
def BUFFER_SIZE : Nat := 100

/-- Source: `nmeaParserInit`. -/
def nmeaParserInit (_st : ParserState) : ParserState :=
  { nmeaBuffer := List.replicate BUFFER_SIZE 0, nmeaIndex := 0, inSentence := false }

/-- The text `$GPRMC`, `$GNRMC`, `$GPGGA` or `$GNGGA` decides the decoder. -/
def dispatch {F : Type} (ops : FloatOps F) (sentence : List Nat) (data : GPSData F) :
    Bool × GPSData F :=
  if strncmpEq sentence GPRMC 6 ∨ strncmpEq sentence GNRMC 6 then
    parseGPRMC ops sentence data
  else if strncmpEq sentence GPGGA 6 ∨ strncmpEq sentence GNGGA 6 then
    parseGPGGA ops sentence data
  else (false, data)

/-- Source: `nmeaParserProcessChar`; the result is the returned flag, the
globals and the record as the call leaves them. -/
def nmeaParserProcessChar {F : Type} (ops : FloatOps F) (c : Nat) (st : ParserState)
    (data : GPSData F) : Bool × ParserState × GPSData F :=
  if c = 36 then
    (false, { nmeaBuffer := st.nmeaBuffer.set 0 c, nmeaIndex := 1, inSentence := true }, data)
  else if !st.inSentence then (false, st, data)
  else if c = 13 ∨ c = 10 then
    if 0 < st.nmeaIndex then
      let buf := st.nmeaBuffer.set st.nmeaIndex 0
      let sentence := cstr buf
      if !verifyChecksum sentence then
        (false, { nmeaBuffer := buf, nmeaIndex := 0, inSentence := false }, data)
      else
        let r := dispatch ops sentence data
        (r.1, { nmeaBuffer := buf, nmeaIndex := 0, inSentence := false }, r.2)
    else (false, st, data)
  else if st.nmeaIndex < BUFFER_SIZE - 1 then
    (false, { st with nmeaBuffer := st.nmeaBuffer.set st.nmeaIndex c,
                      nmeaIndex := (st.nmeaIndex + 1) % 256 }, data)
  else (false, { st with nmeaIndex := 0, inSentence := false }, data)

/-- Feeding a sequence of characters one at a time to the compact parser. -/
def feed {F : Type} (ops : FloatOps F) :
    List Nat → ParserState → GPSData F → List Bool × ParserState × GPSData F
  | [], st, g => ([], st, g)
  | c :: cs, st, g =>
    let r := nmeaParserProcessChar ops c st g
    let rs := feed ops cs r.2.1 r.2.2
    (r.1 :: rs.1, rs.2.1, rs.2.2)

/-- Exact rational arithmetic in place of `float`. -/
def ratOps : FloatOps ℚ where
  zero := 0
  atof := atofRat
  degMin := fun d m => d + m / 60
  neg := fun a => -a

/-- The globals as the program starts: zero-initialised, not in a sentence. -/
def freshState : ParserState :=
  { nmeaBuffer := List.replicate BUFFER_SIZE 0, nmeaIndex := 0, inSentence := false }

end Compact

/-- The sentence `$GPRMC,123519,V,,,,,,,230394,,,N*51`: a void RMC sentence
with empty position, speed and course fields. -/
def rmcVoidSentence : List Nat := bytes "$GPRMC,123519,V,,,,,,,230394,,,N*51"

/-- The sentence `$GPRMC,123519,V,,,,,,,230394,003.1,W,N,1,2*29`: a void RMC
sentence with empty position, speed and course fields and two fields more
than the standard layout. -/
def rmcVoidLongSentence : List Nat := bytes "$GPRMC,123519,V,,,,,,,230394,003.1,W,N,1,2*29"

/-- Two settings of the parser globals that the code cannot tell apart: the
same cursor, within the buffer, and the same characters in front of it. -/
def SameFraming (st1 st2 : ParserState) : Prop :=
  st1.nmeaBufferIndex = st2.nmeaBufferIndex ∧
  st1.nmeaBufferIndex ≤ NMEA_SENTENCE_MAX_LEN ∧
  st1.nmeaBuffer.length = NMEA_SENTENCE_MAX_LEN + 1 ∧
  st2.nmeaBuffer.length = NMEA_SENTENCE_MAX_LEN + 1 ∧
  st1.nmeaBuffer.take st1.nmeaBufferIndex = st2.nmeaBuffer.take st2.nmeaBufferIndex

/-- The time and date of a record are within their ranges: hours up to 23,
minutes and seconds up to 59, days 1 to 31, months 1 to 12, years up to 99. -/
def TimeDateInRange {F : Type} (g : GPSData F) : Prop :=
  g.hours ≤ 23 ∧ g.minutes ≤ 59 ∧ g.seconds ≤ 59 ∧
  1 ≤ g.days ∧ g.days ≤ 31 ∧ 1 ≤ g.months ∧ g.months ≤ 12 ∧ g.years ≤ 99

instance {F : Type} (g : GPSData F) : Decidable (TimeDateInRange g) := by
  unfold TimeDateInRange
  infer_instance

/-- A record with time 12:35:19 and date 23/03/94. -/
def datedRecord : GPSData ℚ :=
  { zeroRecord with hours := 12, minutes := 35, seconds := 19, days := 23, months := 3,
                    years := 94 }

/-- The sentence `$GPRMC,123519,A,4807.038,N,01131.000,E,022.4,084.4,230394,003.1,W,F*`:
the XOR of its body is 0 and nothing follows the `*`. -/
def rmcNoDigitsSentence : List Nat :=
  bytes "$GPRMC,123519,A,4807.038,N,01131.000,E,022.4,084.4,230394,003.1,W,F*"

/-- Fields of `$GPRMC,123519,A,4807.038,N,01131.000,E,,084.4,230394,003.1,W*40`: an
RMC sentence whose speed (field 7) is empty. -/
def rmcNoSpeedFields : List (List Nat) :=
  [bytes "GPRMC", bytes "123519", bytes "A", bytes "4807.038", bytes "N",
   bytes "01131.000", bytes "E", [], bytes "084.4", bytes "230394", bytes "003.1",
   bytes "W"]

/-- The sentence `$GPRMC,123519,A,4807.038,N,01131.000,E,,084.4,230394,003.1,W*40`. -/
def rmcNoSpeedSentence : List Nat := sentenceOf rmcNoSpeedFields (bytes "40")

/-- Value in degrees of a coordinate text: whole degrees `dd`, whole minutes
`mm` and the digits `fp` after the decimal point of the minutes. -/
def degreesOf (dd mm fp : List Nat) : ℚ :=
  (decValue dd : ℚ) + ((decValue mm : ℚ) + (decValue fp : ℚ) / (10 : ℚ) ^ fp.length) / 60

/-- Fields of the GGA example with the talker `GN`. -/
def gnggaFields : List (List Nat) := bytes "GNGGA" :: ggaFields.tail

/-- The sentence `$GNGGA,123519,4807.038,N,01131.000,E,1,08,0.9,545.4,M,46.9,M,,*59`. -/
def gnggaSentence : List Nat :=
  sentenceOf gnggaFields (checksumDigits true true (joinFields gnggaFields))

/-! ## Library routines: basic facts -/

theorem strchr_eq_none {s : List Nat} {ch : Nat} (h : ch ∉ s) : strchr s ch = none := by
  induction s with
  | nil => rfl
  | cons c cs ih =>
    simp only [List.mem_cons, not_or] at h
    have hc : c ≠ ch := fun e => h.1 e.symm
    simp [strchr, hc, ih h.2]

theorem strchr_append {pre : List Nat} {ch : Nat} (post : List Nat) (h : ch ∉ pre) :
    strchr (pre ++ ch :: post) ch = some pre.length := by
  induction pre with
  | nil => simp [strchr]
  | cons c cs ih =>
    simp only [List.mem_cons, not_or] at h
    have hc : c ≠ ch := fun e => h.1 e.symm
    simp [strchr, hc, ih h.2]

theorem strchr_some {s : List Nat} {ch k : Nat} (h : strchr s ch = some k) :
    ∃ pre post, s = pre ++ ch :: post ∧ ch ∉ pre ∧ pre.length = k := by
  induction s generalizing k with
  | nil => simp [strchr] at h
  | cons c cs ih =>
    by_cases hc : c = ch
    · subst hc
      simp [strchr] at h
      exact ⟨[], cs, by simp, by simp, by simpa using h⟩
    · simp only [strchr, hc, if_false, Option.map_eq_some'] at h
      obtain ⟨j, hj, hk⟩ := h
      obtain ⟨pre, post, hs, hn, hl⟩ := ih hj
      refine ⟨c :: pre, post, by simp [hs], ?_, by simp [hl, hk]⟩
      simp only [List.mem_cons, not_or]
      exact ⟨fun e => hc e.symm, hn⟩

theorem xor_mod_256 (a b : Nat) : (a ^^^ b) % 256 = (a % 256) ^^^ (b % 256) := by
  apply Nat.eq_of_testBit_eq
  intro i
  have h : (256 : Nat) = 2 ^ 8 := by norm_num
  rw [h]
  simp only [Nat.testBit_mod_two_pow, Nat.testBit_xor]
  by_cases hi : i < 8 <;> simp [hi]

theorem xorAll_append (l m : List Nat) : xorAll (l ++ m) = xorAll l ^^^ xorAll m := by
  induction l with
  | nil => simp [xorAll]
  | cons c cs ih =>
    have : xorAll (c :: cs ++ m) = c ^^^ xorAll (cs ++ m) := rfl
    rw [this, ih]
    show c ^^^ (xorAll cs ^^^ xorAll m) = (c ^^^ xorAll cs) ^^^ xorAll m
    rw [Nat.xor_assoc]

theorem xorAll_lt {l : List Nat} (h : ∀ c ∈ l, c < 256) : xorAll l < 256 := by
  induction l with
  | nil => simp [xorAll]
  | cons c cs ih =>
    have h1 : c < 2 ^ 8 := by simpa using h c (by simp)
    have h2 : xorAll cs < 2 ^ 8 := by
      simpa using ih (fun x hx => h x (by simp [hx]))
    have := Nat.xor_lt_two_pow h1 h2
    simpa [xorAll] using this

theorem checksumLoop_append {l : List Nat} (tail : List Nat) {acc : Nat} (h : 42 ∉ l)
    (hacc : acc < 256) :
    checksumLoop acc (l ++ 42 :: tail) = (acc ^^^ xorAll l) % 256 := by
  induction l generalizing acc with
  | nil => simp [checksumLoop, xorAll, Nat.mod_eq_of_lt hacc]
  | cons c cs ih =>
    simp only [List.mem_cons, not_or] at h
    have hc : c ≠ 42 := fun e => h.1 e.symm
    have hlt : (acc ^^^ c) % 256 < 256 := Nat.mod_lt _ (by norm_num)
    have hx : xorAll (c :: cs) = c ^^^ xorAll cs := rfl
    have hstep : checksumLoop acc (c :: cs ++ 42 :: tail)
        = checksumLoop ((acc ^^^ c) % 256) (cs ++ 42 :: tail) := by
      simp [checksumLoop, hc]
    rw [hstep, ih h.2 hlt, hx, xor_mod_256, Nat.mod_mod, ← xor_mod_256, Nat.xor_assoc]

theorem verify_sentence {body : List Nat} (tail : List Nat) (h : 42 ∉ body) :
    nmeaVerifyChecksum (some (36 :: (body ++ 42 :: tail)))
      = (decide (2 ≤ tail.length) && (xorAll body % 256 == strtoul16 tail % 256)) := by
  have hs : strchr (36 :: (body ++ 42 :: tail)) 42 = some (body.length + 1) := by
    have h1 : (42 : Nat) ∉ 36 :: body := by simp [h]
    have := strchr_append tail h1
    simpa using this
  have hd1 : (36 :: (body ++ 42 :: tail)).drop (body.length + 1) = 42 :: tail := by
    simp
  have hd2 : (36 :: (body ++ 42 :: tail)).drop (body.length + 1 + 1) = tail := by
    simp
  have hc : calculateNMEAChecksum (some (36 :: (body ++ 42 :: tail))) = xorAll body % 256 := by
    simp only [calculateNMEAChecksum]
    rw [checksumLoop_append tail h (by norm_num)]
    simp
  simp only [nmeaVerifyChecksum, hs, hd1, hd2, hc, strlen, List.length_cons]
  by_cases ht : 2 ≤ tail.length
  · have : ¬ (tail.length + 1 < 3) := by omega
    simp [this, ht]
  · have : tail.length + 1 < 3 := by omega
    simp [this, ht]

theorem hexDigitVal_hexChar : ∀ d, d < 16 → ∀ u : Bool, hexDigitVal (hexChar u d) = some d := by
  decide

theorem strtoul16_hexChars : ∀ a, a < 16 → ∀ b, b < 16 → ∀ u1 u2 : Bool,
    strtoul16 [hexChar u1 a, hexChar u2 b] = 16 * a + b := by
  decide

theorem cstr_eq_self {l : List Nat} (h : 0 ∉ l) : cstr l = l := by
  unfold cstr
  rw [List.takeWhile_eq_self_iff]
  intro x hx
  have : x ≠ 0 := fun e => h (e ▸ hx)
  simpa using this

theorem cstr_append_zero {l : List Nat} (r : List Nat) (h : 0 ∉ l) : cstr (l ++ 0 :: r) = l := by
  induction l with
  | nil => simp [cstr]
  | cons c cs ih =>
    simp only [List.mem_cons, not_or] at h
    have hc : c ≠ 0 := fun e => h.1 e.symm
    have := ih h.2
    simp only [cstr] at this ⊢
    simp [List.takeWhile_cons, hc, this]

/-! ## Checksum verification -/

/-- C4: a sentence `$body*HH`, where `body` holds no `*` and no NUL and `HH`
is the XOR of the characters of `body` written as two hexadecimal digits
(each digit in either case), passes `nmeaVerifyChecksum`. -/
theorem verify_accepts_xor_in_hex (body : List Nat) (u1 u2 : Bool)
    (hstar : 42 ∉ body) (_hnul : 0 ∉ body) (hbyte : ∀ c ∈ body, c < 256) :
    nmeaVerifyChecksum
      (some (36 :: (body ++ 42 :: checksumDigits u1 u2 body))) = true := by
  unfold checksumDigits
  have hx := xorAll_lt hbyte
  have h1 : xorAll body / 16 < 16 := by omega
  have h2 : xorAll body % 16 < 16 := by omega
  rw [verify_sentence _ hstar, strtoul16_hexChars _ h1 _ h2 u1 u2]
  have : 16 * (xorAll body / 16) + xorAll body % 16 = xorAll body := by omega
  simp [this]

theorem verify_accepts_xor_in_hex_witness :
    42 ∉ rmcBody ∧ 0 ∉ rmcBody ∧ (∀ c ∈ rmcBody, c < 256) ∧
    nmeaVerifyChecksum
      (some (36 :: (rmcBody ++ 42 :: checksumDigits true true rmcBody))) = true :=
  ⟨by decide, by decide, by decide,
    verify_accepts_xor_in_hex rmcBody true true (by decide) (by decide) (by decide)⟩

theorem verify_changed_aux (p q tail : List Nat) (c c' : Nat)
    (hnul : 0 ∉ 36 :: ((p ++ c :: q) ++ 42 :: tail)) (hp : 42 ∉ p) (hq : 42 ∉ q)
    (hc : c ≠ 42)
    (hv : nmeaVerifyChecksum (some (36 :: ((p ++ c :: q) ++ 42 :: tail))) = true)
    (hb : c < 256) (hb' : c' < 256) (hne : c' ≠ c) (hns : c' ≠ 42) :
    nmeaVerifyChecksum (some (cstr (36 :: ((p ++ c' :: q) ++ 42 :: tail)))) = false := by
  simp only [List.mem_cons, List.mem_append, not_or] at hnul
  obtain ⟨-, ⟨hp0, -, hq0⟩, -, ht0⟩ := hnul
  by_cases h0 : c' = 0
  · subst h0
    have hp0' : (0 : Nat) ∉ 36 :: p := by simp [hp0]
    have hcs : cstr (36 :: ((p ++ 0 :: q) ++ 42 :: tail)) = 36 :: p := by
      have := cstr_append_zero (q ++ 42 :: tail) hp0'
      simpa using this
    have hs : strchr (36 :: p) 42 = none := strchr_eq_none (by simp [hp])
    rw [hcs]
    simp [nmeaVerifyChecksum, hs]
  · have hcs : cstr (36 :: ((p ++ c' :: q) ++ 42 :: tail))
        = 36 :: ((p ++ c' :: q) ++ 42 :: tail) := by
      apply cstr_eq_self
      simp only [List.mem_cons, List.mem_append, not_or]
      exact ⟨by norm_num, ⟨hp0, fun e => h0 e.symm, hq0⟩, by norm_num, ht0⟩
    have hbody : (42 : Nat) ∉ p ++ c :: q := by
      simp only [List.mem_append, List.mem_cons, not_or]
      exact ⟨hp, fun e => hc e.symm, hq⟩
    have hbody' : (42 : Nat) ∉ p ++ c' :: q := by
      simp only [List.mem_append, List.mem_cons, not_or]
      exact ⟨hp, fun e => hns e.symm, hq⟩
    rw [verify_sentence _ hbody] at hv
    rw [hcs, verify_sentence _ hbody']
    simp only [Bool.and_eq_true, decide_eq_true_eq, beq_iff_eq] at hv
    have hx : ∀ d, xorAll (p ++ d :: q) = xorAll p ^^^ (d ^^^ xorAll q) := by
      intro d
      rw [xorAll_append]
      rfl
    have hneq : xorAll (p ++ c' :: q) % 256 ≠ strtoul16 tail % 256 := by
      rw [← hv.2, hx, hx, xor_mod_256, xor_mod_256 (xorAll p), xor_mod_256 c',
        xor_mod_256 c, Nat.mod_eq_of_lt hb, Nat.mod_eq_of_lt hb']
      intro e
      exact hne (Nat.xor_left_injective (Nat.xor_right_injective e))
    simp [hneq]

/-- C5 (as stated, refuted): `$Azz*41` passes `nmeaVerifyChecksum`, its first
`*` is at offset 4, and writing `*` over the `A` at offset 1 gives `$*zz*41`,
which passes as well. -/
theorem verify_changed_to_star_accepted :
    nmeaVerifyChecksum (some [36, 65, 122, 122, 42, 52, 49]) = true ∧
    strchr [36, 65, 122, 122, 42, 52, 49] 42 = some 4 ∧
    deref [36, 65, 122, 122, 42, 52, 49] 1 ≠ 42 ∧
    nmeaVerifyChecksum (some (cstr ([36, 65, 122, 122, 42, 52, 49].set 1 42))) = true := by
  decide

/-- C5 (amended): when a NUL-free sentence `S` of byte characters starts with
`$` and passes `nmeaVerifyChecksum`, overwriting the character at a position
strictly between the `$` and the first `*` with a different character other
than `*` leaves a string that fails `nmeaVerifyChecksum`. -/
theorem verify_rejects_changed_char (S : List Nat) (pos star c' : Nat)
    (hnul : 0 ∉ S) (hdollar : S.head? = some 36) (hstar : strchr S 42 = some star)
    (hlo : 0 < pos) (hhi : pos < star)
    (hv : nmeaVerifyChecksum (some S) = true)
    (hb : deref S pos < 256) (hb' : c' < 256)
    (hne : c' ≠ deref S pos) (hns : c' ≠ 42) :
    nmeaVerifyChecksum (some (cstr (S.set pos c'))) = false := by
  obtain ⟨pre0, tail, hS, hn, hl⟩ := strchr_some hstar
  subst hS
  cases pre0 with
  | nil => simp at hl; omega
  | cons d body =>
    simp only [List.cons_append, List.head?_cons, Option.some.injEq] at hdollar
    subst hdollar
    simp only [List.length_cons] at hl
    obtain ⟨k, rfl⟩ : ∃ k, pos = k + 1 := ⟨pos - 1, by omega⟩
    have hk : k < body.length := by omega
    simp only [List.mem_cons, not_or] at hn
    have hsplit : body.take k ++ body[k] :: body.drop (k + 1) = body := by
      rw [← List.drop_eq_getElem_cons hk]
      exact List.take_append_drop k body
    have hmem : body[k] ∈ body := List.getElem_mem hk
    have hck : body[k] ≠ 42 := fun e => hn.2 (e ▸ hmem)
    have hp : (42 : Nat) ∉ body.take k := fun h => hn.2 (List.mem_of_mem_take h)
    have hq : (42 : Nat) ∉ body.drop (k + 1) := fun h => hn.2 (List.mem_of_mem_drop h)
    have hderef : deref (36 :: body ++ 42 :: tail) (k + 1) = body[k] := by
      show ((body ++ 42 :: tail).drop k).headD 0 = body[k]
      rw [List.drop_append_of_le_length (Nat.le_of_lt hk), List.drop_eq_getElem_cons hk]
      rfl
    rw [hderef] at hb hne
    have hset : (36 :: body ++ 42 :: tail).set (k + 1) c'
        = 36 :: ((body.take k ++ c' :: body.drop (k + 1)) ++ 42 :: tail) := by
      rw [List.cons_append, List.set_cons_succ, List.set_append_left _ _ hk,
        List.set_eq_take_cons_drop _ hk]
    have horig : 36 :: body ++ 42 :: tail
        = 36 :: ((body.take k ++ body[k] :: body.drop (k + 1)) ++ 42 :: tail) := by
      rw [hsplit]; rfl
    rw [hset]
    rw [horig] at hnul hv
    exact verify_changed_aux _ _ tail body[k] c' hnul hp hq hck hv hb hb' hne hns

theorem verify_rejects_changed_char_witness :
    0 ∉ [36, 65, 122, 122, 42, 52, 49] ∧
    [36, 65, 122, 122, 42, 52, 49].head? = some 36 ∧
    strchr [36, 65, 122, 122, 42, 52, 49] 42 = some 4 ∧
    0 < 1 ∧ 1 < 4 ∧
    nmeaVerifyChecksum (some [36, 65, 122, 122, 42, 52, 49]) = true ∧
    deref [36, 65, 122, 122, 42, 52, 49] 1 < 256 ∧ 66 < 256 ∧
    66 ≠ deref [36, 65, 122, 122, 42, 52, 49] 1 ∧ 66 ≠ 42 ∧
    nmeaVerifyChecksum (some (cstr ([36, 65, 122, 122, 42, 52, 49].set 1 66))) = false :=
  ⟨by decide, by decide, by decide, by decide, by decide, by decide, by decide, by decide,
    by decide, by decide,
    verify_rejects_changed_char [36, 65, 122, 122, 42, 52, 49] 1 4 66 (by decide) (by decide)
      (by decide) (by decide) (by decide) (by decide) (by decide) (by decide) (by decide)
      (by decide)⟩

/-- C6 (as stated, refuted): `$*zz` passes `nmeaVerifyChecksum` although the
two characters after its first `*` (at offset 1) are `z`, not hexadecimal
digits. -/
theorem verify_accepts_non_hex_digits :
    nmeaVerifyChecksum (some [36, 42, 122, 122]) = true ∧
    strchr [36, 42, 122, 122] 42 = some 1 ∧
    hexDigitVal (deref [36, 42, 122, 122] 2) = none ∧
    hexDigitVal (deref [36, 42, 122, 122] 3) = none := by
  decide

/-- C6 (amended): `nmeaVerifyChecksum` returns true only if the sentence is
present, contains a `*`, and at least two characters follow the first `*`. -/
theorem verify_true_only_if_star_and_two_chars (sentence : Option (List Nat))
    (h : nmeaVerifyChecksum sentence = true) :
    ∃ s pre post, sentence = some s ∧ s = pre ++ 42 :: post ∧ 42 ∉ pre ∧
      2 ≤ post.length := by
  cases sentence with
  | none => simp [nmeaVerifyChecksum] at h
  | some s =>
    cases hs : strchr s 42 with
    | none => simp [nmeaVerifyChecksum, hs] at h
    | some star =>
      obtain ⟨pre, post, hS, hn, hl⟩ := strchr_some hs
      refine ⟨s, pre, post, rfl, hS, hn, ?_⟩
      subst hS
      subst hl
      simp only [nmeaVerifyChecksum, hs, strlen, List.drop_left, List.length_cons] at h
      by_contra hlt
      have : post.length + 1 < 3 := by omega
      simp [this] at h

theorem verify_true_only_if_star_and_two_chars_witness :
    nmeaVerifyChecksum (some [36, 65, 42, 52, 49]) = true ∧
    ∃ s pre post, some [36, 65, 42, 52, 49] = some s ∧ s = pre ++ 42 :: post ∧ 42 ∉ pre ∧
      2 ≤ post.length :=
  ⟨by decide, verify_true_only_if_star_and_two_chars (some [36, 65, 42, 52, 49]) (by decide)⟩

/-! ## Field lookup -/

theorem joinFields_cons (f : List Nat) {fs : List (List Nat)} (h : fs ≠ []) :
    joinFields (f :: fs) = f ++ 44 :: joinFields fs := by
  cases fs with
  | nil => exact absurd rfl h
  | cons g gs => rfl

theorem getFieldLoop_skip (k : Nat) {f : List Nat} (rest : List Nat) (p fs cur : Nat)
    (h44 : 44 ∉ f) (h42 : 42 ∉ f) :
    getFieldLoop k (f ++ rest) p fs cur = getFieldLoop k rest (p + f.length) fs cur := by
  induction f generalizing p with
  | nil => simp
  | cons c cs ih =>
    simp only [List.mem_cons, not_or] at h44 h42
    have hc : ¬ (c = 44 ∨ c = 42) := by
      intro h
      rcases h with h | h
      · exact h44.1 h.symm
      · exact h42.1 h.symm
    have hstep : getFieldLoop k (c :: cs ++ rest) p fs cur
        = getFieldLoop k (cs ++ rest) (p + 1) fs cur := by
      simp [getFieldLoop, hc]
    rw [hstep, ih (p + 1) h44.2 h42.2]
    congr 1
    simp only [List.length_cons]
    omega

theorem getFieldLoop_fields (k : Nat) (tail : List Nat) (hk : k < 256) :
    ∀ (fields : List (List Nat)) (i p cur : Nat) (fi : List Nat),
      (∀ f ∈ fields, 44 ∉ f ∧ 42 ∉ f) → fields[i]? = some fi → cur + i = k →
      getFieldLoop k (joinFields fields ++ 42 :: tail) p p cur
        = if fi = [] then none else some (fieldOffsetFrom p fields i) := by
  intro fields
  induction fields with
  | nil => intro i p cur fi _ hi; simp at hi
  | cons f fs ih =>
    intro i p cur fi hok hi hcur
    have hf := hok f (by simp)
    cases i with
    | zero =>
      simp only [List.getElem?_cons_zero, Option.some.injEq] at hi
      subst hi
      have hcur' : cur = k := by omega
      have hdelim : ∃ d rest, (d = 44 ∨ d = 42) ∧
          joinFields (f :: fs) ++ 42 :: tail = f ++ d :: rest := by
        cases fs with
        | nil => exact ⟨42, tail, Or.inr rfl, rfl⟩
        | cons g gs =>
          exact ⟨44, joinFields (g :: gs) ++ 42 :: tail, Or.inl rfl, by
            rw [joinFields_cons f (by simp)]; simp⟩
      obtain ⟨d, rest, hd, hj⟩ := hdelim
      rw [hj, getFieldLoop_skip k _ p p cur hf.1 hf.2]
      simp only [getFieldLoop, hd, if_true, hcur', fieldOffsetFrom]
      by_cases hnil : f = []
      · simp [hnil]
      · have : 0 < f.length := List.length_pos.mpr hnil
        have hne : ¬ (p = p + f.length) := by omega
        simp [hnil, hne]
    | succ j =>
      simp only [List.getElem?_cons_succ] at hi
      have hfs : fs ≠ [] := by
        intro e
        subst e
        simp at hi
      have hj : joinFields (f :: fs) ++ 42 :: tail
          = f ++ 44 :: (joinFields fs ++ 42 :: tail) := by
        rw [joinFields_cons f hfs]; simp
      have hne : ¬ (cur = k) := by omega
      have hmod : (cur + 1) % 256 = cur + 1 := Nat.mod_eq_of_lt (by omega)
      rw [hj, getFieldLoop_skip k _ p p cur hf.1 hf.2]
      simp only [getFieldLoop, true_or, if_true, hne, if_false, hmod, fieldOffsetFrom]
      exact ih j (p + f.length + 1) (cur + 1) fi
        (fun g hg => hok g (by simp [hg])) hi (by omega)

theorem drop_fieldOffsetFrom (tail : List Nat) :
    ∀ (fields : List (List Nat)) (i : Nat) (pre fi : List Nat),
      fields[i]? = some fi →
      ∃ d rest, (d = 44 ∨ d = 42) ∧
        (pre ++ (joinFields fields ++ 42 :: tail)).drop (fieldOffsetFrom pre.length fields i)
          = fi ++ d :: rest := by
  intro fields
  induction fields with
  | nil => intro i pre fi hi; simp at hi
  | cons f fs ih =>
    intro i pre fi hi
    cases i with
    | zero =>
      simp only [List.getElem?_cons_zero, Option.some.injEq] at hi
      subst hi
      simp only [fieldOffsetFrom, List.drop_left]
      cases fs with
      | nil => exact ⟨42, tail, Or.inr rfl, rfl⟩
      | cons g gs =>
        exact ⟨44, joinFields (g :: gs) ++ 42 :: tail, Or.inl rfl, by
          rw [joinFields_cons f (by simp)]; simp⟩
    | succ j =>
      simp only [List.getElem?_cons_succ] at hi
      have hfs : fs ≠ [] := by
        intro e
        subst e
        simp at hi
      obtain ⟨d, rest, hd, hdrop⟩ := ih j (pre ++ f ++ [44]) fi hi
      refine ⟨d, rest, hd, ?_⟩
      have hlen : (pre ++ f ++ [44]).length = pre.length + f.length + 1 := by
        simp only [List.length_append, List.length_singleton]
      rw [hlen] at hdrop
      rw [← hdrop, joinFields_cons f hfs]
      simp [fieldOffsetFrom]

theorem getField_sentenceOf (fields : List (List Nat)) (tail : List Nat) (i : Nat)
    (fi : List Nat) (hok : ∀ f ∈ fields, 44 ∉ f ∧ 42 ∉ f ∧ 0 ∉ f)
    (hi : fields[i]? = some fi) (h8 : i < 256) :
    nmeaGetField (some (sentenceOf fields tail)) i
        = (if fi = [] then none else some (fieldOffset fields i)) :=
  getFieldLoop_fields i tail h8 fields i 1 0 fi
    (fun f hf => ⟨(hok f hf).1, (hok f hf).2.1⟩) hi (by omega)

theorem drop_fieldOffset (fields : List (List Nat)) (tail : List Nat) (i : Nat)
    (fi : List Nat) (hi : fields[i]? = some fi) :
    ∃ d rest, (d = 44 ∨ d = 42) ∧
      (sentenceOf fields tail).drop (fieldOffset fields i) = fi ++ d :: rest :=
  drop_fieldOffsetFrom tail fields i [36] fi hi

/-- C7: in a sentence `$f0,f1,...,fn*tail` whose fields hold no `,`, `*` or
NUL, `nmeaGetField` at an index `i ≤ n` returns the offset of the first
character of `fi` when `fi` is non-empty and `NULL` when it is empty; at that
offset the sentence reads `fi` followed by its delimiter. -/
theorem getField_in_range (fields : List (List Nat)) (tail : List Nat) (i : Nat)
    (fi : List Nat) (hok : ∀ f ∈ fields, 44 ∉ f ∧ 42 ∉ f ∧ 0 ∉ f)
    (hi : fields[i]? = some fi) (h8 : i < 256) :
    nmeaGetField (some (sentenceOf fields tail)) i
        = (if fi = [] then none else some (fieldOffset fields i)) ∧
      ∃ d rest, (d = 44 ∨ d = 42) ∧
        (sentenceOf fields tail).drop (fieldOffset fields i) = fi ++ d :: rest :=
  ⟨getField_sentenceOf fields tail i fi hok hi h8, drop_fieldOffset fields tail i fi hi⟩

theorem getField_in_range_witness :
    (∀ f ∈ [bytes "GPRMC", bytes "123519", []], 44 ∉ f ∧ 42 ∉ f ∧ 0 ∉ f) ∧
    [bytes "GPRMC", bytes "123519", []][1]? = some (bytes "123519") ∧ 1 < 256 ∧
    (nmeaGetField (some (sentenceOf [bytes "GPRMC", bytes "123519", []] (bytes "00"))) 1
        = (if bytes "123519" = [] then none
           else some (fieldOffset [bytes "GPRMC", bytes "123519", []] 1)) ∧
      ∃ d rest, (d = 44 ∨ d = 42) ∧
        (sentenceOf [bytes "GPRMC", bytes "123519", []] (bytes "00")).drop
            (fieldOffset [bytes "GPRMC", bytes "123519", []] 1)
          = bytes "123519" ++ d :: rest) :=
  ⟨by decide, by decide, by decide,
    getField_in_range [bytes "GPRMC", bytes "123519", []] (bytes "00") 1 (bytes "123519")
      (by decide) (by decide) (by decide)⟩

/-- C8 (the code at the failing input): in `$A,B*00` the fields are `A`
(index 0) and `B` (index 1); `nmeaGetField` at index 2, past the last field,
does not return `NULL` but the offset of field 1. -/
theorem getField_past_last_field :
    sentenceOf [bytes "A", bytes "B"] (bytes "00") = bytes "$A,B*00" ∧
    nmeaGetField (some (bytes "$A,B*00")) 2 = some 3 ∧
    nmeaGetField (some (bytes "$A,B*00")) 1 = some 3 := by
  decide

/-- C9 (the code at the failing input): `$GPRMC,123519,A,4807.038,N,01131.000,E,022.4,084.4*32`
passes the checksum and has no date field (fields 0 to 8 only), yet feeding it
followed by CR returns true on the CR and changes the record: the course
field `084.4*32` is read as the date. -/
theorem rmc_without_date_accepted :
    rmcNoDate = bytes "$GPRMC,123519,A,4807.038,N,01131.000,E,022.4,084.4*32" ∧
    rmcNoDateFields.length = 9 ∧
    nmeaVerifyChecksum (some rmcNoDate) = true ∧
    (feed ratOps (rmcNoDate ++ [13]) freshState zeroRecord).1
      = List.replicate rmcNoDate.length false ++ [true] ∧
    (feed ratOps (rmcNoDate ++ [13]) freshState zeroRecord).2.2.days = 8 ∧
    (feed ratOps (rmcNoDate ++ [13]) freshState zeroRecord).2.2.months = 4 ∧
    (feed ratOps (rmcNoDate ++ [13]) freshState zeroRecord).2.2.years = 4 ∧
    (feed ratOps (rmcNoDate ++ [13]) freshState zeroRecord).2.2.dataValid = true ∧
    zeroRecord.days = 0 ∧ zeroRecord.dataValid = false := by
  decide

/-! ## Decoders -/

theorem strncmpEq_of_append (pat r : List Nat) : strncmpEq (pat ++ r) pat pat.length = true := by
  induction pat with
  | nil => simp [strncmpEq]
  | cons c cs ih => simp [strncmpEq, ih]

theorem parseGPRMC_false {F : Type} (ops : FloatOps F) (sentence : Option (List Nat))
    (g : GPSData F) (h : (parseGPRMC ops sentence g).1 = false) :
    (parseGPRMC ops sentence g).2 = g := by
  cases sentence with
  | none => rfl
  | some s =>
    by_cases h1 : strncmpEq s GPRMC 6 = true
    · by_cases h2 : nmeaVerifyChecksum (some s) = true
      · cases ht : nmeaGetField (some s) 1 <;> cases hs : nmeaGetField (some s) 2 <;>
          cases hd : nmeaGetField (some s) 9 <;>
          simp [parseGPRMC, h1, h2, ht, hs, hd] at h ⊢
      · simp [parseGPRMC, h1, h2]
    · simp [parseGPRMC, h1]

theorem parseGPGGA_false {F : Type} (ops : FloatOps F) (sentence : Option (List Nat))
    (g : GPSData F) (h : (parseGPGGA ops sentence g).1 = false) :
    (parseGPGGA ops sentence g).2 = g := by
  cases sentence with
  | none => rfl
  | some s =>
    by_cases h1 : strncmpEq s GPGGA 6 = true
    · by_cases h2 : nmeaVerifyChecksum (some s) = true
      · cases hq : nmeaGetField (some s) 6 <;>
          simp [parseGPGGA, h1, h2, hq] at h ⊢
      · simp [parseGPGGA, h1, h2]
    · simp [parseGPGGA, h1]

/-- C3: when `nmeaParserProcessChar` returns false, the GPS record is the one
it was given: no field has changed. -/
theorem processChar_false_keeps_record {F : Type} (ops : FloatOps F) (c : Nat)
    (st : ParserState) (g : GPSData F)
    (h : (nmeaParserProcessChar ops c st g).1 = false) :
    (nmeaParserProcessChar ops c st g).2.2 = g := by
  unfold nmeaParserProcessChar at h ⊢
  by_cases h1 : c = 36
  · simp [h1]
  · by_cases h2 : c = 13 ∨ c = 10
    · by_cases h3 : 0 < st.nmeaBufferIndex
      · simp only [h1, h2, h3, if_true, if_false] at h ⊢
        by_cases h4 : strncmpEq (cstr (st.nmeaBuffer.set st.nmeaBufferIndex 0)) GPRMC 6 = true
        · simp only [h4, if_true] at h ⊢
          exact parseGPRMC_false ops _ g h
        · by_cases h5 : strncmpEq (cstr (st.nmeaBuffer.set st.nmeaBufferIndex 0)) GPGGA 6 = true
          · simp only [h4, h5, if_true, Bool.false_eq_true, if_false] at h ⊢
            exact parseGPGGA_false ops _ g h
          · simp [h4, h5]
      · simp [h1, h2, h3]
    · by_cases h3 : st.nmeaBufferIndex < NMEA_SENTENCE_MAX_LEN
      · simp [h1, h2, h3]
      · simp [h1, h2, h3]

theorem processChar_false_keeps_record_witness :
    (nmeaParserProcessChar ratOps 13
        (feed ratOps (bytes "$GPRMC,123519,A*00") freshState zeroRecord).2.1 zeroRecord).1
      = false ∧
    (nmeaParserProcessChar ratOps 13
        (feed ratOps (bytes "$GPRMC,123519,A*00") freshState zeroRecord).2.1 zeroRecord).2.2
      = zeroRecord :=
  ⟨by decide, processChar_false_keeps_record ratOps 13 _ zeroRecord (by decide)⟩

theorem deref_of_drop {s : List Nat} {off : Nat} {f rest : List Nat}
    (h : s.drop off = f ++ rest) (hf : f ≠ []) : some (deref s off) = f.head? := by
  cases f with
  | nil => exact absurd rfl hf
  | cons c cs => simp [deref, h]

theorem parseGPRMC_void {F : Type} (ops : FloatOps F) (s : List Nat) (g : GPSData F)
    (tOff stOff dOff : Nat)
    (hpre : strncmpEq s GPRMC 6 = true) (hv : nmeaVerifyChecksum (some s) = true)
    (ht : nmeaGetField (some s) 1 = some tOff) (hs : nmeaGetField (some s) 2 = some stOff)
    (hd : nmeaGetField (some s) 9 = some dOff)
    (h65 : deref s stOff ≠ 65) (h97 : deref s stOff ≠ 97) :
    ∃ g', parseGPRMC ops (some s) g = (true, g') ∧ g'.latitude = g.latitude ∧
      g'.longitude = g.longitude ∧ g'.speed = g.speed ∧ g'.course = g.course ∧
      g'.dataValid = true ∧ g'.hasFix = false := by
  refine ⟨(parseGPRMC ops (some s) g).2, ?_, ?_⟩
  · simp [parseGPRMC, hpre, hv, ht, hs, hd, h65, h97]
  · simp [parseGPRMC, hpre, hv, ht, hs, hd, h65, h97]

theorem getField_nonempty (fields : List (List Nat)) (tail : List Nat) (i : Nat)
    (fi : List Nat) (hok : ∀ f ∈ fields, 44 ∉ f ∧ 42 ∉ f ∧ 0 ∉ f)
    (hi : fields[i]? = some fi) (h8 : i < 256) (hne : fi ≠ []) :
    nmeaGetField (some (sentenceOf fields tail)) i = some (fieldOffset fields i) ∧
      some (deref (sentenceOf fields tail) (fieldOffset fields i)) = fi.head? := by
  constructor
  · rw [getField_sentenceOf fields tail i fi hok hi h8]
    simp [hne]
  · obtain ⟨d, rest, -, hdrop⟩ := drop_fieldOffset fields tail i fi hi
    exact deref_of_drop hdrop hne

theorem strncmpEq_of_begins {pat s : List Nat} (h : pat <+: s) :
    strncmpEq s pat pat.length = true := by
  obtain ⟨r, rfl⟩ := h
  exact strncmpEq_of_append pat r

/-- C10: for every record and every checksum-valid sentence `$f0,...,fn*tail`
that begins with `$GPRMC`, has non-empty time, status and date fields (fields
1, 2 and 9) and a status that starts with neither `A` nor `a`, `parseGPRMC`
returns true, leaves latitude, longitude, speed and course as they were,
sets `dataValid` and clears `hasFix`. -/
theorem rmc_void_keeps_position {F : Type} (ops : FloatOps F) (g : GPSData F)
    (fields : List (List Nat)) (tail time status date : List Nat)
    (hok : ∀ f ∈ fields, 44 ∉ f ∧ 42 ∉ f ∧ 0 ∉ f)
    (hbegin : GPRMC <+: sentenceOf fields tail)
    (hv : nmeaVerifyChecksum (some (sentenceOf fields tail)) = true)
    (h1 : fields[1]? = some time) (h2 : fields[2]? = some status)
    (h9 : fields[9]? = some date)
    (hne : time ≠ [] ∧ status ≠ [] ∧ date ≠ [])
    (hA : status.head? ≠ some 65) (ha : status.head? ≠ some 97) :
    ∃ g', parseGPRMC ops (some (sentenceOf fields tail)) g = (true, g') ∧
      g'.latitude = g.latitude ∧ g'.longitude = g.longitude ∧ g'.speed = g.speed ∧
      g'.course = g.course ∧ g'.dataValid = true ∧ g'.hasFix = false := by
  obtain ⟨ht, -⟩ := getField_nonempty fields tail 1 time hok h1 (by norm_num) hne.1
  obtain ⟨hs, hde⟩ := getField_nonempty fields tail 2 status hok h2 (by norm_num) hne.2.1
  obtain ⟨hd, -⟩ := getField_nonempty fields tail 9 date hok h9 (by norm_num) hne.2.2
  have h65 : deref (sentenceOf fields tail) (fieldOffset fields 2) ≠ 65 := by
    intro e
    rw [e] at hde
    exact hA hde.symm
  have h97 : deref (sentenceOf fields tail) (fieldOffset fields 2) ≠ 97 := by
    intro e
    rw [e] at hde
    exact ha hde.symm
  exact parseGPRMC_void ops _ g _ _ _ (strncmpEq_of_begins hbegin) hv ht hs hd h65 h97

theorem rmc_void_keeps_position_witness :
    (∀ f ∈ rmcVoidFields, 44 ∉ f ∧ 42 ∉ f ∧ 0 ∉ f) ∧
    GPRMC <+: sentenceOf rmcVoidFields (bytes "51") ∧
    nmeaVerifyChecksum (some (sentenceOf rmcVoidFields (bytes "51"))) = true ∧
    rmcVoidFields[1]? = some (bytes "123519") ∧ rmcVoidFields[2]? = some (bytes "V") ∧
    rmcVoidFields[9]? = some (bytes "230394") ∧
    (bytes "123519" ≠ [] ∧ bytes "V" ≠ [] ∧ bytes "230394" ≠ []) ∧
    (bytes "V").head? ≠ some 65 ∧ (bytes "V").head? ≠ some 97 ∧
    ∃ g', parseGPRMC ratOps (some (sentenceOf rmcVoidFields (bytes "51"))) zeroRecord
        = (true, g') ∧
      g'.latitude = zeroRecord.latitude ∧ g'.longitude = zeroRecord.longitude ∧
      g'.speed = zeroRecord.speed ∧ g'.course = zeroRecord.course ∧
      g'.dataValid = true ∧ g'.hasFix = false :=
  ⟨by decide, by decide, by decide, by decide, by decide, by decide, by decide, by decide,
    by decide,
    rmc_void_keeps_position ratOps zeroRecord rmcVoidFields (bytes "51") (bytes "123519")
      (bytes "V") (bytes "230394") (by decide) (by decide) (by decide) (by decide)
      (by decide) (by decide) (by decide) (by decide) (by decide)⟩

/-! ## Framing -/

theorem feed_append {F : Type} (ops : FloatOps F) (a b : List Nat) (st : ParserState)
    (g : GPSData F) :
    feed ops (a ++ b) st g
      = ((feed ops a st g).1 ++ (feed ops b (feed ops a st g).2.1 (feed ops a st g).2.2).1,
         (feed ops b (feed ops a st g).2.1 (feed ops a st g).2.2).2) := by
  induction a generalizing st g with
  | nil => simp [feed]
  | cons c cs ih => simp [feed, ih]

theorem processChar_dollar {F : Type} (ops : FloatOps F) (st : ParserState) (g : GPSData F) :
    nmeaParserProcessChar ops 36 st g
      = (false, { nmeaBuffer := st.nmeaBuffer.set 0 36, nmeaBufferIndex := 1 }, g) := by
  simp [nmeaParserProcessChar]

theorem processChar_ordinary {F : Type} (ops : FloatOps F) {c : Nat} (st : ParserState)
    (g : GPSData F) (h36 : c ≠ 36) (h13 : c ≠ 13) (h10 : c ≠ 10)
    (hidx : st.nmeaBufferIndex < NMEA_SENTENCE_MAX_LEN) :
    nmeaParserProcessChar ops c st g
      = (false, { nmeaBuffer := st.nmeaBuffer.set st.nmeaBufferIndex c,
                  nmeaBufferIndex := st.nmeaBufferIndex + 1 }, g) := by
  have hmod : (st.nmeaBufferIndex + 1) % 256 = st.nmeaBufferIndex + 1 := by
    apply Nat.mod_eq_of_lt
    simp only [NMEA_SENTENCE_MAX_LEN] at hidx
    omega
  simp [nmeaParserProcessChar, h36, h13, h10, hidx, hmod]

theorem feed_ordinary {F : Type} (ops : FloatOps F) (g : GPSData F) :
    ∀ (cs P R : List Nat), (∀ c ∈ cs, c ≠ 36 ∧ c ≠ 13 ∧ c ≠ 10) →
      P.length + cs.length ≤ NMEA_SENTENCE_MAX_LEN → cs.length ≤ R.length →
      feed ops cs { nmeaBuffer := P ++ R, nmeaBufferIndex := P.length } g
        = (List.replicate cs.length false,
           { nmeaBuffer := P ++ cs ++ R.drop cs.length,
             nmeaBufferIndex := P.length + cs.length }, g) := by
  intro cs
  induction cs with
  | nil => intro P R _ _ _; simp [feed]
  | cons c cs ih =>
    intro P R hord hcap hroom
    have hc := hord c (by simp)
    cases R with
    | nil => simp at hroom
    | cons r R' =>
      simp only [List.length_cons] at hcap hroom
      have hstep := processChar_ordinary ops
        { nmeaBuffer := P ++ r :: R', nmeaBufferIndex := P.length } g hc.1 hc.2.1 hc.2.2
        (by show P.length < NMEA_SENTENCE_MAX_LEN; omega)
      have hset : (P ++ r :: R').set P.length c = (P ++ [c]) ++ R' := by
        rw [List.set_append_right _ _ (Nat.le_refl _)]
        simp
      simp only [hset] at hstep
      have hidx : P.length + 1 = (P ++ [c]).length := by simp
      have hrec := ih (P ++ [c]) R' (fun x hx => hord x (by simp [hx]))
        (by rw [← hidx]; omega) (by omega)
      rw [← hidx] at hrec
      simp only [feed, hstep, hrec]
      simp [List.replicate_succ, Nat.add_assoc, Nat.add_comm 1]

theorem processChar_terminator {F : Type} (ops : FloatOps F) (S R : List Nat) (r : Nat)
    (g : GPSData F) {term : Nat} (hterm : term = 13 ∨ term = 10) (hS0 : 0 ∉ S)
    (hlen : 0 < S.length) (hpre : strncmpEq S GPRMC 6 = true) :
    nmeaParserProcessChar ops term { nmeaBuffer := S ++ r :: R, nmeaBufferIndex := S.length } g
      = ((parseGPRMC ops (some S) g).1, { nmeaBuffer := S ++ 0 :: R, nmeaBufferIndex := 0 },
         (parseGPRMC ops (some S) g).2) := by
  have h36 : term ≠ 36 := by rcases hterm with h | h <;> omega
  have hset : (S ++ r :: R).set S.length 0 = S ++ 0 :: R := by
    rw [List.set_append_right _ _ (Nat.le_refl _)]
    simp
  have hcs : cstr (S ++ 0 :: R) = S := cstr_append_zero R hS0
  simp [nmeaParserProcessChar, h36, hterm, hlen, hset, hcs, hpre]

theorem processChar_terminator_idle {F : Type} (ops : FloatOps F) (buf : List Nat)
    (g : GPSData F) {term : Nat} (hterm : term = 13 ∨ term = 10) :
    (nmeaParserProcessChar ops term { nmeaBuffer := buf, nmeaBufferIndex := 0 } g).1
      = false := by
  have h36 : term ≠ 36 := by rcases hterm with h | h <;> omega
  simp [nmeaParserProcessChar, h36, hterm]

theorem parseGPRMC_accepts {F : Type} (ops : FloatOps F) (s : List Nat) (g : GPSData F)
    (tOff stOff dOff : Nat)
    (hpre : strncmpEq s GPRMC 6 = true) (hv : nmeaVerifyChecksum (some s) = true)
    (ht : nmeaGetField (some s) 1 = some tOff) (hs : nmeaGetField (some s) 2 = some stOff)
    (hd : nmeaGetField (some s) 9 = some dOff) :
    (parseGPRMC ops (some s) g).1 = true := by
  simp [parseGPRMC, hpre, hv, ht, hs, hd]

theorem mem_joinFields {c : Nat} :
    ∀ {fields : List (List Nat)}, c ∈ joinFields fields → c = 44 ∨ ∃ f ∈ fields, c ∈ f := by
  intro fields
  induction fields with
  | nil => intro h; simp [joinFields] at h
  | cons f fs ih =>
    intro h
    cases fs with
    | nil =>
      simp only [joinFields] at h
      exact Or.inr ⟨f, by simp, h⟩
    | cons g gs =>
      rw [joinFields_cons f (by simp)] at h
      simp only [List.mem_append, List.mem_cons] at h
      rcases h with h | h | h
      · exact Or.inr ⟨f, by simp, h⟩
      · exact Or.inl h
      · rcases ih h with h' | ⟨f', hf', hc⟩
        · exact Or.inl h'
        · exact Or.inr ⟨f', by simp [hf'], hc⟩

theorem hexChar_ordinary : ∀ d, d < 16 → ∀ u : Bool,
    hexChar u d ≠ 0 ∧ hexChar u d ≠ 36 ∧ hexChar u d ≠ 13 ∧ hexChar u d ≠ 10 := by
  decide

theorem verify_checksumDigits (body : List Nat) (u1 u2 : Bool) (hstar : 42 ∉ body)
    (hbyte : ∀ c ∈ body, c < 256) :
    nmeaVerifyChecksum (some (36 :: (body ++ 42 :: checksumDigits u1 u2 body))) = true := by
  unfold checksumDigits
  have hx := xorAll_lt hbyte
  have h1 : xorAll body / 16 < 16 := by omega
  have h2 : xorAll body % 16 < 16 := by omega
  rw [verify_sentence _ hstar, strtoul16_hexChars _ h1 _ h2 u1 u2]
  have : 16 * (xorAll body / 16) + xorAll body % 16 = xorAll body := by omega
  simp [this]

/-- C2: from any parser state, feeding a well-formed RMC sentence
`$GPRMC,...*hh` (at most 82 characters; fields free of NUL, LF, CR, `$`, `*`
and `,`; non-empty time, status and date at fields 1, 2 and 9; `hh` the XOR
of the characters between `$` and `*` as two hexadecimal digits) returns
false for each of its characters, true for the CR or LF fed next, and false
for an LF fed after that. -/
theorem feed_wellformed_rmc {F : Type} (ops : FloatOps F) (st : ParserState) (g : GPSData F)
    (fields : List (List Nat)) (time status date : List Nat) (u1 u2 : Bool) (term : Nat)
    (hbuf : st.nmeaBuffer.length = NMEA_SENTENCE_MAX_LEN + 1)
    (hchars : ∀ f ∈ fields, ∀ c ∈ f,
      c ≠ 0 ∧ c ≠ 10 ∧ c ≠ 13 ∧ c ≠ 36 ∧ c ≠ 42 ∧ c ≠ 44 ∧ c < 256)
    (h0 : fields[0]? = some [71, 80, 82, 77, 67])
    (h1 : fields[1]? = some time) (h2 : fields[2]? = some status)
    (h9 : fields[9]? = some date)
    (hne : time ≠ [] ∧ status ≠ [] ∧ date ≠ [])
    (hlen : (sentenceOf fields (checksumDigits u1 u2 (joinFields fields))).length
      ≤ NMEA_SENTENCE_MAX_LEN)
    (hterm : term = 13 ∨ term = 10) :
    (feed ops (sentenceOf fields (checksumDigits u1 u2 (joinFields fields)) ++ [term, 10])
        st g).1
      = List.replicate
          (sentenceOf fields (checksumDigits u1 u2 (joinFields fields))).length false
        ++ [true, false] := by
  -- facts about the characters of the sentence
  have hbody : ∀ c ∈ joinFields fields,
      c ≠ 0 ∧ c ≠ 10 ∧ c ≠ 13 ∧ c ≠ 36 ∧ c ≠ 42 ∧ c < 256 := by
    intro c hc
    rcases mem_joinFields hc with h | ⟨f, hf, hcf⟩
    · subst h; norm_num
    · have := hchars f hf c hcf
      exact ⟨this.1, this.2.1, this.2.2.1, this.2.2.2.1, this.2.2.2.2.1, this.2.2.2.2.2.2⟩
  have hx : xorAll (joinFields fields) < 256 := xorAll_lt (fun c hc => (hbody c hc).2.2.2.2.2)
  have hd1 := hexChar_ordinary (xorAll (joinFields fields) / 16) (by omega) u1
  have hd2 := hexChar_ordinary (xorAll (joinFields fields) % 16) (by omega) u2
  have hrest : ∀ c ∈ joinFields fields ++ 42 :: checksumDigits u1 u2 (joinFields fields),
      c ≠ 0 ∧ c ≠ 36 ∧ c ≠ 13 ∧ c ≠ 10 := by
    intro c hc
    simp only [checksumDigits, List.mem_append, List.mem_cons, List.mem_singleton,
      List.not_mem_nil, or_false] at hc
    rcases hc with h | h | h | h
    · have := hbody c h
      exact ⟨this.1, this.2.2.2.1, this.2.2.1, this.2.1⟩
    · subst h; norm_num
    · subst h; exact hd1
    · subst h; exact hd2
  have hok : ∀ f ∈ fields, 44 ∉ f ∧ 42 ∉ f ∧ 0 ∉ f := by
    intro f hf
    refine ⟨fun h => ?_, fun h => ?_, fun h => ?_⟩
    · exact (hchars f hf 44 h).2.2.2.2.2.1 rfl
    · exact (hchars f hf 42 h).2.2.2.2.1 rfl
    · exact (hchars f hf 0 h).1 rfl
  have hstar : (42 : Nat) ∉ joinFields fields := fun h => (hbody 42 h).2.2.2.2.1 rfl
  -- the decoder accepts the sentence
  have hS0 : (0 : Nat) ∉ sentenceOf fields (checksumDigits u1 u2 (joinFields fields)) := by
    intro h
    simp only [sentenceOf, List.mem_cons] at h
    rcases h with h | h
    · omega
    · exact (hrest 0 h).1 rfl
  have hpre : strncmpEq (sentenceOf fields (checksumDigits u1 u2 (joinFields fields)))
      GPRMC 6 = true := by
    cases fields with
    | nil => simp at h0
    | cons f0 fs =>
      simp only [List.getElem?_cons_zero, Option.some.injEq] at h0
      subst h0
      have hfs : fs ≠ [] := by
        intro e
        subst e
        simp at h1
      rw [sentenceOf, joinFields_cons _ hfs]
      simp [strncmpEq, GPRMC]
  have hv : nmeaVerifyChecksum
      (some (sentenceOf fields (checksumDigits u1 u2 (joinFields fields)))) = true :=
    verify_checksumDigits (joinFields fields) u1 u2 hstar (fun c hc => (hbody c hc).2.2.2.2.2)
  obtain ⟨ht, -⟩ := getField_nonempty fields (checksumDigits u1 u2 (joinFields fields)) 1
    time hok h1 (by norm_num) hne.1
  obtain ⟨hs, -⟩ := getField_nonempty fields (checksumDigits u1 u2 (joinFields fields)) 2
    status hok h2 (by norm_num) hne.2.1
  obtain ⟨hd, -⟩ := getField_nonempty fields (checksumDigits u1 u2 (joinFields fields)) 9
    date hok h9 (by norm_num) hne.2.2
  have hacc := parseGPRMC_accepts ops _ g _ _ _ hpre hv ht hs hd
  -- the buffer while the sentence is fed
  generalize hSdef : sentenceOf fields (checksumDigits u1 u2 (joinFields fields)) = S
    at hlen hS0 hpre hacc ⊢
  generalize hRdef : joinFields fields ++ 42 :: checksumDigits u1 u2 (joinFields fields)
    = rest at hrest
  have hSr : S = 36 :: rest := by rw [← hSdef, ← hRdef]; rfl
  subst hSr
  simp only [List.length_cons, NMEA_SENTENCE_MAX_LEN] at hlen hbuf
  obtain ⟨b0, R0, hb⟩ : ∃ b0 R0, st.nmeaBuffer = b0 :: R0 := by
    cases hbv : st.nmeaBuffer with
    | nil => rw [hbv] at hbuf; simp at hbuf
    | cons b0 R0 => exact ⟨b0, R0, rfl⟩
  have hR0 : R0.length = 82 := by
    rw [hb] at hbuf
    simpa using hbuf
  have hfeed := feed_ordinary ops g rest [36] R0
    (fun c hc => (hrest c hc).2) (by simp [NMEA_SENTENCE_MAX_LEN]; omega) (by omega)
  obtain ⟨r1, R1, hR1⟩ : ∃ r1 R1, R0.drop rest.length = r1 :: R1 := by
    cases hdv : R0.drop rest.length with
    | nil =>
      have : (R0.drop rest.length).length = 0 := by rw [hdv]; rfl
      rw [List.length_drop] at this
      omega
    | cons r1 R1 => exact ⟨r1, R1, rfl⟩
  rw [hR1] at hfeed
  have hidx : [36].length + rest.length = (36 :: rest).length := by
    simp only [List.length_cons, List.length_nil]; omega
  have hbufS : [36] ++ rest ++ r1 :: R1 = (36 :: rest) ++ r1 :: R1 := by simp
  rw [hidx, hbufS] at hfeed
  have hfeed1 : feed ops rest { nmeaBuffer := [36] ++ R0, nmeaBufferIndex := 1 } g
      = (List.replicate rest.length false,
         { nmeaBuffer := (36 :: rest) ++ r1 :: R1, nmeaBufferIndex := (36 :: rest).length },
         g) := hfeed
  have hlenpos : 0 < (36 :: rest).length := by simp
  have hT := processChar_terminator ops (36 :: rest) R1 r1 g hterm hS0 hlenpos hpre
  have hI := processChar_terminator_idle ops ((36 :: rest) ++ 0 :: R1)
    (parseGPRMC ops (some (36 :: rest)) g).2 (Or.inr rfl : (10 : Nat) = 13 ∨ (10 : Nat) = 10)
  have hstart : (st.nmeaBuffer.set 0 36) = [36] ++ R0 := by rw [hb]; rfl
  have hcons : (36 :: rest) ++ [term, 10] = 36 :: (rest ++ [term, 10]) := rfl
  rw [hcons]
  simp only [feed, processChar_dollar, hstart]
  rw [feed_append, hfeed1]
  simp only [feed, hT, hI, hacc]
  simp [List.replicate_succ]

theorem feed_wellformed_rmc_witness :
    (({ nmeaBuffer := List.replicate 83 65, nmeaBufferIndex := 50 } : ParserState).nmeaBuffer.length
      = NMEA_SENTENCE_MAX_LEN + 1) ∧
    (∀ f ∈ rmcFields, ∀ c ∈ f,
      c ≠ 0 ∧ c ≠ 10 ∧ c ≠ 13 ∧ c ≠ 36 ∧ c ≠ 42 ∧ c ≠ 44 ∧ c < 256) ∧
    rmcFields[0]? = some [71, 80, 82, 77, 67] ∧
    rmcFields[1]? = some (bytes "123519") ∧ rmcFields[2]? = some (bytes "A") ∧
    rmcFields[9]? = some (bytes "230394") ∧
    (bytes "123519" ≠ [] ∧ bytes "A" ≠ [] ∧ bytes "230394" ≠ []) ∧
    (sentenceOf rmcFields (checksumDigits true true (joinFields rmcFields))).length
      ≤ NMEA_SENTENCE_MAX_LEN ∧
    ((13 : Nat) = 13 ∨ (13 : Nat) = 10) ∧
    (feed ratOps
        (sentenceOf rmcFields (checksumDigits true true (joinFields rmcFields)) ++ [13, 10])
        { nmeaBuffer := List.replicate 83 65, nmeaBufferIndex := 50 } zeroRecord).1
      = List.replicate
          (sentenceOf rmcFields (checksumDigits true true (joinFields rmcFields))).length false
        ++ [true, false] :=
  ⟨by decide, by decide, by decide, by decide, by decide, by decide, by decide, by decide,
    by decide,
    feed_wellformed_rmc ratOps { nmeaBuffer := List.replicate 83 65, nmeaBufferIndex := 50 }
      zeroRecord rmcFields (bytes "123519") (bytes "A") (bytes "230394") true true 13
      (by decide) (by decide) (by decide) (by decide) (by decide) (by decide) (by decide)
      (by decide) (by decide)⟩

theorem cstr_append_zero_any (l r : List Nat) : cstr (l ++ 0 :: r) = cstr l := by
  induction l with
  | nil => simp [cstr]
  | cons c cs ih =>
    simp only [cstr] at ih ⊢
    by_cases hc : c = 0
    · simp [List.takeWhile_cons, hc]
    · simp [List.takeWhile_cons, hc, ih]

theorem cstr_initial (l : List Nat) : cstr l <+: l := List.takeWhile_prefix _

theorem prefix_of_strncmpEq : ∀ {pat s : List Nat},
    strncmpEq s pat pat.length = true → pat <+: s := by
  intro pat
  induction pat with
  | nil => intro s _; exact List.nil_prefix
  | cons b bs ih =>
    intro s h
    cases s with
    | nil => simp [strncmpEq] at h
    | cons a as =>
      simp only [List.length_cons, strncmpEq, Bool.and_eq_true, beq_iff_eq] at h
      obtain ⟨hab, hrest⟩ := h
      subst hab
      exact (List.cons_prefix_cons).mpr ⟨rfl, ih hrest⟩

theorem take_succ_set {l : List Nat} {n : Nat} (c : Nat) (h : n < l.length) :
    (l.set n c).take (n + 1) = l.take n ++ [c] := by
  rw [List.set_eq_take_cons_drop _ h]
  have hlen : (l.take n).length = n := by
    rw [List.length_take]; omega
  have : l.take n ++ c :: l.drop (n + 1) = (l.take n ++ [c]) ++ l.drop (n + 1) := by simp
  rw [this]
  apply List.take_left'
  simp [hlen]

theorem head?_set_pos {l : List Nat} {n : Nat} (c : Nat) (h : 0 < n) :
    (l.set n c).head? = l.head? := by
  cases l with
  | nil => rfl
  | cons a as =>
    cases n with
    | zero => omega
    | succ m => rfl

theorem parseGPRMC_true_verify {F : Type} (ops : FloatOps F) (s : List Nat) (g : GPSData F)
    (h : (parseGPRMC ops (some s) g).1 = true) : nmeaVerifyChecksum (some s) = true := by
  by_contra hv
  by_cases h1 : strncmpEq s GPRMC 6 = true
  · simp [parseGPRMC, h1, hv] at h
  · simp [parseGPRMC, h1] at h

theorem parseGPGGA_true_verify {F : Type} (ops : FloatOps F) (s : List Nat) (g : GPSData F)
    (h : (parseGPGGA ops (some s) g).1 = true) : nmeaVerifyChecksum (some s) = true := by
  by_contra hv
  by_cases h1 : strncmpEq s GPGGA 6 = true
  · simp [parseGPGGA, h1, hv] at h
  · simp [parseGPGGA, h1] at h

theorem framingInv_init (st0 : ParserState)
    (h : st0.nmeaBuffer.length = NMEA_SENTENCE_MAX_LEN + 1) :
    FramingInv [] (nmeaParserInit st0) := by
  refine ⟨by simp [nmeaParserInit, h], by simp [nmeaParserInit], ?_⟩
  intro hpos
  simp [nmeaParserInit] at hpos

theorem framingInv_step {F : Type} (ops : FloatOps F) (c : Nat) (hist : List Nat)
    (st : ParserState) (g : GPSData F) (hinv : FramingInv hist st) :
    FramingInv (hist ++ [c]) (nmeaParserProcessChar ops c st g).2.1 := by
  obtain ⟨hlen, hidx, hbuf⟩ := hinv
  simp only [NMEA_SENTENCE_MAX_LEN] at hlen hidx
  unfold nmeaParserProcessChar
  by_cases h1 : c = 36
  · subst h1
    simp only [if_true]
    refine ⟨by simp [NMEA_SENTENCE_MAX_LEN, hlen], by simp [NMEA_SENTENCE_MAX_LEN], ?_⟩
    intro _ _
    refine ⟨hist, [], rfl, by simp, rfl, ?_⟩
    cases hb : st.nmeaBuffer with
    | nil => rw [hb] at hlen; simp at hlen
    | cons b R => simp
  · by_cases h2 : c = 13 ∨ c = 10
    · by_cases h3 : 0 < st.nmeaBufferIndex
      · simp only [h1, h2, h3, if_true, if_false]
        refine ⟨by simp [NMEA_SENTENCE_MAX_LEN, hlen], by simp, ?_⟩
        intro hpos
        simp at hpos
      · simp only [h1, h2, h3, if_true, if_false]
        refine ⟨by simp [NMEA_SENTENCE_MAX_LEN, hlen], by simp, ?_⟩
        intro hpos
        simp at hpos
    · by_cases h3 : st.nmeaBufferIndex < NMEA_SENTENCE_MAX_LEN
      · simp only [h1, h2, h3, if_true, if_false]
        simp only [NMEA_SENTENCE_MAX_LEN] at h3
        have hmod : (st.nmeaBufferIndex + 1) % 256 = st.nmeaBufferIndex + 1 :=
          Nat.mod_eq_of_lt (by omega)
        rw [hmod]
        refine ⟨by simp [NMEA_SENTENCE_MAX_LEN, hlen], by simp [NMEA_SENTENCE_MAX_LEN]; omega, ?_⟩
        intro _ hhead
        simp only at hhead ⊢
        by_cases h0 : st.nmeaBufferIndex = 0
        · exfalso
          rw [h0] at hhead
          cases hb : st.nmeaBuffer with
          | nil => rw [hb] at hlen; simp at hlen
          | cons b R =>
            rw [hb] at hhead
            simp at hhead
            exact h1 hhead
        · have hpos : 0 < st.nmeaBufferIndex := Nat.pos_of_ne_zero h0
          rw [head?_set_pos c hpos] at hhead
          obtain ⟨a, t, hh, hnt, hi, htake⟩ := hbuf hpos hhead
          refine ⟨a, t ++ [c], by simp [hh], ?_, by simp [hi], ?_⟩
          · simp only [List.mem_append, List.mem_singleton, not_or]
            exact ⟨hnt, fun e => h1 e.symm⟩
          · rw [take_succ_set c (by omega), htake]
            simp
      · simp only [h1, h2, h3, if_true, if_false]
        refine ⟨by simp [NMEA_SENTENCE_MAX_LEN, hlen], by simp, ?_⟩
        intro hpos
        simp at hpos

theorem framingInv_feed {F : Type} (ops : FloatOps F) :
    ∀ (cs hist : List Nat) (st : ParserState) (g : GPSData F), FramingInv hist st →
      FramingInv (hist ++ cs) (feed ops cs st g).2.1 := by
  intro cs
  induction cs with
  | nil => intro hist st g h; simpa [feed] using h
  | cons c cs ih =>
    intro hist st g h
    have hstep := framingInv_step ops c hist st g h
    have := ih (hist ++ [c]) _ (nmeaParserProcessChar ops c st g).2.2 hstep
    simpa [feed] using this

theorem processChar_true {F : Type} (ops : FloatOps F) (c : Nat) (hist : List Nat)
    (st : ParserState) (g : GPSData F) (hinv : FramingInv hist st)
    (h : (nmeaParserProcessChar ops c st g).1 = true) :
    (c = 13 ∨ c = 10) ∧
      ∃ a t, hist = a ++ 36 :: t ∧ 36 ∉ t ∧ t.length + 1 ≤ NMEA_SENTENCE_MAX_LEN ∧
        (GPRMC <+: 36 :: t ∨ GPGGA <+: 36 :: t) ∧
        nmeaVerifyChecksum (some (cstr (36 :: t))) = true := by
  obtain ⟨hlen, hidx, hbuf⟩ := hinv
  unfold nmeaParserProcessChar at h
  by_cases h1 : c = 36
  · simp [h1] at h
  · by_cases h2 : c = 13 ∨ c = 10
    · refine ⟨h2, ?_⟩
      by_cases h3 : 0 < st.nmeaBufferIndex
      · simp only [h1, h2, h3, if_true, if_false] at h
        have hlt : st.nmeaBufferIndex < st.nmeaBuffer.length := by
          simp only [NMEA_SENTENCE_MAX_LEN] at hlen hidx
          omega
        -- the string handed to the decoders
        have hsent : cstr (st.nmeaBuffer.set st.nmeaBufferIndex 0)
            = cstr (st.nmeaBuffer.take st.nmeaBufferIndex) := by
          rw [List.set_eq_take_cons_drop _ hlt]
          exact cstr_append_zero_any _ _
        have key : ∀ pat : List Nat, pat.head? = some 36 →
            strncmpEq (cstr (st.nmeaBuffer.set st.nmeaBufferIndex 0)) pat pat.length = true →
            nmeaVerifyChecksum (some (cstr (st.nmeaBuffer.set st.nmeaBufferIndex 0))) = true →
            ∃ a t, hist = a ++ 36 :: t ∧ 36 ∉ t ∧ t.length + 1 ≤ NMEA_SENTENCE_MAX_LEN ∧
              pat <+: 36 :: t ∧ nmeaVerifyChecksum (some (cstr (36 :: t))) = true := by
          intro pat hpat hcmp hver
          have hp1 := prefix_of_strncmpEq hcmp
          rw [hsent] at hp1 hver
          have hp2 : pat <+: st.nmeaBuffer.take st.nmeaBufferIndex :=
            hp1.trans (cstr_initial _)
          have hp3 : pat <+: st.nmeaBuffer := hp2.trans (List.take_prefix _ _)
          have hhead : st.nmeaBuffer.head? = some 36 := by
            obtain ⟨r, hr⟩ := hp3
            cases pat with
            | nil => simp at hpat
            | cons b bs =>
              simp only [List.head?_cons, Option.some.injEq] at hpat
              subst hpat
              rw [← hr]
              rfl
          obtain ⟨a, t, hh, hnt, hi, htake⟩ := hbuf h3 hhead
          rw [htake] at hp2 hver
          exact ⟨a, t, hh, hnt, by omega, hp2, hver⟩
        by_cases h4 : strncmpEq (cstr (st.nmeaBuffer.set st.nmeaBufferIndex 0)) GPRMC 6 = true
        · simp only [h4, if_true] at h
          obtain ⟨a, t, hh, hnt, hl, hp, hver⟩ :=
            key GPRMC rfl h4 (parseGPRMC_true_verify ops _ g h)
          exact ⟨a, t, hh, hnt, hl, Or.inl hp, hver⟩
        · by_cases h5 :
            strncmpEq (cstr (st.nmeaBuffer.set st.nmeaBufferIndex 0)) GPGGA 6 = true
          · simp only [h4, h5, if_true, Bool.false_eq_true, if_false] at h
            obtain ⟨a, t, hh, hnt, hl, hp, hver⟩ :=
              key GPGGA rfl h5 (parseGPGGA_true_verify ops _ g h)
            exact ⟨a, t, hh, hnt, hl, Or.inr hp, hver⟩
          · simp [h4, h5] at h
      · simp [h1, h2, h3] at h
    · by_cases h3 : st.nmeaBufferIndex < NMEA_SENTENCE_MAX_LEN
      · simp [h1, h2, h3] at h
      · simp [h1, h2, h3] at h

/-- C1: start from `nmeaParserInit` and feed any characters `fed` one at a
time; if the call for a further character `c` returns true, then `c` is CR
or LF and `fed` ends in a `$` followed by a `$`-free text `t` such that `$t`
has at most 82 characters, begins with `$GPRMC` or `$GPGGA`, and (as the C
string it is in the buffer) passes `nmeaVerifyChecksum`. -/
theorem processChar_true_only_on_valid_sentence {F : Type} (ops : FloatOps F)
    (st0 : ParserState) (g0 : GPSData F) (fed : List Nat) (c : Nat)
    (hbuf : st0.nmeaBuffer.length = NMEA_SENTENCE_MAX_LEN + 1)
    (h : (nmeaParserProcessChar ops c (feed ops fed (nmeaParserInit st0) g0).2.1
            (feed ops fed (nmeaParserInit st0) g0).2.2).1 = true) :
    (c = 13 ∨ c = 10) ∧
      ∃ a t, fed = a ++ 36 :: t ∧ 36 ∉ t ∧ t.length + 1 ≤ NMEA_SENTENCE_MAX_LEN ∧
        (GPRMC <+: 36 :: t ∨ GPGGA <+: 36 :: t) ∧
        nmeaVerifyChecksum (some (cstr (36 :: t))) = true := by
  have hinv := framingInv_feed ops fed [] (nmeaParserInit st0) g0 (framingInv_init st0 hbuf)
  rw [List.nil_append] at hinv
  exact processChar_true ops c fed _ _ hinv h

set_option maxRecDepth 100000 in
theorem processChar_true_only_on_valid_sentence_witness :
    freshState.nmeaBuffer.length = NMEA_SENTENCE_MAX_LEN + 1 ∧
    (nmeaParserProcessChar ratOps 13
        (feed ratOps (bytes "xy\n$GP$GPRMC,123519,V,,,,,,,230394,,,N*51")
          (nmeaParserInit freshState) zeroRecord).2.1
        (feed ratOps (bytes "xy\n$GP$GPRMC,123519,V,,,,,,,230394,,,N*51")
          (nmeaParserInit freshState) zeroRecord).2.2).1 = true ∧
    ((13 : Nat) = 13 ∨ (13 : Nat) = 10) ∧
      ∃ a t, bytes "xy\n$GP$GPRMC,123519,V,,,,,,,230394,,,N*51" = a ++ 36 :: t ∧ 36 ∉ t ∧
        t.length + 1 ≤ NMEA_SENTENCE_MAX_LEN ∧
        (GPRMC <+: 36 :: t ∨ GPGGA <+: 36 :: t) ∧
        nmeaVerifyChecksum (some (cstr (36 :: t))) = true :=
  ⟨by decide, by decide,
    processChar_true_only_on_valid_sentence ratOps freshState zeroRecord
      (bytes "xy\n$GP$GPRMC,123519,V,,,,,,,230394,,,N*51") 13 (by decide) (by decide)⟩

/-! ## Feeding one whole sentence -/

theorem processChar_terminator_decode {F : Type} (ops : FloatOps F) (S R : List Nat)
    (r : Nat) (g : GPSData F) {term : Nat} (hterm : term = 13 ∨ term = 10) (hS0 : 0 ∉ S)
    (hlen : 0 < S.length) :
    nmeaParserProcessChar ops term { nmeaBuffer := S ++ r :: R, nmeaBufferIndex := S.length } g
      = ((decodeSentence ops S g).1, { nmeaBuffer := S ++ 0 :: R, nmeaBufferIndex := 0 },
         (decodeSentence ops S g).2) := by
  have h36 : term ≠ 36 := by rcases hterm with h | h <;> omega
  have hset : (S ++ r :: R).set S.length 0 = S ++ 0 :: R := by
    rw [List.set_append_right _ _ (Nat.le_refl _)]
    simp
  have hcs : cstr (S ++ 0 :: R) = S := cstr_append_zero R hS0
  simp only [nmeaParserProcessChar, h36, hterm, hlen, hset, hcs, if_true, if_false,
    decodeSentence]

theorem feed_sentence {F : Type} (ops : FloatOps F) (st : ParserState) (g : GPSData F)
    (rest : List Nat) {term : Nat}
    (hbuf : st.nmeaBuffer.length = NMEA_SENTENCE_MAX_LEN + 1)
    (hrest : ∀ c ∈ rest, c ≠ 0 ∧ c ≠ 36 ∧ c ≠ 13 ∧ c ≠ 10)
    (hlen : rest.length + 1 ≤ NMEA_SENTENCE_MAX_LEN)
    (hterm : term = 13 ∨ term = 10) :
    ∃ R, feed ops (36 :: rest ++ [term]) st g
      = (List.replicate (rest.length + 1) false ++ [(decodeSentence ops (36 :: rest) g).1],
         { nmeaBuffer := (36 :: rest) ++ 0 :: R, nmeaBufferIndex := 0 },
         (decodeSentence ops (36 :: rest) g).2) := by
  simp only [NMEA_SENTENCE_MAX_LEN] at hlen hbuf
  have hS0 : (0 : Nat) ∉ 36 :: rest := by
    intro h
    simp only [List.mem_cons] at h
    rcases h with h | h
    · omega
    · exact (hrest 0 h).1 rfl
  obtain ⟨b0, R0, hb⟩ : ∃ b0 R0, st.nmeaBuffer = b0 :: R0 := by
    cases hbv : st.nmeaBuffer with
    | nil => rw [hbv] at hbuf; simp at hbuf
    | cons b0 R0 => exact ⟨b0, R0, rfl⟩
  have hR0 : R0.length = 82 := by
    rw [hb] at hbuf
    simpa using hbuf
  have hfeed := feed_ordinary ops g rest [36] R0
    (fun c hc => (hrest c hc).2) (by simp [NMEA_SENTENCE_MAX_LEN]; omega) (by omega)
  obtain ⟨r1, R1, hR1⟩ : ∃ r1 R1, R0.drop rest.length = r1 :: R1 := by
    cases hdv : R0.drop rest.length with
    | nil =>
      have : (R0.drop rest.length).length = 0 := by rw [hdv]; rfl
      rw [List.length_drop] at this
      omega
    | cons r1 R1 => exact ⟨r1, R1, rfl⟩
  rw [hR1] at hfeed
  have hidx : [36].length + rest.length = (36 :: rest).length := by
    simp only [List.length_cons, List.length_nil]; omega
  have hbufS : [36] ++ rest ++ r1 :: R1 = (36 :: rest) ++ r1 :: R1 := by simp
  rw [hidx, hbufS] at hfeed
  have hfeed1 : feed ops rest { nmeaBuffer := [36] ++ R0, nmeaBufferIndex := 1 } g
      = (List.replicate rest.length false,
         { nmeaBuffer := (36 :: rest) ++ r1 :: R1, nmeaBufferIndex := (36 :: rest).length },
         g) := hfeed
  have hlenpos : 0 < (36 :: rest).length := by simp
  have hT := processChar_terminator_decode ops (36 :: rest) R1 r1 g hterm hS0 hlenpos
  have hstart : (st.nmeaBuffer.set 0 36) = [36] ++ R0 := by rw [hb]; rfl
  have hcons : (36 :: rest) ++ [term] = 36 :: (rest ++ [term]) := rfl
  refine ⟨R1, ?_⟩
  rw [hcons]
  simp only [feed, processChar_dollar, hstart]
  rw [feed_append, hfeed1]
  simp only [feed, hT]
  simp [List.replicate_succ]

theorem rmcSentence_ordinary :
    ∀ c ∈ rmcSentence.tail, c ≠ 0 ∧ c ≠ 36 ∧ c ≠ 13 ∧ c ≠ 10 := by
  decide

theorem ggaSentence_ordinary :
    ∀ c ∈ ggaSentence.tail, c ≠ 0 ∧ c ≠ 36 ∧ c ≠ 13 ∧ c ≠ 10 := by
  decide

set_option maxRecDepth 100000 in
/-- C11: from any parser state, feeding
`$GPRMC,123519,A,4807.038,N,01131.000,E,022.4,084.4,230394,003.1,W*6A`
character by character and then CR returns false for every character of the
sentence and true on the CR, and the record then has hours 12, minutes 35,
seconds 19, days 23, months 3, years 94, `hasFix` and `dataValid` true. -/
theorem rmc_example_decoded {F : Type} (ops : FloatOps F) (st : ParserState)
    (g : GPSData F) (hbuf : st.nmeaBuffer.length = NMEA_SENTENCE_MAX_LEN + 1) :
    ∃ st' g', feed ops (rmcSentence ++ [13]) st g
        = (List.replicate rmcSentence.length false ++ [true], st', g') ∧
      g'.hours = 12 ∧ g'.minutes = 35 ∧ g'.seconds = 19 ∧
      g'.days = 23 ∧ g'.months = 3 ∧ g'.years = 94 ∧
      g'.hasFix = true ∧ g'.dataValid = true := by
  obtain ⟨R, h⟩ := feed_sentence ops st g rmcSentence.tail hbuf rmcSentence_ordinary
    (by decide) (Or.inl rfl : (13 : Nat) = 13 ∨ (13 : Nat) = 10)
  exact ⟨_, _, h, rfl, rfl, rfl, rfl, rfl, rfl, rfl, rfl⟩

theorem rmc_example_decoded_witness :
    freshState.nmeaBuffer.length = NMEA_SENTENCE_MAX_LEN + 1 ∧
    ∃ st' g', feed ratOps (rmcSentence ++ [13]) freshState zeroRecord
        = (List.replicate rmcSentence.length false ++ [true], st', g') ∧
      g'.hours = 12 ∧ g'.minutes = 35 ∧ g'.seconds = 19 ∧
      g'.days = 23 ∧ g'.months = 3 ∧ g'.years = 94 ∧
      g'.hasFix = true ∧ g'.dataValid = true :=
  ⟨by decide, rmc_example_decoded ratOps freshState zeroRecord (by decide)⟩

set_option maxRecDepth 100000 in
/-- C12: from any parser state, feeding
`$GPGGA,123519,4807.038,N,01131.000,E,1,08,0.9,545.4,M,46.9,M,,*47`
character by character and then CR returns false for every character of the
sentence and true on the CR, and the record then has quality 1, satellites 8,
`hasFix` and `dataValid` true, and the altitude `atof` gives for `545.4`. -/
theorem gga_example_decoded {F : Type} (ops : FloatOps F) (st : ParserState)
    (g : GPSData F) (hbuf : st.nmeaBuffer.length = NMEA_SENTENCE_MAX_LEN + 1) :
    ∃ st' g', feed ops (ggaSentence ++ [13]) st g
        = (List.replicate ggaSentence.length false ++ [true], st', g') ∧
      g'.quality = 1 ∧ g'.satellites = 8 ∧ g'.hasFix = true ∧ g'.dataValid = true ∧
      g'.altitude = ops.atof (bytes "545.4") := by
  obtain ⟨R, h⟩ := feed_sentence ops st g ggaSentence.tail hbuf ggaSentence_ordinary
    (by decide) (Or.inl rfl : (13 : Nat) = 13 ∨ (13 : Nat) = 10)
  exact ⟨_, _, h, rfl, rfl, rfl, rfl, rfl⟩

theorem gga_example_decoded_witness :
    freshState.nmeaBuffer.length = NMEA_SENTENCE_MAX_LEN + 1 ∧
    ∃ st' g', feed ratOps (ggaSentence ++ [13]) freshState zeroRecord
        = (List.replicate ggaSentence.length false ++ [true], st', g') ∧
      g'.quality = 1 ∧ g'.satellites = 8 ∧ g'.hasFix = true ∧ g'.dataValid = true ∧
      g'.altitude = ratOps.atof (bytes "545.4") :=
  ⟨by decide, gga_example_decoded ratOps freshState zeroRecord (by decide)⟩

/-! ## Shape of a successful decode -/

theorem parseGPRMC_true_inv {F : Type} (ops : FloatOps F) (sentence : Option (List Nat))
    (g : GPSData F) (h : (parseGPRMC ops sentence g).1 = true) :
    ∃ s tOff stOff dOff, sentence = some s ∧ strncmpEq s GPRMC 6 = true ∧
      nmeaVerifyChecksum (some s) = true ∧ nmeaGetField (some s) 1 = some tOff ∧
      nmeaGetField (some s) 2 = some stOff ∧ nmeaGetField (some s) 9 = some dOff := by
  cases sentence with
  | none => simp [parseGPRMC] at h
  | some s =>
    by_cases h1 : strncmpEq s GPRMC 6 = true
    · by_cases h2 : nmeaVerifyChecksum (some s) = true
      · cases ht : nmeaGetField (some s) 1 <;> cases hs : nmeaGetField (some s) 2 <;>
          cases hd : nmeaGetField (some s) 9 <;>
          simp [parseGPRMC, h1, h2, ht, hs, hd] at h
        exact ⟨s, _, _, _, rfl, h1, h2, ht, hs, hd⟩
      · simp [parseGPRMC, h1, h2] at h
    · simp [parseGPRMC, h1] at h

theorem parseGPRMC_shape {F : Type} (ops : FloatOps F) (s : List Nat) (g : GPSData F)
    (tOff stOff dOff : Nat)
    (hpre : strncmpEq s GPRMC 6 = true) (hv : nmeaVerifyChecksum (some s) = true)
    (ht : nmeaGetField (some s) 1 = some tOff) (hs : nmeaGetField (some s) 2 = some stOff)
    (hd : nmeaGetField (some s) 9 = some dOff) :
    ∃ lat lon sp co, parseGPRMC ops (some s) g = (true,
      { g with
        hours := (parseTimeFromNMEAString (some (copyField (s.drop tOff) 15))).1,
        minutes := (parseTimeFromNMEAString (some (copyField (s.drop tOff) 15))).2.1,
        seconds := (parseTimeFromNMEAString (some (copyField (s.drop tOff) 15))).2.2,
        days := (parseDateFromNMEAString (some (copyField (s.drop dOff) 6))).1,
        months := (parseDateFromNMEAString (some (copyField (s.drop dOff) 6))).2.1,
        years := (parseDateFromNMEAString (some (copyField (s.drop dOff) 6))).2.2,
        hasFix := (deref s stOff == 65 || deref s stOff == 97),
        latitude := lat, longitude := lon, speed := sp, course := co,
        dataValid := true }) := by
  simp only [parseGPRMC, hpre, hv, ht, hs, hd, Bool.not_true, Bool.false_eq_true, if_false]
  cases hb : (deref s stOff == 65 || deref s stOff == 97)
  · exact ⟨_, _, _, _, rfl⟩
  · cases nmeaGetField (some s) 3 <;> cases nmeaGetField (some s) 4 <;>
      cases nmeaGetField (some s) 5 <;> cases nmeaGetField (some s) 6 <;>
      cases nmeaGetField (some s) 7 <;> cases nmeaGetField (some s) 8 <;>
      exact ⟨_, _, _, _, rfl⟩

theorem parseGPGGA_true_inv {F : Type} (ops : FloatOps F) (sentence : Option (List Nat))
    (g : GPSData F) (h : (parseGPGGA ops sentence g).1 = true) :
    ∃ s qOff, sentence = some s ∧ strncmpEq s GPGGA 6 = true ∧
      nmeaVerifyChecksum (some s) = true ∧ nmeaGetField (some s) 6 = some qOff := by
  cases sentence with
  | none => simp [parseGPGGA] at h
  | some s =>
    by_cases h1 : strncmpEq s GPGGA 6 = true
    · by_cases h2 : nmeaVerifyChecksum (some s) = true
      · cases hq : nmeaGetField (some s) 6 <;> simp [parseGPGGA, h1, h2, hq] at h
        exact ⟨s, _, rfl, h1, h2, hq⟩
      · simp [parseGPGGA, h1, h2] at h
    · simp [parseGPGGA, h1] at h

theorem parseGPGGA_eq {F : Type} (ops : FloatOps F) (s : List Nat) (g : GPSData F)
    (qOff : Nat)
    (hpre : strncmpEq s GPGGA 6 = true) (hv : nmeaVerifyChecksum (some s) = true)
    (hq : nmeaGetField (some s) 6 = some qOff) :
    parseGPGGA ops (some s) g = (true,
      { (if 0 < (ggaSatellites s
              { g with quality := toUInt8 (atoi (copyField (s.drop qOff) 3)) }).quality then
            ggaFix ops s
              { ggaSatellites s
                  { g with quality := toUInt8 (atoi (copyField (s.drop qOff) 3)) } with
                hasFix := true }
          else
            { ggaSatellites s
                { g with quality := toUInt8 (atoi (copyField (s.drop qOff) 3)) } with
              hasFix := false }) with
        dataValid := true }) := by
  unfold parseGPGGA
  simp -zeta only [hpre, hv, hq, Bool.not_true, Bool.false_eq_true, if_false]
  rfl

theorem ggaSatellites_shape {F : Type} (s : List Nat) (g1 : GPSData F) :
    ∃ sats, ggaSatellites s g1 = { g1 with satellites := sats } := by
  unfold ggaSatellites
  cases nmeaGetField (some s) 7
  · exact ⟨g1.satellites, rfl⟩
  · exact ⟨_, rfl⟩

theorem ggaFix_shape {F : Type} (ops : FloatOps F) (s : List Nat) (g4 : GPSData F) :
    ∃ lat lon alt acc, ggaFix ops s g4
      = { g4 with latitude := lat, longitude := lon, altitude := alt, accuracy := acc } := by
  unfold ggaFix
  cases nmeaGetField (some s) 2 <;> cases nmeaGetField (some s) 3 <;>
    cases nmeaGetField (some s) 4 <;> cases nmeaGetField (some s) 5 <;>
    cases nmeaGetField (some s) 8 <;> cases nmeaGetField (some s) 9 <;>
    exact ⟨_, _, _, _, rfl⟩

theorem parseGPGGA_shape {F : Type} (ops : FloatOps F) (s : List Nat) (g : GPSData F)
    (qOff : Nat)
    (hpre : strncmpEq s GPGGA 6 = true) (hv : nmeaVerifyChecksum (some s) = true)
    (hq : nmeaGetField (some s) 6 = some qOff) :
    ∃ sats lat lon alt acc, parseGPGGA ops (some s) g = (true,
      { g with
        quality := toUInt8 (atoi (copyField (s.drop qOff) 3)),
        satellites := sats,
        hasFix := decide (0 < toUInt8 (atoi (copyField (s.drop qOff) 3))),
        latitude := lat, longitude := lon, altitude := alt, accuracy := acc,
        dataValid := true }) ∧
      (toUInt8 (atoi (copyField (s.drop qOff) 3)) = 0 →
        lat = g.latitude ∧ lon = g.longitude ∧ alt = g.altitude ∧ acc = g.accuracy) := by
  rw [parseGPGGA_eq ops s g qOff hpre hv hq]
  generalize toUInt8 (atoi (copyField (s.drop qOff) 3)) = q
  obtain ⟨sats, hsats⟩ := ggaSatellites_shape s { g with quality := q }
  rw [hsats]
  by_cases hpos : 0 < q
  · have hne : q ≠ 0 := by omega
    obtain ⟨lat, lon, alt, acc, hfix⟩ := ggaFix_shape ops s
      { ({ g with quality := q } : GPSData F) with satellites := sats, hasFix := true }
    refine ⟨sats, lat, lon, alt, acc, ?_, fun h0 => absurd h0 hne⟩
    simp only [hpos, if_true, decide_True]
    rw [hfix]
  · refine ⟨sats, g.latitude, g.longitude, g.altitude, g.accuracy, ?_,
      fun _ => ⟨rfl, rfl, rfl, rfl⟩⟩
    simp only [hpos, if_false, decide_False]

/-- C17: for every record and sentence, `parseGPRMC` leaves quality,
satellites, accuracy and altitude as they were, and `parseGPGGA` leaves
hours, minutes, seconds, days, months, years, speed and course as they were. -/
theorem decoders_keep_other_fields {F : Type} (ops : FloatOps F)
    (sentence : Option (List Nat)) (g : GPSData F) :
    ((parseGPRMC ops sentence g).2.quality = g.quality ∧
      (parseGPRMC ops sentence g).2.satellites = g.satellites ∧
      (parseGPRMC ops sentence g).2.accuracy = g.accuracy ∧
      (parseGPRMC ops sentence g).2.altitude = g.altitude) ∧
    ((parseGPGGA ops sentence g).2.hours = g.hours ∧
      (parseGPGGA ops sentence g).2.minutes = g.minutes ∧
      (parseGPGGA ops sentence g).2.seconds = g.seconds ∧
      (parseGPGGA ops sentence g).2.days = g.days ∧
      (parseGPGGA ops sentence g).2.months = g.months ∧
      (parseGPGGA ops sentence g).2.years = g.years ∧
      (parseGPGGA ops sentence g).2.speed = g.speed ∧
      (parseGPGGA ops sentence g).2.course = g.course) := by
  constructor
  · cases hr : (parseGPRMC ops sentence g).1 with
    | false =>
      rw [parseGPRMC_false ops sentence g hr]
      exact ⟨rfl, rfl, rfl, rfl⟩
    | true =>
      obtain ⟨s, tOff, stOff, dOff, rfl, hpre, hv, ht, hs, hd⟩ :=
        parseGPRMC_true_inv ops sentence g hr
      obtain ⟨lat, lon, sp, co, h⟩ := parseGPRMC_shape ops s g tOff stOff dOff hpre hv ht hs hd
      rw [h]
      exact ⟨rfl, rfl, rfl, rfl⟩
  · cases hr : (parseGPGGA ops sentence g).1 with
    | false =>
      rw [parseGPGGA_false ops sentence g hr]
      exact ⟨rfl, rfl, rfl, rfl, rfl, rfl, rfl, rfl⟩
    | true =>
      obtain ⟨s, qOff, rfl, hpre, hv, hq⟩ := parseGPGGA_true_inv ops sentence g hr
      obtain ⟨sats, lat, lon, alt, acc, h, -⟩ := parseGPGGA_shape ops s g qOff hpre hv hq
      rw [h]
      exact ⟨rfl, rfl, rfl, rfl, rfl, rfl, rfl, rfl⟩

/-! ## Copying a field out of the sentence -/

theorem strchr_append_skip {f : List Nat} (l : List Nat) {ch : Nat} (h : ch ∉ f) :
    strchr (f ++ l) ch = (strchr l ch).map (· + f.length) := by
  induction f with
  | nil => simp
  | cons c cs ih =>
    simp only [List.mem_cons, not_or] at h
    have hc : c ≠ ch := fun e => h.1 e.symm
    have hstep : strchr (c :: cs ++ l) ch = (strchr (cs ++ l) ch).map (· + 1) := by
      simp [strchr, hc]
    rw [hstep, ih h.2, Option.map_map]
    congr 1

theorem take_field {fi : List Nat} (rest : List Nat) {m cap : Nat}
    (hm : m = cap ∨ fi.length < m) (hle : m ≤ cap) :
    ∃ junk, (fi ++ 42 :: rest).take m = fi.take cap ++ junk ∧
      (junk = [] ∨ ∃ j, junk = 42 :: j) := by
  by_cases hlt : fi.length < m
  · refine ⟨42 :: rest.take (m - fi.length - 1), ?_, Or.inr ⟨_, rfl⟩⟩
    have hcap : fi.take cap = fi := List.take_of_length_le (by omega)
    obtain ⟨k, hk⟩ : ∃ k, m = fi.length + (k + 1) := ⟨m - fi.length - 1, by omega⟩
    rw [hcap, hk, List.take_append]
    simp
  · have hmc : m = cap := by
      rcases hm with h | h
      · exact h
      · exact absurd h hlt
    refine ⟨[], ?_, Or.inl rfl⟩
    rw [hmc, List.append_nil]
    exact List.take_append_of_le_length (by omega)

theorem copyField_field {fi : List Nat} (rest : List Nat) {d : Nat} (cap : Nat)
    (h44 : 44 ∉ fi) (hd : d = 44 ∨ d = 42) :
    ∃ junk, copyField (fi ++ d :: rest) cap = fi.take cap ++ junk ∧
      (junk = [] ∨ ∃ j, junk = 42 :: j) := by
  rcases hd with hd | hd
  · subst hd
    refine ⟨[], ?_, Or.inl rfl⟩
    simp only [copyField, strchr_append rest h44, strncpy, List.append_nil]
    by_cases hc : cap < fi.length
    · simp only [hc, if_true]
      exact List.take_append_of_le_length (by omega)
    · simp only [hc, if_false, List.take_left]
      exact (List.take_of_length_le (by omega)).symm
  · subst hd
    have hs : strchr (fi ++ 42 :: rest) 44 = (strchr rest 44).map (· + 1 + fi.length) := by
      rw [strchr_append_skip _ h44]
      simp [strchr, Option.map_map, Function.comp_def]
    simp only [copyField, hs, strncpy]
    cases strchr rest 44 with
    | none => exact take_field rest (Or.inl rfl) (Nat.le_refl _)
    | some e =>
      simp only [Option.map_some']
      by_cases hc : cap < e + 1 + fi.length
      · simp only [hc, if_true]
        exact take_field rest (Or.inl rfl) (Nat.le_refl _)
      · simp only [hc, if_false]
        exact take_field rest (Or.inr (by omega)) (by omega)

theorem two_digits : ∀ a, a < 10 → ∀ b, b < 10 → toUInt8 (atoi [48 + a, 48 + b]) = 10 * a + b := by
  decide

theorem copyField_six {fi : List Nat} (rest trest : List Nat) {d : Nat} (cap : Nat)
    (c0 c1 c2 c3 c4 c5 : Nat) (hfi : fi = [c0, c1, c2, c3, c4, c5] ++ trest)
    (h44 : 44 ∉ fi) (hd : d = 44 ∨ d = 42) (hcap : 6 ≤ cap) :
    ∃ more, copyField (fi ++ d :: rest) cap = c0 :: c1 :: c2 :: c3 :: c4 :: c5 :: more := by
  obtain ⟨junk, hj, -⟩ := copyField_field rest cap h44 hd
  obtain ⟨k, rfl⟩ : ∃ k, cap = k + 6 := ⟨cap - 6, by omega⟩
  refine ⟨trest.take k ++ junk, ?_⟩
  rw [hj, hfi]
  simp [List.take]

/-- C13: for every checksum-valid sentence `$f0,...,fn*tail` that begins with
`$GPRMC`, has non-empty status and date fields and a time field that starts
with six decimal digits `HHMMSS`, `parseGPRMC` returns true and stores
hours = HH if HH ≤ 23 else 0, minutes = MM if MM ≤ 59 else 0, seconds = SS if
SS ≤ 59 else 0. -/
theorem rmc_time_normalised {F : Type} (ops : FloatOps F) (g : GPSData F)
    (fields : List (List Nat)) (tail status date trest : List Nat)
    (h1 h0 m1 m0 s1 s0 : Nat)
    (hok : ∀ f ∈ fields, 44 ∉ f ∧ 42 ∉ f ∧ 0 ∉ f)
    (hbegin : GPRMC <+: sentenceOf fields tail)
    (hv : nmeaVerifyChecksum (some (sentenceOf fields tail)) = true)
    (ht : fields[1]? = some ([48 + h1, 48 + h0, 48 + m1, 48 + m0, 48 + s1, 48 + s0] ++ trest))
    (hs : fields[2]? = some status) (hd : fields[9]? = some date)
    (hne : status ≠ [] ∧ date ≠ [])
    (hdig : h1 < 10 ∧ h0 < 10 ∧ m1 < 10 ∧ m0 < 10 ∧ s1 < 10 ∧ s0 < 10) :
    ∃ g', parseGPRMC ops (some (sentenceOf fields tail)) g = (true, g') ∧
      g'.hours = (if 10 * h1 + h0 ≤ 23 then 10 * h1 + h0 else 0) ∧
      g'.minutes = (if 10 * m1 + m0 ≤ 59 then 10 * m1 + m0 else 0) ∧
      g'.seconds = (if 10 * s1 + s0 ≤ 59 then 10 * s1 + s0 else 0) := by
  obtain ⟨hg1, -⟩ := getField_nonempty fields tail 1 _ hok ht (by norm_num) (by simp)
  obtain ⟨hg2, -⟩ := getField_nonempty fields tail 2 status hok hs (by norm_num) hne.1
  obtain ⟨hg9, -⟩ := getField_nonempty fields tail 9 date hok hd (by norm_num) hne.2
  obtain ⟨lat, lon, sp, co, hshape⟩ := parseGPRMC_shape ops _ g _ _ _
    (strncmpEq_of_begins hbegin) hv hg1 hg2 hg9
  obtain ⟨d, rest, hdel, hdrop⟩ := drop_fieldOffset fields tail 1 _ ht
  have h44 : (44 : Nat) ∉ [48 + h1, 48 + h0, 48 + m1, 48 + m0, 48 + s1, 48 + s0] ++ trest :=
    (hok _ (List.getElem?_mem ht)).1
  obtain ⟨more, hcopy⟩ := copyField_six rest trest 15 _ _ _ _ _ _ rfl h44 hdel (by norm_num)
  obtain ⟨a1, a0, b1, b0, c1, c0⟩ := hdig
  refine ⟨_, hshape, ?_, ?_, ?_⟩
  · simp only [hdrop, hcopy, parseTimeFromNMEAString, two_digits h1 a1 h0 a0]
    split_ifs <;> omega
  · simp only [hdrop, hcopy, parseTimeFromNMEAString, two_digits m1 b1 m0 b0]
    split_ifs <;> omega
  · simp only [hdrop, hcopy, parseTimeFromNMEAString, two_digits s1 c1 s0 c0]
    split_ifs <;> omega

set_option maxRecDepth 100000 in
theorem rmc_time_normalised_witness :
    (∀ f ∈ rmcOutOfRangeFields, 44 ∉ f ∧ 42 ∉ f ∧ 0 ∉ f) ∧
    GPRMC <+: sentenceOf rmcOutOfRangeFields
      (checksumDigits true true (joinFields rmcOutOfRangeFields)) ∧
    nmeaVerifyChecksum (some (sentenceOf rmcOutOfRangeFields
      (checksumDigits true true (joinFields rmcOutOfRangeFields)))) = true ∧
    rmcOutOfRangeFields[1]?
      = some ([48 + 2, 48 + 4, 48 + 6, 48 + 0, 48 + 6, 48 + 0] ++ []) ∧
    rmcOutOfRangeFields[2]? = some (bytes "A") ∧
    rmcOutOfRangeFields[9]? = some (bytes "321399") ∧
    (bytes "A" ≠ [] ∧ bytes "321399" ≠ []) ∧
    ((2 : Nat) < 10 ∧ (4 : Nat) < 10 ∧ (6 : Nat) < 10 ∧ (0 : Nat) < 10 ∧ (6 : Nat) < 10 ∧
      (0 : Nat) < 10) ∧
    ∃ g', parseGPRMC ratOps (some (sentenceOf rmcOutOfRangeFields
        (checksumDigits true true (joinFields rmcOutOfRangeFields)))) zeroRecord = (true, g') ∧
      g'.hours = (if 10 * 2 + 4 ≤ 23 then 10 * 2 + 4 else 0) ∧
      g'.minutes = (if 10 * 6 + 0 ≤ 59 then 10 * 6 + 0 else 0) ∧
      g'.seconds = (if 10 * 6 + 0 ≤ 59 then 10 * 6 + 0 else 0) :=
  ⟨by decide, by decide, by decide, by decide, by decide, by decide, by decide, by decide,
    rmc_time_normalised ratOps zeroRecord rmcOutOfRangeFields
      (checksumDigits true true (joinFields rmcOutOfRangeFields)) (bytes "A")
      (bytes "321399") [] 2 4 6 0 6 0 (by decide) (by decide) (by decide) (by decide)
      (by decide) (by decide) (by decide) (by decide)⟩

/-- C14: for every checksum-valid sentence `$f0,...,fn*tail` that begins with
`$GPRMC`, has non-empty time and status fields and a date field that starts
with six decimal digits `DDMMYY`, `parseGPRMC` returns true and stores
days = DD if 1 ≤ DD ≤ 31 else 1, months = MM if 1 ≤ MM ≤ 12 else 1, and
years = YY. -/
theorem rmc_date_normalised {F : Type} (ops : FloatOps F) (g : GPSData F)
    (fields : List (List Nat)) (tail time status drest : List Nat)
    (d1 d0 m1 m0 y1 y0 : Nat)
    (hok : ∀ f ∈ fields, 44 ∉ f ∧ 42 ∉ f ∧ 0 ∉ f)
    (hbegin : GPRMC <+: sentenceOf fields tail)
    (hv : nmeaVerifyChecksum (some (sentenceOf fields tail)) = true)
    (ht : fields[1]? = some time) (hs : fields[2]? = some status)
    (hd : fields[9]? = some ([48 + d1, 48 + d0, 48 + m1, 48 + m0, 48 + y1, 48 + y0] ++ drest))
    (hne : time ≠ [] ∧ status ≠ [])
    (hdig : d1 < 10 ∧ d0 < 10 ∧ m1 < 10 ∧ m0 < 10 ∧ y1 < 10 ∧ y0 < 10) :
    ∃ g', parseGPRMC ops (some (sentenceOf fields tail)) g = (true, g') ∧
      g'.days = (if 1 ≤ 10 * d1 + d0 ∧ 10 * d1 + d0 ≤ 31 then 10 * d1 + d0 else 1) ∧
      g'.months = (if 1 ≤ 10 * m1 + m0 ∧ 10 * m1 + m0 ≤ 12 then 10 * m1 + m0 else 1) ∧
      g'.years = 10 * y1 + y0 := by
  obtain ⟨hg1, -⟩ := getField_nonempty fields tail 1 time hok ht (by norm_num) hne.1
  obtain ⟨hg2, -⟩ := getField_nonempty fields tail 2 status hok hs (by norm_num) hne.2
  obtain ⟨hg9, -⟩ := getField_nonempty fields tail 9 _ hok hd (by norm_num) (by simp)
  obtain ⟨lat, lon, sp, co, hshape⟩ := parseGPRMC_shape ops _ g _ _ _
    (strncmpEq_of_begins hbegin) hv hg1 hg2 hg9
  obtain ⟨d, rest, hdel, hdrop⟩ := drop_fieldOffset fields tail 9 _ hd
  have h44 : (44 : Nat) ∉ [48 + d1, 48 + d0, 48 + m1, 48 + m0, 48 + y1, 48 + y0] ++ drest :=
    (hok _ (List.getElem?_mem hd)).1
  obtain ⟨more, hcopy⟩ := copyField_six rest drest 6 _ _ _ _ _ _ rfl h44 hdel (by norm_num)
  obtain ⟨a1, a0, b1, b0, c1, c0⟩ := hdig
  refine ⟨_, hshape, ?_, ?_, ?_⟩
  · simp only [hdrop, hcopy, parseDateFromNMEAString, two_digits d1 a1 d0 a0]
    split_ifs <;> omega
  · simp only [hdrop, hcopy, parseDateFromNMEAString, two_digits m1 b1 m0 b0]
    split_ifs <;> omega
  · simp only [hdrop, hcopy, parseDateFromNMEAString, two_digits y1 c1 y0 c0]
    split_ifs <;> omega

set_option maxRecDepth 100000 in
theorem rmc_date_normalised_witness :
    (∀ f ∈ rmcOutOfRangeFields, 44 ∉ f ∧ 42 ∉ f ∧ 0 ∉ f) ∧
    GPRMC <+: sentenceOf rmcOutOfRangeFields
      (checksumDigits true true (joinFields rmcOutOfRangeFields)) ∧
    nmeaVerifyChecksum (some (sentenceOf rmcOutOfRangeFields
      (checksumDigits true true (joinFields rmcOutOfRangeFields)))) = true ∧
    rmcOutOfRangeFields[1]? = some (bytes "246060") ∧
    rmcOutOfRangeFields[2]? = some (bytes "A") ∧
    rmcOutOfRangeFields[9]?
      = some ([48 + 3, 48 + 2, 48 + 1, 48 + 3, 48 + 9, 48 + 9] ++ []) ∧
    (bytes "246060" ≠ [] ∧ bytes "A" ≠ []) ∧
    ((3 : Nat) < 10 ∧ (2 : Nat) < 10 ∧ (1 : Nat) < 10 ∧ (3 : Nat) < 10 ∧ (9 : Nat) < 10 ∧
      (9 : Nat) < 10) ∧
    ∃ g', parseGPRMC ratOps (some (sentenceOf rmcOutOfRangeFields
        (checksumDigits true true (joinFields rmcOutOfRangeFields)))) zeroRecord = (true, g') ∧
      g'.days = (if 1 ≤ 10 * 3 + 2 ∧ 10 * 3 + 2 ≤ 31 then 10 * 3 + 2 else 1) ∧
      g'.months = (if 1 ≤ 10 * 1 + 3 ∧ 10 * 1 + 3 ≤ 12 then 10 * 1 + 3 else 1) ∧
      g'.years = 10 * 9 + 9 :=
  ⟨by decide, by decide, by decide, by decide, by decide, by decide, by decide, by decide,
    rmc_date_normalised ratOps zeroRecord rmcOutOfRangeFields
      (checksumDigits true true (joinFields rmcOutOfRangeFields)) (bytes "246060")
      (bytes "A") [] 3 2 1 3 9 9 (by decide) (by decide) (by decide) (by decide)
      (by decide) (by decide) (by decide) (by decide)⟩

/-! ## Decimal fields -/

theorem decDigits_digits {l : List Nat} (junk : List Nat) (acc : Nat)
    (hl : ∀ c ∈ l, 48 ≤ c ∧ c ≤ 57) (hj : junk = [] ∨ ∃ j, junk = 42 :: j) :
    decDigits acc (l ++ junk) = l.foldl (fun acc c => acc * 10 + (c - 48)) acc := by
  induction l generalizing acc with
  | nil =>
    rcases hj with hj | ⟨j, hj⟩
    · simp [hj, decDigits]
    · simp [hj, decDigits, decDigitVal]
  | cons c cs ih =>
    have hc := hl c (by simp)
    have hv : decDigitVal c = some (c - 48) := by simp [decDigitVal, hc.1, hc.2]
    have hstep : decDigits acc (c :: cs ++ junk) = decDigits (acc * 10 + (c - 48)) (cs ++ junk) := by
      simp [decDigits, hv]
    rw [hstep, ih _ (fun x hx => hl x (by simp [hx]))]
    rfl

theorem atoi_of_nonsign {c : Nat} (r : List Nat) (hsp : isspace c = false) (h45 : c ≠ 45)
    (h43 : c ≠ 43) : atoi (c :: r) = (decDigits 0 (c :: r) : Int) := by
  unfold atoi
  rw [List.dropWhile_cons_of_neg (by simp [hsp])]
  split
  · rename_i heq
    simp only [List.cons.injEq] at heq
    exact absurd heq.1 h45
  · rename_i heq
    simp only [List.cons.injEq] at heq
    exact absurd heq.1 h43
  · rfl

theorem atoi_digits {l : List Nat} (junk : List Nat) (hne : l ≠ [])
    (hl : ∀ c ∈ l, 48 ≤ c ∧ c ≤ 57) (hj : junk = [] ∨ ∃ j, junk = 42 :: j) :
    atoi (l ++ junk) = (decValue l : Int) := by
  cases l with
  | nil => exact absurd rfl hne
  | cons c cs =>
    have hc := hl c (by simp)
    have hsp : isspace c = false := by
      cases h : isspace c with
      | false => rfl
      | true =>
        simp only [isspace, Bool.or_eq_true, beq_iff_eq, Bool.and_eq_true,
          decide_eq_true_eq] at h
        omega
    rw [List.cons_append, atoi_of_nonsign _ hsp (by omega) (by omega), ← List.cons_append,
      decDigits_digits junk 0 hl hj]
    rfl

theorem toUInt8_natCast (n : Nat) : toUInt8 (n : Int) = n % 256 := by
  unfold toUInt8
  omega

set_option maxRecDepth 100000 in
/-- C15 (as stated, refuted): a checksum-valid `$GPGGA` sentence whose quality
field is the digit string `256` (integer value 256, greater than 0) is
decoded with quality 0 and `hasFix` false. -/
theorem gga_quality_256_stored_as_zero :
    GPGGA <+: sentenceOf ggaQuality256Fields
      (checksumDigits true true (joinFields ggaQuality256Fields)) ∧
    nmeaVerifyChecksum (some (sentenceOf ggaQuality256Fields
      (checksumDigits true true (joinFields ggaQuality256Fields)))) = true ∧
    ggaQuality256Fields[6]? = some (bytes "256") ∧ decValue (bytes "256") = 256 ∧
    (parseGPGGA ratOps (some (sentenceOf ggaQuality256Fields
      (checksumDigits true true (joinFields ggaQuality256Fields)))) zeroRecord).1 = true ∧
    (parseGPGGA ratOps (some (sentenceOf ggaQuality256Fields
      (checksumDigits true true (joinFields ggaQuality256Fields)))) zeroRecord).2.quality = 0 ∧
    (parseGPGGA ratOps (some (sentenceOf ggaQuality256Fields
      (checksumDigits true true (joinFields ggaQuality256Fields)))) zeroRecord).2.hasFix
      = false := by
  decide

/-- C15 (amended): for every checksum-valid sentence `$f0,...,fn*tail` that
begins with `$GPGGA` and whose quality field (field 6) is a non-empty string
of decimal digits, `parseGPGGA` returns true, stores as quality the integer
value of the first three digits of the field reduced modulo 256 (the integer
value of the field itself when it has at most three digits and is at most
255), sets `hasFix` to true exactly when the stored quality is greater than 0,
and sets `dataValid` to true. -/
theorem gga_quality_decoded {F : Type} (ops : FloatOps F) (g : GPSData F)
    (fields : List (List Nat)) (tail q : List Nat)
    (hok : ∀ f ∈ fields, 44 ∉ f ∧ 42 ∉ f ∧ 0 ∉ f)
    (hbegin : GPGGA <+: sentenceOf fields tail)
    (hv : nmeaVerifyChecksum (some (sentenceOf fields tail)) = true)
    (hq : fields[6]? = some q) (hne : q ≠ [])
    (hdig : ∀ c ∈ q, 48 ≤ c ∧ c ≤ 57) :
    ∃ g', parseGPGGA ops (some (sentenceOf fields tail)) g = (true, g') ∧
      g'.quality = decValue (q.take 3) % 256 ∧
      (q.length ≤ 3 → decValue q ≤ 255 → g'.quality = decValue q) ∧
      g'.hasFix = decide (0 < g'.quality) ∧ g'.dataValid = true := by
  obtain ⟨hg6, -⟩ := getField_nonempty fields tail 6 q hok hq (by norm_num) hne
  obtain ⟨sats, lat, lon, alt, acc, hshape, -⟩ := parseGPGGA_shape ops _ g _
    (strncmpEq_of_begins hbegin) hv hg6
  obtain ⟨d, rest, hdel, hdrop⟩ := drop_fieldOffset fields tail 6 q hq
  obtain ⟨junk, hcopy, hjunk⟩ := copyField_field rest 3 (hok q (List.getElem?_mem hq)).1 hdel
  have htake : q.take 3 ≠ [] := by
    cases q with
    | nil => exact absurd rfl hne
    | cons c cs => simp
  have hval : toUInt8 (atoi (copyField ((sentenceOf fields tail).drop (fieldOffset fields 6)) 3))
      = decValue (q.take 3) % 256 := by
    rw [hdrop, hcopy, atoi_digits junk htake (fun c hc => hdig c (List.mem_of_mem_take hc)) hjunk,
      toUInt8_natCast]
  refine ⟨_, hshape, hval, ?_, ?_, rfl⟩
  · intro hlen hle
    show toUInt8 _ = _
    rw [hval, List.take_of_length_le hlen]
    exact Nat.mod_eq_of_lt (by omega)
  · rfl

set_option maxRecDepth 100000 in
theorem gga_quality_decoded_witness :
    (∀ f ∈ ggaFields, 44 ∉ f ∧ 42 ∉ f ∧ 0 ∉ f) ∧
    GPGGA <+: sentenceOf ggaFields (bytes "47") ∧
    nmeaVerifyChecksum (some (sentenceOf ggaFields (bytes "47"))) = true ∧
    ggaFields[6]? = some (bytes "1") ∧ bytes "1" ≠ [] ∧
    (∀ c ∈ bytes "1", 48 ≤ c ∧ c ≤ 57) ∧
    ∃ g', parseGPGGA ratOps (some (sentenceOf ggaFields (bytes "47"))) zeroRecord
        = (true, g') ∧
      g'.quality = decValue ((bytes "1").take 3) % 256 ∧
      ((bytes "1").length ≤ 3 → decValue (bytes "1") ≤ 255 →
        g'.quality = decValue (bytes "1")) ∧
      g'.hasFix = decide (0 < g'.quality) ∧ g'.dataValid = true :=
  ⟨by decide, by decide, by decide, by decide, by decide, by decide,
    gga_quality_decoded ratOps zeroRecord ggaFields (bytes "47") (bytes "1")
      (by decide) (by decide) (by decide) (by decide) (by decide) (by decide)⟩

/-- C16: for every record and every checksum-valid sentence `$f0,...,fn*tail`
that begins with `$GPGGA` and has a non-empty quality field (field 6) which
the decoder reads as 0, `parseGPGGA` returns true, sets `hasFix` to false and
leaves latitude, longitude, altitude and accuracy as they were. -/
theorem gga_no_fix_keeps_position {F : Type} (ops : FloatOps F) (g : GPSData F)
    (fields : List (List Nat)) (tail q : List Nat)
    (hok : ∀ f ∈ fields, 44 ∉ f ∧ 42 ∉ f ∧ 0 ∉ f)
    (hbegin : GPGGA <+: sentenceOf fields tail)
    (hv : nmeaVerifyChecksum (some (sentenceOf fields tail)) = true)
    (hq : fields[6]? = some q) (hne : q ≠ [])
    (hzero : (parseGPGGA ops (some (sentenceOf fields tail)) g).2.quality = 0) :
    ∃ g', parseGPGGA ops (some (sentenceOf fields tail)) g = (true, g') ∧
      g'.hasFix = false ∧ g'.latitude = g.latitude ∧ g'.longitude = g.longitude ∧
      g'.altitude = g.altitude ∧ g'.accuracy = g.accuracy := by
  obtain ⟨hg6, -⟩ := getField_nonempty fields tail 6 q hok hq (by norm_num) hne
  obtain ⟨sats, lat, lon, alt, acc, hshape, hkeep⟩ := parseGPGGA_shape ops _ g _
    (strncmpEq_of_begins hbegin) hv hg6
  rw [hshape] at hzero
  have hz : toUInt8 (atoi (copyField ((sentenceOf fields tail).drop (fieldOffset fields 6)) 3))
      = 0 := hzero
  obtain ⟨h1, h2, h3, h4⟩ := hkeep hz
  refine ⟨_, hshape, ?_, h1, h2, h3, h4⟩
  show decide (0 < toUInt8 _) = false
  rw [hz]
  rfl

set_option maxRecDepth 100000 in
theorem gga_no_fix_keeps_position_witness :
    (∀ f ∈ ggaNoFixFields, 44 ∉ f ∧ 42 ∉ f ∧ 0 ∉ f) ∧
    GPGGA <+: sentenceOf ggaNoFixFields
      (checksumDigits true true (joinFields ggaNoFixFields)) ∧
    nmeaVerifyChecksum (some (sentenceOf ggaNoFixFields
      (checksumDigits true true (joinFields ggaNoFixFields)))) = true ∧
    ggaNoFixFields[6]? = some (bytes "0") ∧ bytes "0" ≠ [] ∧
    (parseGPGGA ratOps (some (sentenceOf ggaNoFixFields
      (checksumDigits true true (joinFields ggaNoFixFields)))) zeroRecord).2.quality = 0 ∧
    ∃ g', parseGPGGA ratOps (some (sentenceOf ggaNoFixFields
        (checksumDigits true true (joinFields ggaNoFixFields)))) zeroRecord = (true, g') ∧
      g'.hasFix = false ∧ g'.latitude = zeroRecord.latitude ∧
      g'.longitude = zeroRecord.longitude ∧ g'.altitude = zeroRecord.altitude ∧
      g'.accuracy = zeroRecord.accuracy :=
  ⟨by decide, by decide, by decide, by decide, by decide, by decide,
    gga_no_fix_keeps_position ratOps zeroRecord ggaNoFixFields
      (checksumDigits true true (joinFields ggaNoFixFields)) (bytes "0")
      (by decide) (by decide) (by decide) (by decide) (by decide) (by decide)⟩

/-! ## Talker identifiers and the cursor bound -/

theorem decodeSentence_gn {F : Type} (ops : FloatOps F) (S : List Nat) (g : GPSData F)
    (h : GNRMC <+: S ∨ GNGGA <+: S) : decodeSentence ops S g = (false, g) := by
  rcases h with ⟨r, rfl⟩ | ⟨r, rfl⟩
  · simp [decodeSentence, strncmpEq, GNRMC, GPRMC, GPGGA]
  · simp [decodeSentence, strncmpEq, GNGGA, GPRMC, GPGGA]

set_option maxRecDepth 100000 in
/-- C18 (the code at the failing input):
`$GNRMC,123519,A,4807.038,N,01131.000,E,022.4,084.4,230394,003.1,W*74` and
`$GNGGA,123519,4807.038,N,01131.000,E,1,08,0.9,545.4,M,46.9,M,,*59` are
checksum-valid, have non-empty time, status and date fields (the first) and a
non-empty quality field (the second) and at most 82 characters; yet, whatever
the record, feeding either one followed by CR to the verbose parser in its
initial state returns false on the CR as well and leaves the record as it
was. The compact parser of the repository returns true on the CR for both. -/
theorem gnrmc_not_recognised {F : Type} (ops : FloatOps F) (g : GPSData F) :
    gnrmcSentence
      = bytes "$GNRMC,123519,A,4807.038,N,01131.000,E,022.4,084.4,230394,003.1,W*74" ∧
    gnggaSentence
      = bytes "$GNGGA,123519,4807.038,N,01131.000,E,1,08,0.9,545.4,M,46.9,M,,*59" ∧
    nmeaVerifyChecksum (some gnrmcSentence) = true ∧
    nmeaVerifyChecksum (some gnggaSentence) = true ∧
    gnrmcSentence.length ≤ NMEA_SENTENCE_MAX_LEN ∧
    gnggaSentence.length ≤ NMEA_SENTENCE_MAX_LEN ∧
    (feed ops (gnrmcSentence ++ [13]) freshState g).1
      = List.replicate gnrmcSentence.length false ++ [false] ∧
    (feed ops (gnrmcSentence ++ [13]) freshState g).2.2 = g ∧
    (feed ops (gnggaSentence ++ [13]) freshState g).1
      = List.replicate gnggaSentence.length false ++ [false] ∧
    (feed ops (gnggaSentence ++ [13]) freshState g).2.2 = g ∧
    (Compact.feed Compact.ratOps (gnrmcSentence ++ [13]) Compact.freshState zeroRecord).1
      = List.replicate gnrmcSentence.length false ++ [true] ∧
    (Compact.feed Compact.ratOps (gnggaSentence ++ [13]) Compact.freshState zeroRecord).1
      = List.replicate gnggaSentence.length false ++ [true] := by
  obtain ⟨R1, h1⟩ := feed_sentence ops freshState g gnrmcSentence.tail (by decide) (by decide)
    (by decide) (Or.inl rfl : (13 : Nat) = 13 ∨ (13 : Nat) = 10)
  obtain ⟨R2, h2⟩ := feed_sentence ops freshState g gnggaSentence.tail (by decide) (by decide)
    (by decide) (Or.inl rfl : (13 : Nat) = 13 ∨ (13 : Nat) = 10)
  have h1' : feed ops (gnrmcSentence ++ [13]) freshState g = _ := h1
  have h2' : feed ops (gnggaSentence ++ [13]) freshState g = _ := h2
  rw [decodeSentence_gn ops _ g (Or.inl (by decide))] at h1'
  rw [decodeSentence_gn ops _ g (Or.inr (by decide))] at h2'
  rw [h1', h2']
  exact ⟨by decide, by decide, by decide, by decide, by decide, by decide, rfl, rfl, rfl, rfl,
    by decide, by decide⟩

/-- C20: start from `nmeaParserInit` and feed any characters; afterwards the
cursor is at most 82 and lies inside the 83-character buffer, so the writes
at the cursor (a stored character or the terminating NUL) stay in bounds;
and when the cursor is 82, a character other than `$`, CR and LF makes the
call return false and resets the cursor to 0. -/
theorem cursor_within_capacity {F : Type} (ops : FloatOps F) (st0 : ParserState)
    (g0 : GPSData F) (fed : List Nat)
    (hbuf : st0.nmeaBuffer.length = NMEA_SENTENCE_MAX_LEN + 1) :
    (feed ops fed (nmeaParserInit st0) g0).2.1.nmeaBufferIndex ≤ NMEA_SENTENCE_MAX_LEN ∧
    (feed ops fed (nmeaParserInit st0) g0).2.1.nmeaBuffer.length
      = NMEA_SENTENCE_MAX_LEN + 1 ∧
    (feed ops fed (nmeaParserInit st0) g0).2.1.nmeaBufferIndex
      < (feed ops fed (nmeaParserInit st0) g0).2.1.nmeaBuffer.length ∧
    ∀ (c : Nat) (g : GPSData F), c ≠ 36 → c ≠ 13 → c ≠ 10 →
      (feed ops fed (nmeaParserInit st0) g0).2.1.nmeaBufferIndex = NMEA_SENTENCE_MAX_LEN →
      (nmeaParserProcessChar ops c (feed ops fed (nmeaParserInit st0) g0).2.1 g).1 = false ∧
      (nmeaParserProcessChar ops c (feed ops fed (nmeaParserInit st0) g0).2.1 g).2.1.nmeaBufferIndex
        = 0 := by
  have hinv := framingInv_feed ops fed [] (nmeaParserInit st0) g0 (framingInv_init st0 hbuf)
  obtain ⟨hlen, hidx, -⟩ := hinv
  refine ⟨hidx, hlen, by omega, ?_⟩
  intro c g h36 h13 h10 h82
  have hnot : ¬ (c = 13 ∨ c = 10) := by
    intro h
    rcases h with h | h
    · exact h13 h
    · exact h10 h
  simp [nmeaParserProcessChar, h36, hnot, h82]

set_option maxRecDepth 100000 in
theorem cursor_within_capacity_witness :
    freshState.nmeaBuffer.length = NMEA_SENTENCE_MAX_LEN + 1 ∧
    ((feed ratOps (36 :: List.replicate 81 65) (nmeaParserInit freshState)
        zeroRecord).2.1.nmeaBufferIndex ≤ NMEA_SENTENCE_MAX_LEN ∧
    (feed ratOps (36 :: List.replicate 81 65) (nmeaParserInit freshState)
        zeroRecord).2.1.nmeaBuffer.length = NMEA_SENTENCE_MAX_LEN + 1 ∧
    (feed ratOps (36 :: List.replicate 81 65) (nmeaParserInit freshState)
        zeroRecord).2.1.nmeaBufferIndex
      < (feed ratOps (36 :: List.replicate 81 65) (nmeaParserInit freshState)
        zeroRecord).2.1.nmeaBuffer.length ∧
    ∀ (c : Nat) (g : GPSData ℚ), c ≠ 36 → c ≠ 13 → c ≠ 10 →
      (feed ratOps (36 :: List.replicate 81 65) (nmeaParserInit freshState)
        zeroRecord).2.1.nmeaBufferIndex = NMEA_SENTENCE_MAX_LEN →
      (nmeaParserProcessChar ratOps c (feed ratOps (36 :: List.replicate 81 65)
        (nmeaParserInit freshState) zeroRecord).2.1 g).1 = false ∧
      (nmeaParserProcessChar ratOps c (feed ratOps (36 :: List.replicate 81 65)
        (nmeaParserInit freshState) zeroRecord).2.1 g).2.1.nmeaBufferIndex = 0) :=
  ⟨by decide, cursor_within_capacity ratOps freshState zeroRecord
    (36 :: List.replicate 81 65) (by decide)⟩

/-! ## The compact parser -/

theorem compact_parseTime_flags {F : Type} (field : Option (List Nat)) (d : GPSData F) :
    (Compact.parseTime field d).dataValid = d.dataValid := by
  unfold Compact.parseTime
  split <;> rfl

theorem compact_parseDate_flags {F : Type} (field : Option (List Nat)) (d : GPSData F) :
    (Compact.parseDate field d).dataValid = d.dataValid := by
  unfold Compact.parseDate
  split <;> rfl

theorem compact_parseGPRMC_false {F : Type} (ops : Compact.FloatOps F) (S : List Nat)
    (g : GPSData F) (h : (Compact.parseGPRMC ops S g).1 = false) :
    (Compact.parseGPRMC ops S g).2 = g := by
  unfold Compact.parseGPRMC at h ⊢
  by_cases hc : (Compact.splitFields S).length < 9
  · simp only [hc, if_true]
  · simp only [hc, if_false] at h
    exact absurd h (by simp)

theorem compact_parseGPRMC_status {F : Type} (ops : Compact.FloatOps F) (S : List Nat)
    (g : GPSData F) (h : (Compact.parseGPRMC ops S g).1 = true) :
    (Compact.parseGPRMC ops S g).2.dataValid
        = (((Compact.splitFields S).getD 2 []).headD 0 == 65) ∧
      (Compact.parseGPRMC ops S g).2.hasFix
        = (((Compact.splitFields S).getD 2 []).headD 0 == 65) := by
  unfold Compact.parseGPRMC at h ⊢
  by_cases hc : (Compact.splitFields S).length < 9
  · simp [hc] at h
  · simp only [hc, if_false]
    split_ifs <;> first
      | exact ⟨rfl, rfl⟩
      | simp [compact_parseDate_flags]

theorem compact_feed_append {F : Type} (ops : Compact.FloatOps F) (a b : List Nat)
    (st : Compact.ParserState) (g : GPSData F) :
    Compact.feed ops (a ++ b) st g
      = ((Compact.feed ops a st g).1
          ++ (Compact.feed ops b (Compact.feed ops a st g).2.1 (Compact.feed ops a st g).2.2).1,
         (Compact.feed ops b (Compact.feed ops a st g).2.1 (Compact.feed ops a st g).2.2).2) := by
  induction a generalizing st g with
  | nil => simp [Compact.feed]
  | cons c cs ih => simp [Compact.feed, ih]

theorem compact_processChar_ordinary {F : Type} (ops : Compact.FloatOps F) {c : Nat}
    (buf : List Nat) (idx : Nat) (g : GPSData F) (h36 : c ≠ 36) (h13 : c ≠ 13) (h10 : c ≠ 10)
    (hidx : idx < 99) :
    Compact.nmeaParserProcessChar ops c
        { nmeaBuffer := buf, nmeaIndex := idx, inSentence := true } g
      = (false, { nmeaBuffer := buf.set idx c, nmeaIndex := idx + 1, inSentence := true }, g) := by
  have hmod : (idx + 1) % 256 = idx + 1 := Nat.mod_eq_of_lt (by omega)
  simp [Compact.nmeaParserProcessChar, Compact.BUFFER_SIZE, h36, h13, h10, hidx, hmod]

theorem compact_feed_ordinary {F : Type} (ops : Compact.FloatOps F) (g : GPSData F) :
    ∀ (cs P R : List Nat), (∀ c ∈ cs, c ≠ 36 ∧ c ≠ 13 ∧ c ≠ 10) →
      P.length + cs.length ≤ 99 → cs.length ≤ R.length →
      Compact.feed ops cs { nmeaBuffer := P ++ R, nmeaIndex := P.length, inSentence := true } g
        = (List.replicate cs.length false,
           { nmeaBuffer := P ++ cs ++ R.drop cs.length, nmeaIndex := P.length + cs.length,
             inSentence := true }, g) := by
  intro cs
  induction cs with
  | nil => intro P R _ _ _; simp [Compact.feed]
  | cons c cs ih =>
    intro P R hord hcap hroom
    have hc := hord c (by simp)
    cases R with
    | nil => simp at hroom
    | cons r R' =>
      simp only [List.length_cons] at hcap hroom
      have hstep := compact_processChar_ordinary ops (P ++ r :: R') P.length g
        hc.1 hc.2.1 hc.2.2 (by omega)
      have hset : (P ++ r :: R').set P.length c = (P ++ [c]) ++ R' := by
        rw [List.set_append_right _ _ (Nat.le_refl _)]
        simp
      simp only [hset] at hstep
      have hidx : P.length + 1 = (P ++ [c]).length := by simp
      have hrec := ih (P ++ [c]) R' (fun x hx => hord x (by simp [hx]))
        (by rw [← hidx]; omega) (by omega)
      rw [← hidx] at hrec
      simp only [Compact.feed, hstep, hrec]
      simp [List.replicate_succ, Nat.add_assoc, Nat.add_comm 1]

theorem compact_processChar_terminator {F : Type} (ops : Compact.FloatOps F) (S R : List Nat)
    (r : Nat) (g : GPSData F) {term : Nat} (hterm : term = 13 ∨ term = 10) (hS0 : 0 ∉ S)
    (hlen : 0 < S.length) :
    Compact.nmeaParserProcessChar ops term
        { nmeaBuffer := S ++ r :: R, nmeaIndex := S.length, inSentence := true } g
      = ((if Compact.verifyChecksum S then Compact.dispatch ops S g else (false, g)).1,
         { nmeaBuffer := S ++ 0 :: R, nmeaIndex := 0, inSentence := false },
         (if Compact.verifyChecksum S then Compact.dispatch ops S g else (false, g)).2) := by
  have h36 : term ≠ 36 := by rcases hterm with h | h <;> omega
  have hset : (S ++ r :: R).set S.length 0 = S ++ 0 :: R := by
    rw [List.set_append_right _ _ (Nat.le_refl _)]
    simp
  have hcs : cstr (S ++ 0 :: R) = S := cstr_append_zero R hS0
  by_cases hv : Compact.verifyChecksum S = true
  · simp [Compact.nmeaParserProcessChar, h36, hterm, hlen, hset, hcs, hv]
  · simp [Compact.nmeaParserProcessChar, h36, hterm, hlen, hset, hcs, hv]

theorem compact_feed_sentence {F : Type} (ops : Compact.FloatOps F)
    (st : Compact.ParserState) (g : GPSData F) (rest : List Nat) {term : Nat}
    (hbuf : st.nmeaBuffer.length = Compact.BUFFER_SIZE)
    (hrest : ∀ c ∈ rest, c ≠ 0 ∧ c ≠ 36 ∧ c ≠ 13 ∧ c ≠ 10)
    (hlen : rest.length + 1 ≤ 99)
    (hterm : term = 13 ∨ term = 10) :
    ∃ st', Compact.feed ops (36 :: rest ++ [term]) st g
      = (List.replicate (rest.length + 1) false
          ++ [(if Compact.verifyChecksum (36 :: rest) then Compact.dispatch ops (36 :: rest) g
                else (false, g)).1],
         st',
         (if Compact.verifyChecksum (36 :: rest) then Compact.dispatch ops (36 :: rest) g
           else (false, g)).2) := by
  simp only [Compact.BUFFER_SIZE] at hbuf
  have hS0 : (0 : Nat) ∉ 36 :: rest := by
    intro h
    simp only [List.mem_cons] at h
    rcases h with h | h
    · omega
    · exact (hrest 0 h).1 rfl
  obtain ⟨b0, R0, hb⟩ : ∃ b0 R0, st.nmeaBuffer = b0 :: R0 := by
    cases hbv : st.nmeaBuffer with
    | nil => rw [hbv] at hbuf; simp at hbuf
    | cons b0 R0 => exact ⟨b0, R0, rfl⟩
  have hR0 : R0.length = 99 := by
    rw [hb] at hbuf
    simpa using hbuf
  have hfeed := compact_feed_ordinary ops g rest [36] R0
    (fun c hc => (hrest c hc).2) (by simp; omega) (by omega)
  obtain ⟨r1, R1, hR1⟩ : ∃ r1 R1, R0.drop rest.length = r1 :: R1 := by
    cases hdv : R0.drop rest.length with
    | nil =>
      have : (R0.drop rest.length).length = 0 := by rw [hdv]; rfl
      rw [List.length_drop] at this
      omega
    | cons r1 R1 => exact ⟨r1, R1, rfl⟩
  rw [hR1] at hfeed
  have hidx : [36].length + rest.length = (36 :: rest).length := by
    simp only [List.length_cons, List.length_nil]; omega
  have hbufS : [36] ++ rest ++ r1 :: R1 = (36 :: rest) ++ r1 :: R1 := by simp
  rw [hidx, hbufS] at hfeed
  have hfeed1 : Compact.feed ops rest
      { nmeaBuffer := [36] ++ R0, nmeaIndex := 1, inSentence := true } g
      = (List.replicate rest.length false,
         { nmeaBuffer := (36 :: rest) ++ r1 :: R1, nmeaIndex := (36 :: rest).length,
           inSentence := true }, g) := hfeed
  have hlenpos : 0 < (36 :: rest).length := by simp
  have hT := compact_processChar_terminator ops (36 :: rest) R1 r1 g hterm hS0 hlenpos
  have hstart : (st.nmeaBuffer.set 0 36) = [36] ++ R0 := by rw [hb]; rfl
  have hdollar : Compact.nmeaParserProcessChar ops 36 st g
      = (false, { nmeaBuffer := [36] ++ R0, nmeaIndex := 1, inSentence := true }, g) := by
    simp [Compact.nmeaParserProcessChar, hstart]
  have hcons : (36 :: rest) ++ [term] = 36 :: (rest ++ [term]) := rfl
  refine ⟨{ nmeaBuffer := (36 :: rest) ++ 0 :: R1, nmeaIndex := 0, inSentence := false }, ?_⟩
  rw [hcons]
  simp only [Compact.feed, hdollar]
  rw [compact_feed_append, hfeed1]
  simp only [Compact.feed, hT]
  simp [List.replicate_succ]

theorem strtokAll_token {tok : List Nat} (rest cur : List Nat) (h : 44 ∉ tok)
    (hne : cur ++ tok ≠ []) :
    Compact.strtokAll 44 (tok ++ 44 :: rest) cur
      = (cur ++ tok) :: Compact.strtokAll 44 rest [] := by
  induction tok generalizing cur with
  | nil =>
    simp only [List.append_nil] at hne
    simp [Compact.strtokAll, hne]
  | cons c cs ih =>
    simp only [List.mem_cons, not_or] at h
    have hc : c ≠ 44 := fun e => h.1 e.symm
    have hstep : Compact.strtokAll 44 (c :: cs ++ 44 :: rest) cur
        = Compact.strtokAll 44 (cs ++ 44 :: rest) (cur ++ [c]) := by
      simp [Compact.strtokAll, hc]
    rw [hstep, ih (cur ++ [c]) h.2 (by simp)]
    simp

theorem splitFields_status (f0 time status : List Nat) (more : List (List Nat))
    (tail : List Nat) (h0 : 44 ∉ f0) (h1 : 44 ∉ time) (h2 : 44 ∉ status) (hne : time ≠ [])
    (hst : status ≠ []) (hmore : more ≠ [])
    (hlen : (sentenceOf (f0 :: time :: status :: more) tail).length ≤ 99) :
    (Compact.splitFields (sentenceOf (f0 :: time :: status :: more) tail)).getD 2 []
      = status := by
  have hS : sentenceOf (f0 :: time :: status :: more) tail
      = (36 :: f0) ++ 44 :: (time ++ 44 :: (status ++ 44 :: (joinFields more ++ 42 :: tail))) := by
    rw [sentenceOf, joinFields_cons f0 (by simp), joinFields_cons time (by simp),
      joinFields_cons status hmore]
    simp
  have htake : strncpy (sentenceOf (f0 :: time :: status :: more) tail) 99
      = sentenceOf (f0 :: time :: status :: more) tail := List.take_of_length_le hlen
  have h0' : (44 : Nat) ∉ 36 :: f0 := by simp [h0]
  unfold Compact.splitFields
  rw [htake, hS, strtokAll_token _ [] h0' (by simp), strtokAll_token _ [] h1 (by simpa using hne),
    strtokAll_token _ [] h2 (by simpa using hst)]
  simp

theorem rmcVoidSentence_ordinary :
    ∀ c ∈ rmcVoidSentence.tail, c ≠ 0 ∧ c ≠ 36 ∧ c ≠ 13 ∧ c ≠ 10 := by
  decide

theorem rmcVoidLongSentence_ordinary :
    ∀ c ∈ rmcVoidLongSentence.tail, c ≠ 0 ∧ c ≠ 36 ∧ c ≠ 13 ∧ c ≠ 10 := by
  decide

theorem compact_shifted_latitude :
    Compact.ratOps.degMin (Compact.ratOps.atof (bytes "23"))
      (Compact.ratOps.atof (bytes "0394")) = 887 / 30 := by
  simp [Compact.ratOps, atofRat, bytes, isspace, decDigitVal, decDigits]
  norm_num

set_option maxRecDepth 100000 in
/-- C19 (the code at the failing input): `$GPRMC,123519,V,,,,,,,230394,,,N*51`,
the void sentence with empty position, speed and course fields, passes the
compact `verifyChecksum`; yet, whatever the record, feeding it followed by CR
to the compact parser in its initial state returns false on the CR as well
and leaves the whole record as it was, so `hasFix` is not cleared and
`dataValid` is not set. The tokeniser yields five tokens for it. The verbose
parser fed the same characters returns true on the CR, keeps latitude,
longitude, speed and course, sets `dataValid` and clears `hasFix`. The longer
void sentence `$GPRMC,123519,V,,,,,,,230394,003.1,W,N,1,2*29` is accepted by
the compact parser, which then stores as latitude the value of the date text
`230394` (23 degrees and 394 minutes, 887/30 over exact rationals), as speed
the value of the text `1`, as course the value of the text `2*29`, and leaves
`dataValid` and `hasFix` false. -/
theorem compact_void_example_rejected {F : Type} (cops : Compact.FloatOps F)
    (ops : FloatOps F) (g : GPSData F) :
    Compact.verifyChecksum rmcVoidSentence = true ∧
    (Compact.splitFields rmcVoidSentence).length = 5 ∧
    (∃ st', Compact.feed cops (rmcVoidSentence ++ [13]) Compact.freshState g
        = (List.replicate rmcVoidSentence.length false ++ [false], st', g)) ∧
    (∃ st' g', feed ops (rmcVoidSentence ++ [13]) freshState g
        = (List.replicate rmcVoidSentence.length false ++ [true], st', g') ∧
      g'.latitude = g.latitude ∧ g'.longitude = g.longitude ∧ g'.speed = g.speed ∧
      g'.course = g.course ∧ g'.dataValid = true ∧ g'.hasFix = false) ∧
    Compact.verifyChecksum rmcVoidLongSentence = true ∧
    (∃ st' g', Compact.feed cops (rmcVoidLongSentence ++ [13]) Compact.freshState g
        = (List.replicate rmcVoidLongSentence.length false ++ [true], st', g') ∧
      g'.latitude = cops.degMin (cops.atof (bytes "23")) (cops.atof (bytes "0394")) ∧
      g'.longitude = cops.zero ∧
      g'.speed = cops.atof (bytes "1") ∧ g'.course = cops.atof (bytes "2*29") ∧
      g'.dataValid = false ∧ g'.hasFix = false) ∧
    Compact.ratOps.degMin (Compact.ratOps.atof (bytes "23"))
      (Compact.ratOps.atof (bytes "0394")) = 887 / 30 := by
  obtain ⟨st1, h1⟩ := compact_feed_sentence cops Compact.freshState g rmcVoidSentence.tail
    (by decide) rmcVoidSentence_ordinary (by decide)
    (Or.inl rfl : (13 : Nat) = 13 ∨ (13 : Nat) = 10)
  obtain ⟨st2, h2⟩ := compact_feed_sentence cops Compact.freshState g rmcVoidLongSentence.tail
    (by decide) rmcVoidLongSentence_ordinary (by decide)
    (Or.inl rfl : (13 : Nat) = 13 ∨ (13 : Nat) = 10)
  obtain ⟨R, h3⟩ := feed_sentence ops freshState g rmcVoidSentence.tail (by decide)
    rmcVoidSentence_ordinary (by decide) (Or.inl rfl : (13 : Nat) = 13 ∨ (13 : Nat) = 10)
  have hdec : decodeSentence ops (36 :: rmcVoidSentence.tail) g
      = parseGPRMC ops (some rmcVoidSentence) g := by
    have hp : strncmpEq (36 :: rmcVoidSentence.tail) GPRMC 6 = true := by decide
    simp only [decodeSentence, hp, if_true]
    rfl
  obtain ⟨g', hg', hrest⟩ := parseGPRMC_void ops rmcVoidSentence g 7 14 22 (by decide)
    (by decide) (by decide) (by decide) (by decide) (by decide) (by decide)
  rw [hdec, hg'] at h3
  exact ⟨by decide, by decide, ⟨st1, h1⟩, ⟨_, g', h3, hrest⟩, by decide,
    ⟨st2, _, h2, rfl, rfl, rfl, rfl, rfl, rfl⟩, compact_shifted_latitude⟩

/-! ## Corruption that keeps the framing -/

theorem split_at_position (S : List Nat) (pos star c' : Nat)
    (hdollar : S.head? = some 36) (hstar : strchr S 42 = some star)
    (hlo : 0 < pos) (hhi : pos < star) :
    ∃ p q tail c, S = 36 :: ((p ++ c :: q) ++ 42 :: tail) ∧
      S.set pos c' = 36 :: ((p ++ c' :: q) ++ 42 :: tail) ∧
      deref S pos = c ∧ 42 ∉ p ∧ 42 ∉ q ∧ c ≠ 42 := by
  obtain ⟨pre0, tail, hS, hn, hl⟩ := strchr_some hstar
  subst hS
  cases pre0 with
  | nil => simp at hl; omega
  | cons d body =>
    simp only [List.cons_append, List.head?_cons, Option.some.injEq] at hdollar
    subst hdollar
    simp only [List.length_cons] at hl
    obtain ⟨k, rfl⟩ : ∃ k, pos = k + 1 := ⟨pos - 1, by omega⟩
    have hk : k < body.length := by omega
    simp only [List.mem_cons, not_or] at hn
    have hsplit : body.take k ++ body[k] :: body.drop (k + 1) = body := by
      rw [← List.drop_eq_getElem_cons hk]
      exact List.take_append_drop k body
    have hmem : body[k] ∈ body := List.getElem_mem hk
    refine ⟨body.take k, body.drop (k + 1), tail, body[k], ?_, ?_, ?_,
      fun h => hn.2 (List.mem_of_mem_take h), fun h => hn.2 (List.mem_of_mem_drop h),
      fun e => hn.2 (e ▸ hmem)⟩
    · rw [hsplit]; rfl
    · rw [List.cons_append, List.set_cons_succ, List.set_append_left _ _ hk,
        List.set_eq_take_cons_drop _ hk]
    · show ((body ++ 42 :: tail).drop k).headD 0 = body[k]
      rw [List.drop_append_of_le_length (Nat.le_of_lt hk), List.drop_eq_getElem_cons hk]
      rfl

/-- C26: when a NUL-free sentence `S` of byte characters starts with `$` and
passes `nmeaVerifyChecksum`, replacing the character at a position strictly
between the `$` and the first `*` by a different character that is neither
`*` nor NUL gives a sentence that fails `nmeaVerifyChecksum`. -/
theorem verify_detects_corruption (S : List Nat) (pos star c' : Nat)
    (hnul : 0 ∉ S) (hdollar : S.head? = some 36) (hstar : strchr S 42 = some star)
    (hlo : 0 < pos) (hhi : pos < star)
    (hv : nmeaVerifyChecksum (some S) = true)
    (hb : deref S pos < 256) (hb' : c' < 256)
    (hne : c' ≠ deref S pos) (hns : c' ≠ 42) (hnz : c' ≠ 0) :
    nmeaVerifyChecksum (some (S.set pos c')) = false := by
  obtain ⟨p, q, tail, c, hS, hset, hd, hp, hq, hc⟩ :=
    split_at_position S pos star c' hdollar hstar hlo hhi
  rw [hd] at hb hne
  rw [hS] at hnul hv
  have haux := verify_changed_aux p q tail c c' hnul hp hq hc hv hb hb' hne hns
  have hnul' : (0 : Nat) ∉ 36 :: ((p ++ c' :: q) ++ 42 :: tail) := by
    simp only [List.mem_cons, List.mem_append, not_or] at hnul ⊢
    exact ⟨hnul.1, ⟨hnul.2.1.1, fun e => hnz e.symm, hnul.2.1.2.2⟩, hnul.2.2.1, hnul.2.2.2⟩
  rw [cstr_eq_self hnul'] at haux
  rw [hset]
  exact haux

set_option maxRecDepth 100000 in
theorem verify_detects_corruption_witness :
    0 ∉ rmcSentence ∧ rmcSentence.head? = some 36 ∧ strchr rmcSentence 42 = some 65 ∧
    0 < 20 ∧ 20 < 65 ∧ nmeaVerifyChecksum (some rmcSentence) = true ∧
    deref rmcSentence 20 < 256 ∧ 57 < 256 ∧ 57 ≠ deref rmcSentence 20 ∧ 57 ≠ 42 ∧ 57 ≠ 0 ∧
    nmeaVerifyChecksum (some (rmcSentence.set 20 57)) = false :=
  ⟨by decide, by decide, by decide, by decide, by decide, by decide, by decide, by decide,
    by decide, by decide, by decide,
    verify_detects_corruption rmcSentence 20 65 57 (by decide) (by decide) (by decide)
      (by decide) (by decide) (by decide) (by decide) (by decide) (by decide) (by decide)
      (by decide)⟩

/-! ## Restart at `$` -/

theorem sameFraming_step {F : Type} (ops : FloatOps F) (c : Nat) (st1 st2 : ParserState)
    (g : GPSData F) (h : SameFraming st1 st2) :
    (nmeaParserProcessChar ops c st1 g).1 = (nmeaParserProcessChar ops c st2 g).1 ∧
    (nmeaParserProcessChar ops c st1 g).2.2 = (nmeaParserProcessChar ops c st2 g).2.2 ∧
    SameFraming (nmeaParserProcessChar ops c st1 g).2.1
      (nmeaParserProcessChar ops c st2 g).2.1 := by
  obtain ⟨hidx, hle, hl1, hl2, htake⟩ := h
  simp only [NMEA_SENTENCE_MAX_LEN] at hle hl1 hl2
  have hne1 : st1.nmeaBuffer ≠ [] := by
    intro e; rw [e] at hl1; simp at hl1
  have hne2 : st2.nmeaBuffer ≠ [] := by
    intro e; rw [e] at hl2; simp at hl2
  unfold nmeaParserProcessChar
  by_cases h1 : c = 36
  · subst h1
    simp only [if_true]
    refine ⟨trivial, trivial, rfl, by simp [NMEA_SENTENCE_MAX_LEN], by simp [NMEA_SENTENCE_MAX_LEN, hl1],
      by simp [NMEA_SENTENCE_MAX_LEN, hl2], ?_⟩
    cases hb1 : st1.nmeaBuffer with
    | nil => exact absurd hb1 hne1
    | cons a as =>
      cases hb2 : st2.nmeaBuffer with
      | nil => exact absurd hb2 hne2
      | cons b bs => simp
  · by_cases h2 : c = 13 ∨ c = 10
    · by_cases h3 : 0 < st1.nmeaBufferIndex
      · have h3' : 0 < st2.nmeaBufferIndex := by omega
        have hs1 : cstr (st1.nmeaBuffer.set st1.nmeaBufferIndex 0)
            = cstr (st1.nmeaBuffer.take st1.nmeaBufferIndex) := by
          rw [List.set_eq_take_cons_drop _ (by omega)]
          exact cstr_append_zero_any _ _
        have hs2 : cstr (st2.nmeaBuffer.set st2.nmeaBufferIndex 0)
            = cstr (st2.nmeaBuffer.take st2.nmeaBufferIndex) := by
          rw [List.set_eq_take_cons_drop _ (by omega)]
          exact cstr_append_zero_any _ _
        simp only [h1, h2, h3, h3', if_true, if_false, hs1, hs2, htake]
        refine ⟨trivial, trivial, rfl, by simp, by simp [NMEA_SENTENCE_MAX_LEN, hl1],
          by simp [NMEA_SENTENCE_MAX_LEN, hl2], by simp⟩
      · have h3' : ¬ 0 < st2.nmeaBufferIndex := by omega
        simp only [h1, h2, h3, h3', if_true, if_false]
        exact ⟨trivial, trivial, rfl, by simp, by simp [NMEA_SENTENCE_MAX_LEN, hl1],
          by simp [NMEA_SENTENCE_MAX_LEN, hl2], by simp⟩
    · by_cases h3 : st1.nmeaBufferIndex < NMEA_SENTENCE_MAX_LEN
      · have h3' : st2.nmeaBufferIndex < NMEA_SENTENCE_MAX_LEN := by rw [← hidx]; exact h3
        simp only [h1, h2, h3, h3', if_true, if_false]
        simp only [NMEA_SENTENCE_MAX_LEN] at h3 h3'
        have hm1 : (st1.nmeaBufferIndex + 1) % 256 = st1.nmeaBufferIndex + 1 :=
          Nat.mod_eq_of_lt (by omega)
        have hm2 : (st2.nmeaBufferIndex + 1) % 256 = st2.nmeaBufferIndex + 1 :=
          Nat.mod_eq_of_lt (by omega)
        rw [hm1, hm2]
        refine ⟨trivial, trivial, by simp [hidx], by simp [NMEA_SENTENCE_MAX_LEN]; omega,
          by simp [NMEA_SENTENCE_MAX_LEN, hl1], by simp [NMEA_SENTENCE_MAX_LEN, hl2], ?_⟩
        show (st1.nmeaBuffer.set st1.nmeaBufferIndex c).take (st1.nmeaBufferIndex + 1)
          = (st2.nmeaBuffer.set st2.nmeaBufferIndex c).take (st2.nmeaBufferIndex + 1)
        rw [take_succ_set c (by omega), take_succ_set c (by omega), htake]
      · have h3' : ¬ st2.nmeaBufferIndex < NMEA_SENTENCE_MAX_LEN := by rw [← hidx]; exact h3
        simp only [h1, h2, h3, h3', if_true, if_false]
        exact ⟨trivial, trivial, rfl, by simp, by simp [NMEA_SENTENCE_MAX_LEN, hl1],
          by simp [NMEA_SENTENCE_MAX_LEN, hl2], by simp⟩

theorem sameFraming_feed {F : Type} (ops : FloatOps F) :
    ∀ (cs : List Nat) (st1 st2 : ParserState) (g : GPSData F), SameFraming st1 st2 →
      (feed ops cs st1 g).1 = (feed ops cs st2 g).1 ∧
      (feed ops cs st1 g).2.2 = (feed ops cs st2 g).2.2 ∧
      (feed ops cs st1 g).2.1.nmeaBufferIndex = (feed ops cs st2 g).2.1.nmeaBufferIndex := by
  intro cs
  induction cs with
  | nil => intro st1 st2 g h; exact ⟨rfl, rfl, h.1⟩
  | cons c cs ih =>
    intro st1 st2 g h
    obtain ⟨hf, hg, hs⟩ := sameFraming_step ops c st1 st2 g h
    have := ih _ _ (nmeaParserProcessChar ops c st1 g).2.2 hs
    simp only [feed]
    rw [← hg, ← hf]
    exact ⟨by rw [this.1], this.2.1, this.2.2⟩

/-- C21: for any two settings of the parser globals (any cursors, any contents
of the 83-character buffers), the same record and the same characters
beginning with `$`, feeding the characters from either setting gives the same
returned flags, the same final record and the same final cursor. -/
theorem dollar_restarts_framing {F : Type} (ops : FloatOps F) (st1 st2 : ParserState)
    (g : GPSData F) (cs : List Nat)
    (h1 : st1.nmeaBuffer.length = NMEA_SENTENCE_MAX_LEN + 1)
    (h2 : st2.nmeaBuffer.length = NMEA_SENTENCE_MAX_LEN + 1) :
    (feed ops (36 :: cs) st1 g).1 = (feed ops (36 :: cs) st2 g).1 ∧
    (feed ops (36 :: cs) st1 g).2.2 = (feed ops (36 :: cs) st2 g).2.2 ∧
    (feed ops (36 :: cs) st1 g).2.1.nmeaBufferIndex
      = (feed ops (36 :: cs) st2 g).2.1.nmeaBufferIndex := by
  have hstart : SameFraming { nmeaBuffer := st1.nmeaBuffer.set 0 36, nmeaBufferIndex := 1 }
      { nmeaBuffer := st2.nmeaBuffer.set 0 36, nmeaBufferIndex := 1 } := by
    refine ⟨rfl, by simp [NMEA_SENTENCE_MAX_LEN], by simp [h1], by simp [h2], ?_⟩
    cases hb1 : st1.nmeaBuffer with
    | nil => rw [hb1] at h1; simp at h1
    | cons a as =>
      cases hb2 : st2.nmeaBuffer with
      | nil => rw [hb2] at h2; simp at h2
      | cons b bs => simp
  have := sameFraming_feed ops cs _ _ g hstart
  simp only [feed, processChar_dollar]
  exact ⟨by rw [this.1], this.2.1, this.2.2⟩

set_option maxRecDepth 100000 in
theorem dollar_restarts_framing_witness :
    freshState.nmeaBuffer.length = NMEA_SENTENCE_MAX_LEN + 1 ∧
    ({ nmeaBuffer := List.replicate 83 65, nmeaBufferIndex := 50 } : ParserState).nmeaBuffer.length
      = NMEA_SENTENCE_MAX_LEN + 1 ∧
    (feed ratOps (36 :: (rmcSentence.tail ++ [13])) freshState zeroRecord).1
      = (feed ratOps (36 :: (rmcSentence.tail ++ [13]))
          { nmeaBuffer := List.replicate 83 65, nmeaBufferIndex := 50 } zeroRecord).1 ∧
    (feed ratOps (36 :: (rmcSentence.tail ++ [13])) freshState zeroRecord).2.2
      = (feed ratOps (36 :: (rmcSentence.tail ++ [13]))
          { nmeaBuffer := List.replicate 83 65, nmeaBufferIndex := 50 } zeroRecord).2.2 ∧
    (feed ratOps (36 :: (rmcSentence.tail ++ [13])) freshState zeroRecord).2.1.nmeaBufferIndex
      = (feed ratOps (36 :: (rmcSentence.tail ++ [13]))
          { nmeaBuffer := List.replicate 83 65, nmeaBufferIndex := 50 }
          zeroRecord).2.1.nmeaBufferIndex :=
  ⟨by decide, by decide,
    dollar_restarts_framing ratOps freshState
      { nmeaBuffer := List.replicate 83 65, nmeaBufferIndex := 50 } zeroRecord
      (rmcSentence.tail ++ [13]) (by decide) (by decide)⟩

/-! ## Range of the time and date -/

theorem parseTime_inRange (t : Option (List Nat)) :
    (parseTimeFromNMEAString t).1 ≤ 23 ∧ (parseTimeFromNMEAString t).2.1 ≤ 59 ∧
      (parseTimeFromNMEAString t).2.2 ≤ 59 := by
  unfold parseTimeFromNMEAString
  split
  · refine ⟨?_, ?_, ?_⟩ <;> simp only [] <;> split_ifs <;> omega
  · exact ⟨by norm_num, by norm_num, by norm_num⟩

theorem parseDate_inRange (t : Option (List Nat)) :
    (1 ≤ (parseDateFromNMEAString t).1 ∧ (parseDateFromNMEAString t).1 ≤ 31) ∧
      (1 ≤ (parseDateFromNMEAString t).2.1 ∧ (parseDateFromNMEAString t).2.1 ≤ 12) ∧
      (parseDateFromNMEAString t).2.2 ≤ 99 := by
  unfold parseDateFromNMEAString
  split
  · refine ⟨?_, ?_, ?_⟩ <;> simp only [] <;> split_ifs <;> omega
  · exact ⟨by norm_num, by norm_num, by norm_num⟩

theorem parseGPRMC_inRange {F : Type} (ops : FloatOps F) (sentence : Option (List Nat))
    (g : GPSData F) (h : TimeDateInRange g) :
    TimeDateInRange (parseGPRMC ops sentence g).2 := by
  cases hr : (parseGPRMC ops sentence g).1 with
  | false => rw [parseGPRMC_false ops sentence g hr]; exact h
  | true =>
    obtain ⟨s, tOff, stOff, dOff, rfl, hpre, hv, ht, hs, hd⟩ :=
      parseGPRMC_true_inv ops sentence g hr
    obtain ⟨lat, lon, sp, co, hshape⟩ := parseGPRMC_shape ops s g tOff stOff dOff hpre hv ht hs hd
    rw [hshape]
    obtain ⟨t1, t2, t3⟩ := parseTime_inRange (some (copyField (s.drop tOff) 15))
    obtain ⟨d1, d2, d3⟩ := parseDate_inRange (some (copyField (s.drop dOff) 6))
    exact ⟨t1, t2, t3, d1.1, d1.2, d2.1, d2.2, d3⟩

theorem parseGPGGA_inRange {F : Type} (ops : FloatOps F) (sentence : Option (List Nat))
    (g : GPSData F) (h : TimeDateInRange g) :
    TimeDateInRange (parseGPGGA ops sentence g).2 := by
  cases hr : (parseGPGGA ops sentence g).1 with
  | false => rw [parseGPGGA_false ops sentence g hr]; exact h
  | true =>
    obtain ⟨s, qOff, rfl, hpre, hv, hq⟩ := parseGPGGA_true_inv ops sentence g hr
    obtain ⟨sats, lat, lon, alt, acc, hshape, -⟩ := parseGPGGA_shape ops s g qOff hpre hv hq
    rw [hshape]
    exact h

/-- C22: if the record has hours ≤ 23, minutes ≤ 59, seconds ≤ 59,
1 ≤ days ≤ 31, 1 ≤ months ≤ 12 and years ≤ 99, then after any call of
`nmeaParserProcessChar`, whatever the parser state and the buffered
characters, the record still satisfies the six bounds. -/
theorem processChar_keeps_time_in_range {F : Type} (ops : FloatOps F) (c : Nat)
    (st : ParserState) (g : GPSData F) (h : TimeDateInRange g) :
    TimeDateInRange (nmeaParserProcessChar ops c st g).2.2 := by
  unfold nmeaParserProcessChar
  by_cases h1 : c = 36
  · simp only [h1, if_true]; exact h
  · by_cases h2 : c = 13 ∨ c = 10
    · by_cases h3 : 0 < st.nmeaBufferIndex
      · simp only [h1, h2, h3, if_true, if_false]
        by_cases h4 : strncmpEq (cstr (st.nmeaBuffer.set st.nmeaBufferIndex 0)) GPRMC 6 = true
        · simp only [h4, if_true]
          exact parseGPRMC_inRange ops _ g h
        · by_cases h5 : strncmpEq (cstr (st.nmeaBuffer.set st.nmeaBufferIndex 0)) GPGGA 6 = true
          · simp only [h4, h5, if_true, Bool.false_eq_true, if_false]
            exact parseGPGGA_inRange ops _ g h
          · simp only [h4, h5, Bool.false_eq_true, if_false]
            exact h
      · simp only [h1, h2, h3, if_true, if_false]; exact h
    · by_cases h3 : st.nmeaBufferIndex < NMEA_SENTENCE_MAX_LEN
      · simp only [h1, h2, h3, if_true, if_false]; exact h
      · simp only [h1, h2, h3, if_false]; exact h

set_option maxRecDepth 100000 in
theorem processChar_keeps_time_in_range_witness :
    TimeDateInRange datedRecord ∧
    TimeDateInRange (nmeaParserProcessChar ratOps 13
      (feed ratOps (sentenceOf rmcOutOfRangeFields
        (checksumDigits true true (joinFields rmcOutOfRangeFields))) freshState datedRecord).2.1
      datedRecord).2.2 :=
  ⟨by decide, processChar_keeps_time_in_range ratOps 13 _ datedRecord (by decide)⟩

/-! ## The compact parser at inputs it mishandles -/

set_option maxRecDepth 100000 in
/-- C23 (the code at the failing input): the compact `verifyChecksum` returns
true on `$AA*`, in which nothing follows the `*`, and feeding
`$GPRMC,123519,A,4807.038,N,01131.000,E,022.4,084.4,230394,003.1,W,F*`, which
has no checksum digits, followed by CR to the compact parser returns true on
the CR. -/
theorem compact_verify_accepts_missing_digits :
    strchr (bytes "$AA*") 42 = some 3 ∧ (bytes "$AA*").drop 4 = [] ∧
    Compact.verifyChecksum (bytes "$AA*") = true ∧
    strchr rmcNoDigitsSentence 42 = some (rmcNoDigitsSentence.length - 1) ∧
    Compact.verifyChecksum rmcNoDigitsSentence = true ∧
    (Compact.feed Compact.ratOps (rmcNoDigitsSentence ++ [13]) Compact.freshState
        zeroRecord).1
      = List.replicate rmcNoDigitsSentence.length false ++ [true] := by
  decide

theorem rmcNoSpeedSentence_ordinary :
    ∀ c ∈ rmcNoSpeedSentence.tail, c ≠ 0 ∧ c ≠ 36 ∧ c ≠ 13 ∧ c ≠ 10 := by
  decide

set_option maxRecDepth 100000 in
/-- C24 (the code at the failing input): in
`$GPRMC,123519,A,4807.038,N,01131.000,E,,084.4,230394,003.1,W*40` the speed
(field 7) is empty and the course (field 8) is `084.4`; fed to the compact parser in
its initial state and followed by CR, the sentence is accepted and stores as
speed the value of the course text and as course the value of the date text
`230394`. -/
theorem compact_empty_speed_shifts_fields {F : Type} (ops : Compact.FloatOps F)
    (g : GPSData F) :
    rmcNoSpeedSentence
      = bytes "$GPRMC,123519,A,4807.038,N,01131.000,E,,084.4,230394,003.1,W*40" ∧
    rmcNoSpeedFields[7]? = some [] ∧ rmcNoSpeedFields[8]? = some (bytes "084.4") ∧
    Compact.verifyChecksum rmcNoSpeedSentence = true ∧
    ∃ st' g', Compact.feed ops (rmcNoSpeedSentence ++ [13]) Compact.freshState g
        = (List.replicate rmcNoSpeedSentence.length false ++ [true], st', g') ∧
      g'.speed = ops.atof (bytes "084.4") ∧ g'.course = ops.atof (bytes "230394") := by
  obtain ⟨st', h⟩ := compact_feed_sentence ops Compact.freshState g rmcNoSpeedSentence.tail
    (by decide) rmcNoSpeedSentence_ordinary (by decide)
    (Or.inl rfl : (13 : Nat) = 13 ∨ (13 : Nat) = 10)
  exact ⟨by decide, by decide, by decide, by decide, st', _, h, rfl, rfl⟩

/-! ## Coordinates -/

theorem foldl_dec (l : List Nat) (acc : Nat) :
    l.foldl (fun acc c => acc * 10 + (c - 48)) acc = acc * 10 ^ l.length + decValue l := by
  induction l generalizing acc with
  | nil => simp [decValue]
  | cons c cs ih =>
    have h1 := ih (acc * 10 + (c - 48))
    have h2 := ih (0 * 10 + (c - 48))
    simp only [decValue, List.foldl_cons, List.length_cons] at h1 h2 ⊢
    rw [h1, h2]
    ring

theorem decValue_cons (c : Nat) (cs : List Nat) :
    decValue (c :: cs) = (c - 48) * 10 ^ cs.length + decValue cs := by
  have h := foldl_dec cs (0 * 10 + (c - 48))
  simp only [decValue, List.foldl_cons] at h ⊢
  rw [h]
  simp

theorem fracDigits_digits {l : List Nat} (junk : List Nat)
    (hl : ∀ c ∈ l, 48 ≤ c ∧ c ≤ 57) (hj : junk = [] ∨ ∃ j, junk = 42 :: j) :
    fracDigits (l ++ junk) = (decValue l, l.length) := by
  induction l with
  | nil =>
    rcases hj with hj | ⟨j, hj⟩
    · simp [hj, fracDigits, decValue]
    · simp [hj, fracDigits, decDigitVal, decValue]
  | cons c cs ih =>
    have hc := hl c (by simp)
    have hv : decDigitVal c = some (c - 48) := by simp [decDigitVal, hc.1, hc.2]
    have hstep : fracDigits (c :: cs ++ junk)
        = ((c - 48) * 10 ^ (fracDigits (cs ++ junk)).2 + (fracDigits (cs ++ junk)).1,
            (fracDigits (cs ++ junk)).2 + 1) := by
      simp [fracDigits, hv]
    rw [hstep, ih (fun x hx => hl x (by simp [hx])), decValue_cons]
    rfl

theorem decDigits_stop {l : List Nat} (c : Nat) (r : List Nat) (acc : Nat)
    (hl : ∀ c ∈ l, 48 ≤ c ∧ c ≤ 57) (hc : decDigitVal c = none) :
    decDigits acc (l ++ c :: r) = l.foldl (fun acc c => acc * 10 + (c - 48)) acc := by
  induction l generalizing acc with
  | nil => simp [decDigits, hc]
  | cons x xs ih =>
    have hx := hl x (by simp)
    have hv : decDigitVal x = some (x - 48) := by simp [decDigitVal, hx.1, hx.2]
    have hstep : decDigits acc (x :: xs ++ c :: r)
        = decDigits (acc * 10 + (x - 48)) (xs ++ c :: r) := by
      simp [decDigits, hv]
    rw [hstep, ih _ (fun y hy => hl y (by simp [hy]))]
    rfl

theorem dropWhile_digits {l : List Nat} (c : Nat) (r : List Nat)
    (hl : ∀ c ∈ l, 48 ≤ c ∧ c ≤ 57) (hc : decDigitVal c = none) :
    (l ++ c :: r).dropWhile (fun c => (decDigitVal c).isSome) = c :: r := by
  induction l with
  | nil => simp [List.dropWhile, hc]
  | cons x xs ih =>
    have hx := hl x (by simp)
    have hv : decDigitVal x = some (x - 48) := by simp [decDigitVal, hx.1, hx.2]
    rw [List.cons_append, List.dropWhile_cons_of_pos (by simp [hv])]
    exact ih (fun y hy => hl y (by simp [hy]))

theorem atofRat_nonsign {c : Nat} (r : List Nat) (hsp : isspace c = false) (h45 : c ≠ 45)
    (h43 : c ≠ 43) :
    atofRat (c :: r) =
      (decDigits 0 (c :: r) : ℚ)
        + (((match (c :: r).dropWhile (fun c => (decDigitVal c).isSome) with
              | 46 :: r => fracDigits r
              | _ => (0, 0)) : Nat × Nat).1 : ℚ)
          / ((10 : ℚ) ^ ((match (c :: r).dropWhile (fun c => (decDigitVal c).isSome) with
              | 46 :: r => fracDigits r
              | _ => (0, 0)) : Nat × Nat).2) := by
  unfold atofRat
  rw [List.dropWhile_cons_of_neg (by simp [hsp])]
  have hneg : (match c :: r with | 45 :: _ => true | _ => false) = false := by
    split
    · rename_i heq
      simp only [List.cons.injEq] at heq
      exact absurd heq.1 h45
    · rfl
  have hs2 : (match c :: r with | 45 :: r => r | 43 :: r => r | r => r) = c :: r := by
    split
    · rename_i heq
      simp only [List.cons.injEq] at heq
      exact absurd heq.1 h45
    · rename_i heq
      simp only [List.cons.injEq] at heq
      exact absurd heq.1 h43
    · rfl
  simp only [hneg, hs2, Bool.false_eq_true, if_false]

theorem atofRat_decimal {ip fp : List Nat} (junk : List Nat) (hne : ip ≠ [])
    (hip : ∀ c ∈ ip, 48 ≤ c ∧ c ≤ 57) (hfp : ∀ c ∈ fp, 48 ≤ c ∧ c ≤ 57)
    (hj : junk = [] ∨ ∃ j, junk = 42 :: j) :
    atofRat (ip ++ 46 :: (fp ++ junk))
      = (decValue ip : ℚ) + (decValue fp : ℚ) / ((10 : ℚ) ^ fp.length) := by
  have h46 : decDigitVal 46 = none := by decide
  have hdw := dropWhile_digits 46 (fp ++ junk) hip h46
  have hdd := decDigits_stop 46 (fp ++ junk) 0 hip h46
  cases ip with
  | nil => exact absurd rfl hne
  | cons c cs =>
    have hc := hip c (by simp)
    have hsp : isspace c = false := by
      cases h : isspace c with
      | false => rfl
      | true =>
        simp only [isspace, Bool.or_eq_true, beq_iff_eq, Bool.and_eq_true,
          decide_eq_true_eq] at h
        omega
    rw [List.cons_append] at hdw hdd ⊢
    rw [atofRat_nonsign _ hsp (by omega) (by omega), hdw, hdd]
    simp only [fracDigits_digits junk hfp hj]
    rfl
theorem parseLatitude_decimal {dd mm fp : List Nat} (junk : List Nat) (ns : Nat)
    (hdd : dd.length = 2) (hmm : mm.length = 2)
    (hd : ∀ c ∈ dd ++ mm ++ fp, 48 ≤ c ∧ c ≤ 57) (hj : junk = [] ∨ ∃ j, junk = 42 :: j) :
    parseLatitudeFromNMEA ratOps (some ((dd ++ mm ++ 46 :: fp) ++ junk)) ns
      = if ns = 83 ∨ ns = 115 then - degreesOf dd mm fp else degreesOf dd mm fp := by
  obtain ⟨x, y, rfl⟩ : ∃ x y, dd = [x, y] := by
    match dd, hdd with
    | [x, y], _ => exact ⟨x, y, rfl⟩
  obtain ⟨u, v, rfl⟩ : ∃ u v, mm = [u, v] := by
    match mm, hmm with
    | [u, v], _ => exact ⟨u, v, rfl⟩
  have hat : atoi [x, y] = (decValue [x, y] : Int) := by
    have h := @atoi_digits [x, y] [] (by simp)
      (fun c hc => hd c (by simp only [List.mem_append]; exact Or.inl (Or.inl hc))) (Or.inl rfl)
    simpa using h
  have haf : atofRat (u :: v :: 46 :: (fp ++ junk))
      = (decValue [u, v] : ℚ) + (decValue fp : ℚ) / ((10 : ℚ) ^ fp.length) :=
    @atofRat_decimal [u, v] fp junk (by simp)
      (fun c hc => hd c (by simp only [List.mem_append]; exact Or.inl (Or.inr hc)))
      (fun c hc => hd c (by simp only [List.mem_append]; exact Or.inr hc)) hj
  have hshape : ([x, y] ++ [u, v] ++ 46 :: fp) ++ junk
      = x :: y :: u :: v :: (46 :: (fp ++ junk)) := by simp
  rw [hshape]
  simp only [parseLatitudeFromNMEA, ratOps, hat, haf, degreesOf, Int.cast_natCast]

theorem parseLongitude_decimal {dd mm fp : List Nat} (junk : List Nat) (ew : Nat)
    (hdd : dd.length = 3) (hmm : mm.length = 2)
    (hd : ∀ c ∈ dd ++ mm ++ fp, 48 ≤ c ∧ c ≤ 57) (hj : junk = [] ∨ ∃ j, junk = 42 :: j) :
    parseLongitudeFromNMEA ratOps (some ((dd ++ mm ++ 46 :: fp) ++ junk)) ew
      = if ew = 87 ∨ ew = 119 then - degreesOf dd mm fp else degreesOf dd mm fp := by
  obtain ⟨x, y, z, rfl⟩ : ∃ x y z, dd = [x, y, z] := by
    match dd, hdd with
    | [x, y, z], _ => exact ⟨x, y, z, rfl⟩
  obtain ⟨u, v, rfl⟩ : ∃ u v, mm = [u, v] := by
    match mm, hmm with
    | [u, v], _ => exact ⟨u, v, rfl⟩
  have hat : atoi [x, y, z] = (decValue [x, y, z] : Int) := by
    have h := @atoi_digits [x, y, z] [] (by simp)
      (fun c hc => hd c (by simp only [List.mem_append]; exact Or.inl (Or.inl hc))) (Or.inl rfl)
    simpa using h
  have haf : atofRat (u :: v :: 46 :: (fp ++ junk))
      = (decValue [u, v] : ℚ) + (decValue fp : ℚ) / ((10 : ℚ) ^ fp.length) :=
    @atofRat_decimal [u, v] fp junk (by simp)
      (fun c hc => hd c (by simp only [List.mem_append]; exact Or.inl (Or.inr hc)))
      (fun c hc => hd c (by simp only [List.mem_append]; exact Or.inr hc)) hj
  have hshape : ([x, y, z] ++ [u, v] ++ 46 :: fp) ++ junk
      = x :: y :: z :: u :: v :: (46 :: (fp ++ junk)) := by simp
  rw [hshape]
  simp only [parseLongitudeFromNMEA, ratOps, hat, haf, degreesOf, Int.cast_natCast]

theorem parseGPRMC_position {F : Type} (ops : FloatOps F) (s : List Nat) (g : GPSData F)
    (tOff stOff dOff latOff nsOff lonOff ewOff : Nat)
    (hpre : strncmpEq s GPRMC 6 = true) (hv : nmeaVerifyChecksum (some s) = true)
    (ht : nmeaGetField (some s) 1 = some tOff) (hs : nmeaGetField (some s) 2 = some stOff)
    (hd : nmeaGetField (some s) 9 = some dOff)
    (hfix : (deref s stOff == 65 || deref s stOff == 97) = true)
    (hlat : nmeaGetField (some s) 3 = some latOff) (hns : nmeaGetField (some s) 4 = some nsOff)
    (hlon : nmeaGetField (some s) 5 = some lonOff)
    (hew : nmeaGetField (some s) 6 = some ewOff) :
    ∃ g', parseGPRMC ops (some s) g = (true, g') ∧
      g'.latitude
        = parseLatitudeFromNMEA ops (some (copyField (s.drop latOff) 15)) (deref s nsOff) ∧
      g'.longitude
        = parseLongitudeFromNMEA ops (some (copyField (s.drop lonOff) 15)) (deref s ewOff) := by
  simp only [parseGPRMC, hpre, hv, ht, hs, hd, hfix, hlat, hns, hlon, hew, Bool.not_true,
    Bool.false_eq_true, if_false]
  cases nmeaGetField (some s) 7 <;> cases nmeaGetField (some s) 8 <;>
    exact ⟨_, rfl, rfl, rfl⟩

theorem copyField_short {fi : List Nat} (rest : List Nat) {d : Nat} (cap : Nat)
    (h44 : 44 ∉ fi) (hd : d = 44 ∨ d = 42) (hlen : fi.length ≤ cap) :
    ∃ junk, copyField (fi ++ d :: rest) cap = fi ++ junk ∧
      (junk = [] ∨ ∃ j, junk = 42 :: j) := by
  obtain ⟨junk, h, hj⟩ := copyField_field rest cap h44 hd
  exact ⟨junk, by rw [h, List.take_of_length_le hlen], hj⟩

/-- C25: for every checksum-valid sentence `$f0,...,fn*tail` that begins with
`$GPRMC`, has non-empty time and date fields, a status that starts with `A` or
`a`, a latitude field `DDMM.f` and a longitude field `DDDMM.f` made of decimal
digits around the point and at most 15 characters long, and non-empty
direction fields, `parseGPRMC` over exact rationals returns true and stores
latitude = DD + (MM.f / 60), negated exactly when the latitude direction
starts with `S` or `s`, and longitude = DDD + (MM.f / 60), negated exactly
when the longitude direction starts with `W` or `w`. -/
theorem rmc_coordinates_converted (g : GPSData ℚ) (fields : List (List Nat))
    (tail time status date latD latM latF ns lonD lonM lonF ew : List Nat)
    (hok : ∀ f ∈ fields, 44 ∉ f ∧ 42 ∉ f ∧ 0 ∉ f)
    (hbegin : GPRMC <+: sentenceOf fields tail)
    (hv : nmeaVerifyChecksum (some (sentenceOf fields tail)) = true)
    (h1 : fields[1]? = some time) (h2 : fields[2]? = some status)
    (h3 : fields[3]? = some (latD ++ latM ++ 46 :: latF)) (h4 : fields[4]? = some ns)
    (h5 : fields[5]? = some (lonD ++ lonM ++ 46 :: lonF)) (h6 : fields[6]? = some ew)
    (h9 : fields[9]? = some date)
    (hne : time ≠ [] ∧ date ≠ [] ∧ ns ≠ [] ∧ ew ≠ [])
    (hst : status.head? = some 65 ∨ status.head? = some 97)
    (hlat : latD.length = 2 ∧ latM.length = 2 ∧ (latD ++ latM ++ 46 :: latF).length ≤ 15)
    (hlon : lonD.length = 3 ∧ lonM.length = 2 ∧ (lonD ++ lonM ++ 46 :: lonF).length ≤ 15)
    (hdig : ∀ c ∈ (latD ++ latM ++ latF) ++ (lonD ++ lonM ++ lonF), 48 ≤ c ∧ c ≤ 57) :
    ∃ g', parseGPRMC ratOps (some (sentenceOf fields tail)) g = (true, g') ∧
      g'.latitude = (if ns.head? = some 83 ∨ ns.head? = some 115
        then - degreesOf latD latM latF else degreesOf latD latM latF) ∧
      g'.longitude = (if ew.head? = some 87 ∨ ew.head? = some 119
        then - degreesOf lonD lonM lonF else degreesOf lonD lonM lonF) := by
  have hsne : status ≠ [] := by
    rintro rfl
    simp at hst
  obtain ⟨hg1, -⟩ := getField_nonempty fields tail 1 time hok h1 (by norm_num) hne.1
  obtain ⟨hg2, hd2⟩ := getField_nonempty fields tail 2 status hok h2 (by norm_num) hsne
  obtain ⟨hg3, -⟩ := getField_nonempty fields tail 3 _ hok h3 (by norm_num) (by simp)
  obtain ⟨hg4, hd4⟩ := getField_nonempty fields tail 4 ns hok h4 (by norm_num) hne.2.2.1
  obtain ⟨hg5, -⟩ := getField_nonempty fields tail 5 _ hok h5 (by norm_num) (by simp)
  obtain ⟨hg6, hd6⟩ := getField_nonempty fields tail 6 ew hok h6 (by norm_num) hne.2.2.2
  obtain ⟨hg9, -⟩ := getField_nonempty fields tail 9 date hok h9 (by norm_num) hne.2.1
  have hfix : (deref (sentenceOf fields tail) (fieldOffset fields 2) == 65
      || deref (sentenceOf fields tail) (fieldOffset fields 2) == 97) = true := by
    rcases hst with h | h
    · rw [h, Option.some.injEq] at hd2
      simp [hd2]
    · rw [h, Option.some.injEq] at hd2
      simp [hd2]
  obtain ⟨g', hres, hla, hlo⟩ := parseGPRMC_position ratOps _ g _ _ _ _ _ _ _
    (strncmpEq_of_begins hbegin) hv hg1 hg2 hg9 hfix hg3 hg4 hg5 hg6
  obtain ⟨d3, r3, hdel3, hdrop3⟩ := drop_fieldOffset fields tail 3 _ h3
  obtain ⟨d5, r5, hdel5, hdrop5⟩ := drop_fieldOffset fields tail 5 _ h5
  obtain ⟨j3, hc3, hj3⟩ := copyField_short r3 15 (hok _ (List.getElem?_mem h3)).1 hdel3 hlat.2.2
  obtain ⟨j5, hc5, hj5⟩ := copyField_short r5 15 (hok _ (List.getElem?_mem h5)).1 hdel5 hlon.2.2
  refine ⟨g', hres, ?_, ?_⟩
  · rw [hla, hdrop3, hc3, parseLatitude_decimal j3 _ hlat.1 hlat.2.1
      (fun c hc => hdig c (List.mem_append_left _ hc)) hj3]
    simp only [← hd4, Option.some.injEq]
  · rw [hlo, hdrop5, hc5, parseLongitude_decimal j5 _ hlon.1 hlon.2.1
      (fun c hc => hdig c (List.mem_append_right _ hc)) hj5]
    simp only [← hd6, Option.some.injEq]

set_option maxRecDepth 100000 in
theorem rmc_coordinates_converted_witness :
    (∀ f ∈ rmcFields, 44 ∉ f ∧ 42 ∉ f ∧ 0 ∉ f) ∧
    GPRMC <+: sentenceOf rmcFields (bytes "6A") ∧
    nmeaVerifyChecksum (some (sentenceOf rmcFields (bytes "6A"))) = true ∧
    rmcFields[1]? = some (bytes "123519") ∧ rmcFields[2]? = some (bytes "A") ∧
    rmcFields[3]? = some (bytes "48" ++ bytes "07" ++ 46 :: bytes "038") ∧
    rmcFields[4]? = some (bytes "N") ∧
    rmcFields[5]? = some (bytes "011" ++ bytes "31" ++ 46 :: bytes "000") ∧
    rmcFields[6]? = some (bytes "E") ∧ rmcFields[9]? = some (bytes "230394") ∧
    (bytes "123519" ≠ [] ∧ bytes "230394" ≠ [] ∧ bytes "N" ≠ [] ∧ bytes "E" ≠ []) ∧
    ((bytes "A").head? = some 65 ∨ (bytes "A").head? = some 97) ∧
    ((bytes "48").length = 2 ∧ (bytes "07").length = 2 ∧
      (bytes "48" ++ bytes "07" ++ 46 :: bytes "038").length ≤ 15) ∧
    ((bytes "011").length = 3 ∧ (bytes "31").length = 2 ∧
      (bytes "011" ++ bytes "31" ++ 46 :: bytes "000").length ≤ 15) ∧
    (∀ c ∈ (bytes "48" ++ bytes "07" ++ bytes "038")
        ++ (bytes "011" ++ bytes "31" ++ bytes "000"), 48 ≤ c ∧ c ≤ 57) ∧
    ∃ g', parseGPRMC ratOps (some (sentenceOf rmcFields (bytes "6A"))) zeroRecord
        = (true, g') ∧
      g'.latitude = (if (bytes "N").head? = some 83 ∨ (bytes "N").head? = some 115
        then - degreesOf (bytes "48") (bytes "07") (bytes "038")
        else degreesOf (bytes "48") (bytes "07") (bytes "038")) ∧
      g'.longitude = (if (bytes "E").head? = some 87 ∨ (bytes "E").head? = some 119
        then - degreesOf (bytes "011") (bytes "31") (bytes "000")
        else degreesOf (bytes "011") (bytes "31") (bytes "000")) :=
  ⟨by decide, by decide, by decide, by decide, by decide, by decide, by decide, by decide,
    by decide, by decide, by decide, by decide, by decide, by decide, by decide,
    rmc_coordinates_converted zeroRecord rmcFields (bytes "6A") (bytes "123519") (bytes "A")
      (bytes "230394") (bytes "48") (bytes "07") (bytes "038") (bytes "N") (bytes "011")
      (bytes "31") (bytes "000") (bytes "E") (by decide) (by decide) (by decide) (by decide)
      (by decide) (by decide) (by decide) (by decide) (by decide) (by decide) (by decide)
      (by decide) (by decide) (by decide) (by decide)⟩

theorem degreesOf_examples :
    degreesOf (bytes "48") (bytes "07") (bytes "038") = 48 + (7038 / 1000) / 60 ∧
    degreesOf (bytes "011") (bytes "31") (bytes "000") = 11 + 31 / 60 := by
  have h1 : decValue (bytes "48") = 48 := by decide
  have h2 : decValue (bytes "07") = 7 := by decide
  have h3 : decValue (bytes "038") = 38 := by decide
  have h4 : decValue (bytes "011") = 11 := by decide
  have h5 : decValue (bytes "31") = 31 := by decide
  have h6 : decValue (bytes "000") = 0 := by decide
  have h7 : (bytes "038").length = 3 := by decide
  have h8 : (bytes "000").length = 3 := by decide
  simp only [degreesOf, h1, h2, h3, h4, h5, h6, h7, h8]
  constructor <;> norm_num

theorem ggaFix_position {F : Type} (ops : FloatOps F) (s : List Nat) (g4 : GPSData F)
    (latOff nsOff lonOff ewOff : Nat)
    (hlat : nmeaGetField (some s) 2 = some latOff) (hns : nmeaGetField (some s) 3 = some nsOff)
    (hlon : nmeaGetField (some s) 4 = some lonOff)
    (hew : nmeaGetField (some s) 5 = some ewOff) :
    (ggaFix ops s g4).latitude
        = parseLatitudeFromNMEA ops (some (copyField (s.drop latOff) 15)) (deref s nsOff) ∧
      (ggaFix ops s g4).longitude
        = parseLongitudeFromNMEA ops (some (copyField (s.drop lonOff) 15)) (deref s ewOff) := by
  simp only [ggaFix, hlat, hns, hlon, hew]
  cases nmeaGetField (some s) 8 <;> cases nmeaGetField (some s) 9 <;> exact ⟨rfl, rfl⟩

theorem parseGPGGA_position {F : Type} (ops : FloatOps F) (s : List Nat) (g : GPSData F)
    (qOff latOff nsOff lonOff ewOff : Nat)
    (hpre : strncmpEq s GPGGA 6 = true) (hv : nmeaVerifyChecksum (some s) = true)
    (hq : nmeaGetField (some s) 6 = some qOff)
    (hpos : 0 < toUInt8 (atoi (copyField (s.drop qOff) 3)))
    (hlat : nmeaGetField (some s) 2 = some latOff) (hns : nmeaGetField (some s) 3 = some nsOff)
    (hlon : nmeaGetField (some s) 4 = some lonOff)
    (hew : nmeaGetField (some s) 5 = some ewOff) :
    ∃ g', parseGPGGA ops (some s) g = (true, g') ∧
      g'.latitude
        = parseLatitudeFromNMEA ops (some (copyField (s.drop latOff) 15)) (deref s nsOff) ∧
      g'.longitude
        = parseLongitudeFromNMEA ops (some (copyField (s.drop lonOff) 15)) (deref s ewOff) := by
  rw [parseGPGGA_eq ops s g qOff hpre hv hq]
  obtain ⟨sats, hsats⟩ := ggaSatellites_shape s
    { g with quality := toUInt8 (atoi (copyField (s.drop qOff) 3)) }
  rw [hsats]
  have hpos' : 0 < ({ ({ g with quality := toUInt8 (atoi (copyField (s.drop qOff) 3)) }
      : GPSData F) with satellites := sats }).quality := hpos
  rw [if_pos hpos']
  obtain ⟨h1, h2⟩ := ggaFix_position ops s
    { ({ ({ g with quality := toUInt8 (atoi (copyField (s.drop qOff) 3)) } : GPSData F) with
        satellites := sats } : GPSData F) with hasFix := true }
    latOff nsOff lonOff ewOff hlat hns hlon hew
  exact ⟨_, rfl, h1, h2⟩

/-- The GGA decoder converts coordinates as the RMC decoder does: for every
checksum-valid sentence `$f0,...,fn*tail` that begins with `$GPGGA`, has a
quality field of one to three decimal digits with value from 1 to 255, a
latitude field `DDMM.f` and a longitude field `DDDMM.f` of at most 15
characters and non-empty direction fields, `parseGPGGA` over exact rationals
returns true and stores latitude = DD + (MM.f / 60), negated exactly when the
direction starts with `S` or `s`, and longitude = DDD + (MM.f / 60), negated
exactly when the direction starts with `W` or `w`. -/
theorem gga_coordinates_converted (g : GPSData ℚ) (fields : List (List Nat))
    (tail q latD latM latF ns lonD lonM lonF ew : List Nat)
    (hok : ∀ f ∈ fields, 44 ∉ f ∧ 42 ∉ f ∧ 0 ∉ f)
    (hbegin : GPGGA <+: sentenceOf fields tail)
    (hv : nmeaVerifyChecksum (some (sentenceOf fields tail)) = true)
    (h2 : fields[2]? = some (latD ++ latM ++ 46 :: latF)) (h3 : fields[3]? = some ns)
    (h4 : fields[4]? = some (lonD ++ lonM ++ 46 :: lonF)) (h5 : fields[5]? = some ew)
    (h6 : fields[6]? = some q)
    (hne : q ≠ [] ∧ ns ≠ [] ∧ ew ≠ [])
    (hq : q.length ≤ 3 ∧ 0 < decValue q ∧ decValue q ≤ 255)
    (hlat : latD.length = 2 ∧ latM.length = 2 ∧ (latD ++ latM ++ 46 :: latF).length ≤ 15)
    (hlon : lonD.length = 3 ∧ lonM.length = 2 ∧ (lonD ++ lonM ++ 46 :: lonF).length ≤ 15)
    (hqdig : ∀ c ∈ q, 48 ≤ c ∧ c ≤ 57)
    (hdig : ∀ c ∈ (latD ++ latM ++ latF) ++ (lonD ++ lonM ++ lonF), 48 ≤ c ∧ c ≤ 57) :
    ∃ g', parseGPGGA ratOps (some (sentenceOf fields tail)) g = (true, g') ∧
      g'.latitude = (if ns.head? = some 83 ∨ ns.head? = some 115
        then - degreesOf latD latM latF else degreesOf latD latM latF) ∧
      g'.longitude = (if ew.head? = some 87 ∨ ew.head? = some 119
        then - degreesOf lonD lonM lonF else degreesOf lonD lonM lonF) := by
  obtain ⟨hg2, -⟩ := getField_nonempty fields tail 2 _ hok h2 (by norm_num) (by simp)
  obtain ⟨hg3, hd3⟩ := getField_nonempty fields tail 3 ns hok h3 (by norm_num) hne.2.1
  obtain ⟨hg4, -⟩ := getField_nonempty fields tail 4 _ hok h4 (by norm_num) (by simp)
  obtain ⟨hg5, hd5⟩ := getField_nonempty fields tail 5 ew hok h5 (by norm_num) hne.2.2
  obtain ⟨hg6, -⟩ := getField_nonempty fields tail 6 q hok h6 (by norm_num) hne.1
  obtain ⟨d6, r6, hdel6, hdrop6⟩ := drop_fieldOffset fields tail 6 q h6
  obtain ⟨j6, hc6, hj6⟩ := copyField_short r6 3 (hok q (List.getElem?_mem h6)).1 hdel6 hq.1
  have hpos : 0 < toUInt8 (atoi (copyField
      ((sentenceOf fields tail).drop (fieldOffset fields 6)) 3)) := by
    rw [hdrop6, hc6, atoi_digits j6 hne.1 hqdig hj6, toUInt8_natCast,
      Nat.mod_eq_of_lt (by omega)]
    exact hq.2.1
  obtain ⟨g', hres, hla, hlo⟩ := parseGPGGA_position ratOps _ g _ _ _ _ _
    (strncmpEq_of_begins hbegin) hv hg6 hpos hg2 hg3 hg4 hg5
  obtain ⟨d2, r2, hdel2, hdrop2⟩ := drop_fieldOffset fields tail 2 _ h2
  obtain ⟨d4, r4, hdel4, hdrop4⟩ := drop_fieldOffset fields tail 4 _ h4
  obtain ⟨j2, hc2, hj2⟩ := copyField_short r2 15 (hok _ (List.getElem?_mem h2)).1 hdel2 hlat.2.2
  obtain ⟨j4, hc4, hj4⟩ := copyField_short r4 15 (hok _ (List.getElem?_mem h4)).1 hdel4 hlon.2.2
  refine ⟨g', hres, ?_, ?_⟩
  · rw [hla, hdrop2, hc2, parseLatitude_decimal j2 _ hlat.1 hlat.2.1
      (fun c hc => hdig c (List.mem_append_left _ hc)) hj2]
    simp only [← hd3, Option.some.injEq]
  · rw [hlo, hdrop4, hc4, parseLongitude_decimal j4 _ hlon.1 hlon.2.1
      (fun c hc => hdig c (List.mem_append_right _ hc)) hj4]
    simp only [← hd5, Option.some.injEq]

set_option maxRecDepth 100000 in
theorem gga_coordinates_converted_example :
    ∃ g', parseGPGGA ratOps (some (sentenceOf ggaFields (bytes "47"))) zeroRecord
        = (true, g') ∧
      g'.latitude = degreesOf (bytes "48") (bytes "07") (bytes "038") ∧
      g'.longitude = degreesOf (bytes "011") (bytes "31") (bytes "000") :=
  gga_coordinates_converted zeroRecord ggaFields (bytes "47") (bytes "1") (bytes "48")
    (bytes "07") (bytes "038") (bytes "N") (bytes "011") (bytes "31") (bytes "000") (bytes "E")
    (by decide) (by decide) (by decide) (by decide) (by decide) (by decide) (by decide)
    (by decide) (by decide) (by decide) (by decide) (by decide) (by decide) (by decide)

end Nmea
